import Mathlib

/-
  Verification of the MeshLib half-edge mesh core (CBaseMesh / CDynamicMesh /
  CBoundary) against its natural-language specification.

  The C++ pointer graph is shallowly embedded as an arena-based state:
  every entity kind (vertex, edge, face, half-edge) lives in a growable
  arena `List (Option rec)`; a C++ pointer becomes a `Nat` index, the C++
  NULL pointer becomes `none` in an `Option Nat` field, and deleting an
  entity sets its arena slot to `none`.  The mesh's `std::list` containers
  (m_verts, m_edges, m_faces, m_halfedges) become lists of indices.
  A C++ operation that dereferences NULL or a freed pointer has undefined
  behaviour (a crash in practice); such operations are modelled as
  functions returning `Option`, with `none` meaning the crash.  Failed
  `assert`s and diagnostic prints do not stop release builds, so they are
  modelled as ghost counters carried in the state (`asserts_failed`,
  `illegal_msgs`, `errs`).

  Geometric payloads (positions, uv, normals, trait strings) never appear
  in the claims and are omitted from the records; the `double` edge length
  is modelled as an opaque stored `Int` (the source never initialises it;
  only its ordering is used by the boundary tracer).
-/

set_option maxRecDepth 4000
set_option maxHeartbeats 1000000

/-- A half-edge record: target vertex, owning edge, owning face and the
next/prev half-edges of the face cycle, all nullable pointers in the C++
source (`CHalfEdge` in mesh.h). -/
structure CHalfEdge where
  vertex : Option Nat
  edge : Option Nat
  face : Option Nat
  next : Option Nat
  prev : Option Nat
  deriving DecidableEq

/-- An edge record: the two half-edge slots (`m_halfedge[0]`, `m_halfedge[1]`)
and the stored length (`m_length`, uninitialised in the source, kept opaque
here). -/
structure CEdge where
  he0 : Option Nat
  he1 : Option Nat
  length : Int
  deriving DecidableEq

/-- A vertex record: id, representative incoming half-edge (`m_halfedge`),
boundary flag, the load-time candidate-edge list `m_ledges`, the
lazily-populated incident-half-edge cache `m_halfedges` (filled by
`create_face` via `in_halfedges()`), and the lazily-computed incident-edge
cache `m_edges`. -/
structure CVertex where
  id : Int
  halfedge : Option Nat
  boundary : Bool
  ledges : List Nat
  inHE : List Nat
  edgesCache : List Nat
  deriving DecidableEq

/-- A face record: id and one incident half-edge. -/
structure CFace where
  id : Int
  halfedge : Option Nat
  deriving DecidableEq

/-- The mesh state (`CBaseMesh` + the `CDynamicMesh` id counters).  The four
arenas allocate by appending; the four `std::list` containers are lists of
arena indices; `m_map_vert`/`m_map_face` are association lists with
`std::map::insert` semantics (an existing key is never overwritten).
`asserts_failed` counts failed C `assert`s, `illegal_msgs` counts
"Illegal Face Construction" prints, `errs` counts the other diagnostic
prints; all three are ghost observers of release-build behaviour. -/
structure CBaseMesh where
  vA : List (Option CVertex)
  eA : List (Option CEdge)
  fA : List (Option CFace)
  hA : List (Option CHalfEdge)
  vertsL : List Nat
  edgesL : List Nat
  facesL : List Nat
  halfedgesL : List Nat
  mapVert : List (Int × Nat)
  mapFace : List (Int × Nat)
  dynVertexId : Int
  dynFaceId : Int
  asserts_failed : Nat
  illegal_msgs : Nat
  errs : Nat
  deriving DecidableEq

/-- The empty mesh. -/
def emptyMesh : CBaseMesh :=
  ⟨[], [], [], [], [], [], [], [], [], [], 0, 0, 0, 0, 0⟩

/-- Read an arena slot: `none` both for an out-of-range index and for a
slot whose entity has been deleted. -/
def arenaGet (l : List (Option α)) (i : Nat) : Option α :=
  (l.get? i).join

/-- Modify the record at one arena index, if present. -/
def arenaMod (f : α → α) : Nat → List (Option α) → List (Option α)
  | _, [] => []
  | 0, none :: t => none :: t
  | 0, some a :: t => some (f a) :: t
  | n + 1, x :: t => x :: arenaMod f n t

/-- Clear one arena slot (entity deletion). -/
def arenaDel : Nat → List (Option α) → List (Option α)
  | _, [] => []
  | 0, _ :: t => none :: t
  | n + 1, x :: t => x :: arenaDel n t

/-- Association-list lookup, first binding wins (`std::map` holds at most
one binding per key, and `insert` below preserves that). -/
def mapLookup (k : Int) : List (Int × Nat) → Option Nat
  | [] => none
  | (k', v) :: t => if k' = k then some v else mapLookup k t

/-- `std::map::insert`: a present key is left unchanged. -/
def mapInsert (l : List (Int × Nat)) (k : Int) (v : Nat) : List (Int × Nat) :=
  if (mapLookup k l).isSome then l else l ++ [(k, v)]

/-- `std::map::erase` by key. -/
def mapErase (k : Int) : List (Int × Nat) → List (Int × Nat)
  | [] => []
  | (k', v) :: t => if k' = k then t else (k', v) :: mapErase k t

-- Field readers on the mesh.

/-- Look up a live half-edge record. -/
def getH (m : CBaseMesh) (i : Nat) : Option CHalfEdge := arenaGet m.hA i

/-- Look up a live edge record. -/
def getE (m : CBaseMesh) (i : Nat) : Option CEdge := arenaGet m.eA i

/-- Look up a live vertex record. -/
def getV (m : CBaseMesh) (i : Nat) : Option CVertex := arenaGet m.vA i

/-- Look up a live face record. -/
def getF (m : CBaseMesh) (i : Nat) : Option CFace := arenaGet m.fA i

/-- Update a half-edge record in place. -/
def updH (m : CBaseMesh) (i : Nat) (f : CHalfEdge → CHalfEdge) : CBaseMesh :=
  { m with hA := arenaMod f i m.hA }

/-- Update an edge record in place. -/
def updE (m : CBaseMesh) (i : Nat) (f : CEdge → CEdge) : CBaseMesh :=
  { m with eA := arenaMod f i m.eA }

/-- Update a vertex record in place. -/
def updV (m : CBaseMesh) (i : Nat) (f : CVertex → CVertex) : CBaseMesh :=
  { m with vA := arenaMod f i m.vA }

/-- Update a face record in place. -/
def updF (m : CBaseMesh) (i : Nat) (f : CFace → CFace) : CBaseMesh :=
  { m with fA := arenaMod f i m.fA }

/-- Allocate a half-edge (`new CHalfEdge`), returning its index. -/
def pushH (m : CBaseMesh) (r : CHalfEdge) : CBaseMesh × Nat :=
  ({ m with hA := m.hA ++ [some r] }, m.hA.length)

/-- Allocate an edge (`new CEdge`), returning its index. -/
def pushE (m : CBaseMesh) (r : CEdge) : CBaseMesh × Nat :=
  ({ m with eA := m.eA ++ [some r] }, m.eA.length)

/-- Allocate a vertex (`new CVertex`), returning its index. -/
def pushV (m : CBaseMesh) (r : CVertex) : CBaseMesh × Nat :=
  ({ m with vA := m.vA ++ [some r] }, m.vA.length)

/-- Allocate a face (`new CFace`), returning its index. -/
def pushF (m : CBaseMesh) (r : CFace) : CBaseMesh × Nat :=
  ({ m with fA := m.fA ++ [some r] }, m.fA.length)

-- Derived half-edge accessors (each `none` is a crash of the C++ chain,
-- except where noted).

/-- `he->vertex()` / `he->target()`. -/
def heTarget (m : CBaseMesh) (h : Nat) : Option Nat :=
  (getH m h).bind (·.vertex)

/-- `he->next()` as a value (the field may legitimately be NULL). -/
def heNextF (m : CBaseMesh) (h : Nat) : Option Nat :=
  (getH m h).bind (·.next)

/-- `he->prev()` as a value. -/
def hePrevF (m : CBaseMesh) (h : Nat) : Option Nat :=
  (getH m h).bind (·.prev)

/-- `he->source()` = `m_prev->vertex()`: crashes when `prev` is NULL. -/
def heSource (m : CBaseMesh) (h : Nat) : Option Nat := do
  let r ← getH m h
  let p ← r.prev
  let pr ← getH m p
  pr.vertex

/-- `CEdge::other(he)`: `(he != m_halfedge[0]) ? m_halfedge[0] : m_halfedge[1]`. -/
def edgeOther (er : CEdge) (h : Nat) : Option Nat :=
  if er.he0 = some h then er.he1 else er.he0

/-- `he->dual()` = `m_edge->other(this)`; the outer `Option` is the crash
when the half-edge or its edge is missing, the inner `Option Nat` is the
returned pointer value (NULL for a boundary half-edge). -/
def heDualV (m : CBaseMesh) (h : Nat) : Option (Option Nat) := do
  let r ← getH m h
  let e ← r.edge
  let er ← getE m e
  pure (edgeOther er h)

/-- `he->dual()` flattened: `some` only when the call succeeds and returns a
non-NULL dual. -/
def heDual (m : CBaseMesh) (h : Nat) : Option Nat :=
  (heDualV m h).join


-- ===================================================================
-- Euler operators (mesh.h)
-- ===================================================================

/-- `CBaseMesh::create_vertex(id)`: allocate, set id, push onto `m_verts`,
insert into `m_map_vert` (an existing binding for `id` is kept). -/
def create_vertex (m : CBaseMesh) (id : Int) : CBaseMesh × Nat :=
  let p := pushV m ⟨id, none, false, [], [], []⟩
  ({ p.1 with vertsL := p.1.vertsL ++ [p.2],
              mapVert := mapInsert p.1.mapVert id p.2 }, p.2)

/-- The search loop of `create_edge`: scan a candidate list for an edge
whose slot-0 half-edge joins `v1` and `v2` (in either direction).  The
outer `none` is the crash dereferencing an absent edge, an empty slot 0
(`pH->source()` on NULL) or a broken source chain; `some none` means the
scan finished without a match. -/
def ceLook (m : CBaseMesh) (v1 v2 : Nat) : List Nat → Option (Option Nat)
  | [] => some none
  | e :: rest => do
    let er ← getE m e
    let h0 ← er.he0
    let s ← heSource m h0
    let t ← heTarget m h0
    if (s = v1 ∧ t = v2) ∨ (s = v2 ∧ t = v1) then pure (some e)
    else ceLook m v1 v2 rest

/-- The allocation path of `create_edge`: a fresh edge with both slots
empty, pushed onto `m_edges` and onto `pV`'s candidate list. -/
def ceAlloc (m : CBaseMesh) (pV : Nat) : CBaseMesh × Nat :=
  let p := pushE m ⟨none, none, 0⟩
  let m1 := { p.1 with edgesL := p.1.edgesL ++ [p.2] }
  (updV m1 pV (fun vr => { vr with ledges := vr.ledges ++ [p.2] }), p.2)

/-- `CBaseMesh::create_edge(v1, v2)`: search the candidate list (`ledges`)
of the endpoint with the smaller id; on a miss allocate a fresh edge with
both slots empty, push it onto `m_edges` and onto that single candidate
list. -/
def create_edge (m : CBaseMesh) (v1 v2 : Nat) : Option (CBaseMesh × Nat) := do
  let r1 ← getV m v1
  let r2 ← getV m v2
  let pV := if r1.id < r2.id then v1 else v2
  let pr := if r1.id < r2.id then r1 else r2
  let res ← ceLook m v1 v2 pr.ledges
  match res with
  | some e => pure (m, e)
  | none => pure (ceAlloc m pV)

/-- The half-edge allocation loop of `create_face`: one half-edge per
vertex, targeting it, re-seating the vertex representative and pushing
onto the vertex's `in_halfedges()` cache and the mesh's half-edge list. -/
def cfAllocHes (m : CBaseMesh) : List Nat → Option (CBaseMesh × List Nat)
  | [] => some (m, [])
  | v :: vs => do
    let _ ← getV m v
    let p := pushH m ⟨some v, none, none, none, none⟩
    let m1 := updV p.1 v
      (fun vr => { vr with halfedge := some p.2, inHE := vr.inHE ++ [p.2] })
    let m2 := { m1 with halfedgesL := m1.halfedgesL ++ [p.2] }
    let rest ← cfAllocHes m2 vs
    pure (rest.1, p.2 :: rest.2)

/-- The `next`/`prev` linking loop of `create_face`. -/
def cfLink (m : CBaseMesh) (hes : List Nat) : CBaseMesh :=
  (List.range hes.length).foldl
    (fun mm i =>
      updH mm (hes.getD i 0)
        (fun r => { r with
          next := some (hes.getD ((i + 1) % hes.length) 0),
          prev := some (hes.getD ((i + hes.length - 1) % hes.length) 0) })) m

/-- The face linking loop of `create_face`: each half-edge gets the face,
and the face's representative ends at the last half-edge. -/
def cfFacePass (m : CBaseMesh) (f : Nat) (hes : List Nat) : CBaseMesh :=
  hes.foldl
    (fun mm he =>
      updF (updH mm he (fun r => { r with face := some f })) f
        (fun fr => { fr with halfedge := some he })) m

/-- The edge resolution loop of `create_face`, iterating over positions:
resolve the edge between `vs[i]` and `vs[i+n-1 mod n]` through
`create_edge`, fill slot 0 if empty, otherwise assert slot 1 empty (a
failure prints "Illegal Face Construction") and overwrite slot 1. -/
def cfEdgePass (m : CBaseMesh) (vs hes : List Nat) : List Nat → Option CBaseMesh
  | [] => some m
  | i :: rest => do
    let n := hes.length
    let p ← create_edge m (vs.getD i 0) (vs.getD ((i + n - 1) % n) 0)
    let m1 := p.1
    let e := p.2
    let er ← getE m1 e
    let hi := hes.getD i 0
    let m2 :=
      if er.he0 = none then updE m1 e (fun r => { r with he0 := some hi })
      else
        let m1' :=
          if er.he1.isSome then
            { m1 with asserts_failed := m1.asserts_failed + 1,
                      illegal_msgs := m1.illegal_msgs + 1 }
          else m1
        updE m1' e (fun r => { r with he1 := some hi })
    let m3 := updH m2 hi (fun r => { r with edge := some e })
    cfEdgePass m3 vs hes rest

/-- `CBaseMesh::create_face(vs, id)`: allocate the face, register it in
`m_faces` and `m_map_face`, run the four loops of the source in order. -/
def create_face (m : CBaseMesh) (vs : List Nat) (id : Int) :
    Option (CBaseMesh × Nat) := do
  let p := pushF m ⟨id, none⟩
  let m1 := { p.1 with facesL := p.1.facesL ++ [p.2],
                       mapFace := mapInsert p.1.mapFace id p.2 }
  let q ← cfAllocHes m1 vs
  let m2 := cfLink q.1 q.2
  let m3 := cfFacePass m2 p.2 q.2
  let m4 ← cfEdgePass m3 vs q.2 (List.range q.2.length)
  pure (m4, p.2)

/-- Source and target of a half-edge in one read. -/
def heST (m : CBaseMesh) (h : Nat) : Option (Nat × Nat) := do
  let s ← heSource m h
  let t ← heTarget m h
  pure (s, t)

/-- The ids of a (source, target) vertex pair. -/
def vidPair (m : CBaseMesh) (p : Nat × Nat) : Option (Int × Int) := do
  let sr ← getV m p.1
  let tr ← getV m p.2
  pure (sr.id, tr.id)

/-- `e->vertex1()->id()` and `e->vertex2()->id()` (read through slot 0). -/
def edgeV12Ids (m : CBaseMesh) (e : Nat) : Option (Int × Int) := do
  let er ← getE m e
  let h0 ← er.he0
  let p ← heST m h0
  vidPair m p

/-- The per-edge pass of `label_boundary`: an interior edge gets its slots
ordered so that slot 0 runs from the smaller to the larger vertex id (two
asserts observe the dual invariant); a boundary edge marks both endpoint
vertices boundary. -/
def lbEdgePass (m : CBaseMesh) : List Nat → Option CBaseMesh
  | [] => some m
  | e :: rest => do
    let er ← getE m e
    let m0 := if er.he0.isNone then
        { m with asserts_failed := m.asserts_failed + 1 } else m
    let h0 ← er.he0
    match er.he1 with
    | some h1 => do
      let p0 ← heST m0 h0
      let p1 ← heST m0 h1
      let m1 := if p0.2 = p1.1 ∧ p0.1 = p1.2 then m0
        else { m0 with asserts_failed := m0.asserts_failed + 1 }
      let ids ← vidPair m1 p0
      let m2 := if ids.2 < ids.1 then
          updE m1 e (fun r => { r with he0 := some h1, he1 := some h0 })
        else m1
      let chk ← edgeV12Ids m2 e
      let m3 := if chk.1 < chk.2 then m2
        else { m2 with asserts_failed := m2.asserts_failed + 1 }
      lbEdgePass m3 rest
    | none => do
      let p0 ← heST m0 h0
      let m1 := updV m0 p0.2 (fun v => { v with boundary := true })
      let m2 := updV m1 p0.1 (fun v => { v with boundary := true })
      lbEdgePass m2 rest

/-- `CBaseMesh::label_boundary()`: the edge pass, then removal (and
deallocation) of vertices whose representative half-edge is NULL.  The
source's final rep-rearrangement block is commented out and therefore not
modelled; `m_map_vert` keeps its (now dangling) bindings, as in the
source. -/
def label_boundary (m : CBaseMesh) : Option CBaseMesh := do
  let m1 ← lbEdgePass m m.edgesL
  let dang := m1.vertsL.filter
    (fun v => ((getV m1 v).elim false (fun vr => vr.halfedge.isNone)))
  pure { m1 with
    vertsL := m1.vertsL.filter (fun v => !(dang.contains v)),
    vA := dang.foldl (fun a v => arenaDel v a) m1.vA }

/-- The representative re-seating loop of `delete_face`: when the target's
representative is the dying half-edge, both branches of the source assign
`pH->next()->dual()` (possibly NULL); the else branch merely asserts
`pH->dual() != NULL` first. -/
def dfRepPass (m : CBaseMesh) : List Nat → Option CBaseMesh
  | [] => some m
  | h :: rest => do
    let pV ← heTarget m h
    let vr ← getV m pV
    let m1 ←
      if vr.halfedge = some h then do
        let n ← heNextF m h
        let d ← heDualV m n
        if d.isSome then pure (updV m pV (fun v => { v with halfedge := d }))
        else do
          let dh ← heDualV m h
          let m' := if dh.isSome then m
            else { m with asserts_failed := m.asserts_failed + 1 }
          pure (updV m' pV (fun v => { v with halfedge := d }))
      else pure m
    dfRepPass m1 rest

/-- The edge clearing loop of `delete_face`: slot 0 becomes the dual (or
NULL), slot 1 becomes NULL; an edge whose dual was NULL is removed from
`m_edges` and deallocated — the endpoints' candidate lists (`m_ledges`)
are not touched by the source. -/
def dfEdgePass (m : CBaseMesh) : List Nat → Option CBaseMesh
  | [] => some m
  | h :: rest => do
    let pS ← heDualV m h
    let r ← getH m h
    let e ← r.edge
    let m1 := updE m e (fun er => { er with he0 := pS, he1 := none })
    let m2 :=
      if pS.isNone then
        { m1 with edgesL := m1.edgesL.filter (fun x => !(x == e)),
                  eA := arenaDel e m1.eA }
      else m1
    dfEdgePass m2 rest

/-- `CBaseMesh::delete_face(f)`: unregister the face, walk its three
half-edges, re-seat representatives, clear edge slots, deallocate the
half-edges (which the source does NOT remove from `m_halfedges`) and the
face. -/
def delete_face (m : CBaseMesh) (f : Nat) : Option CBaseMesh := do
  let fr ← getF m f
  let m1 := { m with mapFace := mapErase fr.id m.mapFace,
                     facesL := m.facesL.filter (fun x => !(x == f)) }
  let h0 ← fr.halfedge
  let h1 ← heNextF m1 h0
  let h2 ← heNextF m1 h1
  let m2 ← dfRepPass m1 [h0, h1, h2]
  let m3 ← dfEdgePass m2 [h0, h1, h2]
  let m4 := { m3 with hA := arenaDel h2 (arenaDel h1 (arenaDel h0 m3.hA)) }
  pure { m4 with fA := arenaDel f m4.fA }

-- ===================================================================
-- Fan traversal queries (CVertex members in mesh.h)
-- ===================================================================

/-- `he->ccw_rotate_about_target()` = `dual() ? dual()->prev() : NULL`;
outer `none` is a crash, the inner option is the returned pointer. -/
def ccwRotTargetV (m : CBaseMesh) (h : Nat) : Option (Option Nat) := do
  let d ← heDualV m h
  match d with
  | none => pure none
  | some d' => do
    let r ← getH m d'
    pure r.prev

/-- `he->clw_rotate_about_source()` = `dual() ? dual()->next() : NULL`. -/
def clwRotSourceV (m : CBaseMesh) (h : Nat) : Option (Option Nat) := do
  let d ← heDualV m h
  match d with
  | none => pure none
  | some d' => do
    let r ← getH m d'
    pure r.next

/-- `he->ccw_rotate_about_source()` = `prev()->dual()` (a NULL `prev`
crashes the `dual()` call). -/
def ccwRotSourceV (m : CBaseMesh) (h : Nat) : Option (Option Nat) := do
  let r ← getH m h
  let p ← r.prev
  heDualV m p

/-- The rotation loop of `most_ccw_in_halfedge` for a boundary vertex:
each step stores the rotated half-edge into the vertex's representative
(`m_halfedge = he`), a caching side effect of the query. -/
def mostCcwInAux (m : CBaseMesh) (v cur : Nat) : Nat → Option (CBaseMesh × Nat)
  | 0 => none
  | fuel + 1 => do
    let o ← ccwRotTargetV m cur
    match o with
    | none => pure (m, cur)
    | some ne =>
      let m1 := updV m v (fun vr => { vr with halfedge := some ne })
      mostCcwInAux m1 v ne fuel

/-- `CVertex::most_ccw_in_halfedge()`: an interior vertex returns its
representative unchanged; a boundary vertex rotates ccw about the target
until the dual is NULL, re-seating the representative along the way. -/
def mostCcwIn (m : CBaseMesh) (v : Nat) (fuel : Nat) :
    Option (CBaseMesh × Nat) := do
  let vr ← getV m v
  let rep ← vr.halfedge
  if vr.boundary then mostCcwInAux m v rep fuel
  else pure (m, rep)

/-- The rotation loop of `most_clw_out_halfedge` for a boundary vertex. -/
def mostClwOutAux (m : CBaseMesh) (cur : Nat) : Nat → Option Nat
  | 0 => none
  | fuel + 1 => do
    let o ← clwRotSourceV m cur
    match o with
    | none => pure cur
    | some ne => mostClwOutAux m ne fuel

/-- `CVertex::most_clw_out_halfedge()`: for a boundary vertex, start from
`m_halfedge->next()` and rotate clockwise about the source until the dual
is NULL; for an interior vertex, `most_ccw_out_halfedge()` (which is
`m_halfedge->dual()`) rotated ccw about the source once.  This query does
not mutate the vertex.  The inner option is the returned pointer value. -/
def mostClwOut (m : CBaseMesh) (v : Nat) (fuel : Nat) : Option (Option Nat) := do
  let vr ← getV m v
  let rep ← vr.halfedge
  if vr.boundary then do
    let rr ← getH m rep
    let he ← rr.next
    let r ← mostClwOutAux m he fuel
    pure (some r)
  else do
    let d ← heDualV m rep
    let d' ← d
    ccwRotSourceV m d'

/-- The collection loop of `CVertex::halfedges(1)` when the cache is
empty: rotate ccw about the source from the starting half-edge, stopping
at NULL or when back at the start. -/
def vertexHalfedgesFan (m : CBaseMesh) (he0 : Nat) :
    Nat → Nat → Option (List Nat)
  | _, 0 => none
  | cur, fuel + 1 => do
    let o ← ccwRotSourceV m cur
    match o with
    | none => pure []
    | some ne =>
      if ne = he0 then pure []
      else do
        let rest ← vertexHalfedgesFan m he0 ne fuel
        pure (ne :: rest)

/-- `CVertex::halfedges(1)`: return the `m_halfedges` cache when it is
non-empty (after bulk construction it holds the in-half-edges pushed by
`create_face`); otherwise compute the outgoing fan from
`most_clw_out_halfedge()` and store it.  (The source would store a NULL
entry when `most_clw_out` returns NULL; modelled as the crash it causes
at the first later dereference.) -/
def vertexHalfedges (m : CBaseMesh) (v : Nat) (fuel : Nat) :
    Option (CBaseMesh × List Nat) := do
  let vr ← getV m v
  if vr.inHE ≠ [] then pure (m, vr.inHE)
  else do
    let o ← mostClwOut m v fuel
    let he0 ← o
    let rest ← vertexHalfedgesFan m he0 he0 fuel
    let l := he0 :: rest
    let m1 := updV m v (fun r => { r with inHE := l })
    pure (m1, l)

/-- `CVertex::edges()`: when the `m_edges` cache is empty, rebuild it from
`halfedges()` (mapping each cached half-edge to its edge) and, for a
boundary vertex, append the edge of `most_ccw_in_halfedge()` (which may
re-seat the representative); the result is stored in the cache. -/
def vertexEdges (m : CBaseMesh) (v : Nat) (fuel : Nat) :
    Option (CBaseMesh × List Nat) := do
  let vr ← getV m v
  if vr.edgesCache ≠ [] then pure (m, vr.edgesCache)
  else do
    let p ← vertexHalfedges m v fuel
    let m1 := updV p.1 v (fun r => { r with inHE := p.2 })
    let es ← p.2.mapM (fun h => do
      let r ← getH m1 h
      r.edge)
    let q ←
      if vr.boundary then do
        let c ← mostCcwIn m1 v fuel
        let r ← getH c.1 c.2
        let e ← r.edge
        pure (c.1, es ++ [e])
      else pure (m1, es)
    let m2 := updV q.1 v (fun r => { r with edgesCache := q.2 })
    pure (m2, q.2)

-- ===================================================================
-- Dynamic editor (dynamicmesh.h)
-- ===================================================================

/-- `CDynamicMesh::__attach_halfedge_to_edge(he0, he1, e)`: set both edge
slots and both half-edge back-pointers. -/
def attachHE (m : CBaseMesh) (a b e : Nat) : CBaseMesh :=
  let m1 := updE m e (fun er => { er with he0 := some a, he1 := some b })
  let m2 := updH m1 a (fun r => { r with edge := some e })
  updH m2 b (fun r => { r with edge := some e })

/-- Allocate one face and three mutually linked half-edges (the repeated
"new CFace / new CHalfEdge / linking" block of `splitFace`); the face id
is `++m_face_id` and its representative ends at the third half-edge. -/
def newTriFace (m : CBaseMesh) : CBaseMesh × Nat × Nat × Nat × Nat :=
  let pf := pushF { m with dynFaceId := m.dynFaceId + 1 } ⟨m.dynFaceId + 1, none⟩
  let m1 := { pf.1 with facesL := pf.1.facesL ++ [pf.2] }
  let pa0 := pushH m1 ⟨none, none, none, none, none⟩
  let pa1 := pushH pa0.1 ⟨none, none, none, none, none⟩
  let pa2 := pushH pa1.1 ⟨none, none, none, none, none⟩
  let m2 := updH pa2.1 pa0.2
    (fun r => { r with next := some pa1.2, prev := some pa2.2, face := some pf.2 })
  let m3 := updH m2 pa1.2
    (fun r => { r with next := some pa2.2, prev := some pa0.2, face := some pf.2 })
  let m4 := updH m3 pa2.2
    (fun r => { r with next := some pa0.2, prev := some pa1.2, face := some pf.2 })
  let m5 := updF m4 pf.2 (fun r => { r with halfedge := some pa2.2 })
  (m5, pf.2, pa0.2, pa1.2, pa2.2)

/-- Set the target vertex of each listed half-edge. -/
def setTargets (m : CBaseMesh) : List (Nat × Nat) → CBaseMesh
  | [] => m
  | (h, v) :: rest =>
    setTargets (updH m h (fun r => { r with vertex := some v })) rest

/-- The local data `splitFace` reads before mutating: the face's three
half-edges, their targets, edges and duals. -/
structure SFLocal where
  h0 : Nat
  h1 : Nat
  h2 : Nat
  v0 : Nat
  v1 : Nat
  v2 : Nat
  eg0 : Nat
  eg1 : Nat
  eg2 : Nat
  hs0 : Option Nat
  hs1 : Option Nat
  hs2 : Option Nat
  deriving DecidableEq

/-- A half-edge and its two successors in the face cycle. -/
def faceTriple (m : CBaseMesh) (h : Nat) : Option (Nat × Nat × Nat) := do
  let r ← getH m h
  let h1 ← r.next
  let r1 ← getH m h1
  let h2 ← r1.next
  pure (h, h1, h2)

/-- Apply a fallible read to three half-edges. -/
def triM (f : Nat → Option α) (t : Nat × Nat × Nat) : Option (α × α × α) := do
  let a ← f t.1
  let b ← f t.2.1
  let c ← f t.2.2
  pure (a, b, c)

/-- The read-only prologue of `splitFace`: the face's three half-edges,
their targets, edges and duals. -/
def sfGather (m : CBaseMesh) (f : Nat) : Option SFLocal := do
  let fr ← getF m f
  let h0 ← fr.halfedge
  let t ← faceTriple m h0
  let vs ← triM (heTarget m) t
  let es ← triM (fun h => (getH m h).bind (fun r => r.edge)) t
  let ds ← triM (heDualV m) t
  pure ⟨t.1, t.2.1, t.2.2, vs.1, vs.2.1, vs.2.2,
        es.1, es.2.1, es.2.2, ds.1, ds.2.1, ds.2.2⟩

/-- The six `__attach_halfedge_to_edge` calls of `splitFace`, in source
order; a NULL dual argument is the crash of `he1->edge() = e`. -/
def sfAttach (m : CBaseMesh) (L : SFLocal)
    (a0 a1 a2 b0 b1 b2 e0 e1 e2 : Nat) : Option CBaseMesh := do
  let m := attachHE m L.h1 a0 e0
  let m := attachHE m a2 b1 e1
  let m := attachHE m L.h2 b0 e2
  let hs0 ← L.hs0
  let m := attachHE m L.h0 hs0 L.eg0
  let hs1 ← L.hs1
  let m := attachHE m a1 hs1 L.eg1
  let hs2 ← L.hs2
  pure (attachHE m b2 hs2 L.eg2)

/-- The closing rep assignments of `splitFace`:
`v[i]->halfedge() = hs[i]->dual()` for the three original vertices. -/
def sfReps (m : CBaseMesh) (L : SFLocal) : Option CBaseMesh := do
  let hs0 ← L.hs0
  let hs1 ← L.hs1
  let hs2 ← L.hs2
  let d0 ← heDualV m hs0
  let m ← pure (updV m L.v0 (fun v => { v with halfedge := d0 }))
  let d1 ← heDualV m hs1
  let m ← pure (updV m L.v1 (fun v => { v with halfedge := d1 }))
  let d2 ← heDualV m hs2
  pure (updV m L.v2 (fun v => { v with halfedge := d2 }))

/-- The allocation prefix of `splitFace`: the new vertex, the two new
faces with their three half-edges each, and the three new edges appended
to `m_edges`. -/
def sfBuild (m0 : CBaseMesh) : CBaseMesh :=
  let pv := create_vertex { m0 with dynVertexId := m0.dynVertexId + 1 }
    (m0.dynVertexId + 1)
  let t1 := newTriFace pv.1
  let t2 := newTriFace t1.1
  let qe0 := pushE t2.1 ⟨none, none, 0⟩
  let qe1 := pushE qe0.1 ⟨none, none, 0⟩
  let qe2 := pushE qe1.1 ⟨none, none, 0⟩
  { qe2.1 with edgesL := qe2.1.edgesL ++ [qe0.2, qe1.2, qe2.2] }

/-- The eight target assignments of `splitFace`, in source order. -/
def sfTargets (L : SFLocal) (pV a0 a1 a2 b0 b1 b2 : Nat) :
    List (Nat × Nat) :=
  [(L.h1, pV), (L.h2, L.v2), (a0, L.v0), (a1, L.v1), (a2, pV),
   (b0, pV), (b1, L.v1), (b2, L.v2)]

/-- `CDynamicMesh::splitFace(f)`: insert a vertex inside a triangle,
reusing the face for one result triangle, allocating two faces, six
half-edges and three edges (none of which are pushed onto `m_halfedges`
or any candidate list by the source), rewiring exactly as the source
does.  A face with a boundary edge makes `__attach_halfedge_to_edge`
dereference a NULL dual: modelled as `none`. -/
def splitFace (m0 : CBaseMesh) (f : Nat) : Option (CBaseMesh × Nat) := do
  let pv := create_vertex { m0 with dynVertexId := m0.dynVertexId + 1 }
    (m0.dynVertexId + 1)
  let pV := pv.2
  let L ← sfGather pv.1 f
  let h := m0.hA.length
  let e := m0.eA.length
  let m ← sfAttach (sfBuild m0) L
    h (h + 1) (h + 2) (h + 3) (h + 4) (h + 5) e (e + 1) (e + 2)
  let m := updV m pV (fun v => { v with halfedge := some L.h1 })
  let m := setTargets m
    (sfTargets L pV h (h + 1) (h + 2) (h + 3) (h + 4) (h + 5))
  let m ← sfReps m L
  pure (m, pV)

/-- Which slot of `er` holds `h` (`pi[i]` in the source): `false` for
slot 0, otherwise slot 1. -/
def slotIndexOf (er : CEdge) (h : Nat) : Bool := !(er.he0 == some h)

/-- Ghost count for the source's `assert(pe[i]->halfedge(1) == he)` taken
in the slot-1 branch. -/
def slotAssertFail (er : CEdge) (h : Nat) : Nat :=
  if er.he0 = some h then 0 else if er.he1 = some h then 0 else 1

/-- `pe[i]->halfedge(pi[i]) = he`. -/
def setSlot (m : CBaseMesh) (e : Nat) (slot1 : Bool) (h : Nat) : CBaseMesh :=
  updE m e (fun er =>
    if slot1 then { er with he1 := some h } else { er with he0 := some h })

/-- `he->edge()` together with the record of that edge. -/
def getEdgeOf (m : CBaseMesh) (h : Nat) : Option (Nat × CEdge) := do
  let r ← getH m h
  let e ← r.edge
  let er ← getE m e
  pure (e, er)

/-- The duplicate-diagonal warning loop of `swapEdge`: scan the computed
edge list of `wb` for an edge joining `pv0` and `pv2`, counting the
printed warnings (the source continues regardless). -/
def swapDupCheck (m : CBaseMesh) (pv0 pv2 : Nat) : List Nat → Option Nat
  | [] => some 0
  | e :: rest => do
    let er ← getE m e
    let h0 ← er.he0
    let a ← heSource m h0
    let b ← heTarget m h0
    let w := if (a = pv0 ∧ b = pv2) ∨ (a = pv2 ∧ b = pv0) then 1 else 0
    let r ← swapDupCheck m pv0 pv2 rest
    pure (w + r)

/-- The re-seating loop after the retarget: each of the six half-edges
becomes the representative of its (new) target. -/
def swapRepPass (m : CBaseMesh) : List Nat → Option CBaseMesh
  | [] => some m
  | h :: rest => do
    let v ← heTarget m h
    let _ ← getV m v
    swapRepPass (updV m v (fun vr => { vr with halfedge := some h })) rest

/-- The final assertion loop of `swapEdge`, observing the dual invariant
on the six half-edges.  The possibly-NULL `sh` is dereferenced only
inside the two `assert` arguments, which a release build does not
evaluate; a NULL dual therefore contributes nothing (release semantics —
a debug build would crash here on any swap whose surrounding edges are
boundary).  When the dual exists the asserts are evaluated and failures
are ghost-counted. -/
def swapFinalAsserts (m : CBaseMesh) : List Nat → Option Nat
  | [] => some 0
  | h :: rest => do
    let d ← heDualV m h
    match d with
    | none => swapFinalAsserts m rest
    | some sh => do
      let a ← heTarget m h
      let b ← heSource m sh
      let c ← heSource m h
      let dd ← heTarget m sh
      let r ← swapFinalAsserts m rest
      pure ((if a = b then 0 else 1) + (if c = dd then 0 else 1) + r)

/-- The local data `swapEdge` reads before mutating: the six half-edges
`ph[0..5]` and four vertices `pv[0..3]` of the two triangles. -/
structure SWLocal where
  ph0 : Nat
  ph1 : Nat
  ph2 : Nat
  ph3 : Nat
  ph4 : Nat
  ph5 : Nat
  pv0 : Nat
  pv1 : Nat
  pv2 : Nat
  pv3 : Nat
  deriving DecidableEq

/-- The read-only prologue of `swapEdge` (slot 1 already known non-NULL). -/
def swGather (m : CBaseMesh) (e : Nat) : Option SWLocal := do
  let er ← getE m e
  let hl ← er.he0
  let hr ← er.he1
  let t1 ← faceTriple m hl
  let t2 ← faceTriple m hr
  let a ← heTarget m t1.1
  let b ← heTarget m t1.2.1
  let c ← heTarget m t1.2.2
  let d ← heTarget m t2.2.1
  pure ⟨t1.1, t1.2.1, t1.2.2, t2.1, t2.2.1, t2.2.2, a, b, c, d⟩

/-- `he->edge()` and which of its slots holds `he` (`pe[i]`, `pi[i]`). -/
def edgeSlotOf (m : CBaseMesh) (h : Nat) : Option (Nat × Bool) := do
  let q ← getEdgeOf m h
  pure (q.1, slotIndexOf q.2 h)

/-- Sum of the failed slot-index asserts over a list of half-edges. -/
def slotGhost (m : CBaseMesh) : List Nat → Option Nat
  | [] => some 0
  | h :: rest => do
    let q ← getEdgeOf m h
    let r ← slotGhost m rest
    pure (slotAssertFail q.2 h + r)

/-- `(v0->id() < v1->id()) ? v0 : v1`. -/
def smallerIdOf (m : CBaseMesh) (a b : Nat) : Option Nat := do
  let ra ← getV m a
  let rb ← getV m b
  pure (if ra.id < rb.id then a else b)

/-- The slot data `swapEdge` uses for the relink: `(pe,pi)` for
`ph[1], ph[2], ph[4], ph[5]`. -/
def swSlots (m : CBaseMesh) (L : SWLocal) :
    Option ((Nat × Bool) × (Nat × Bool) × (Nat × Bool) × (Nat × Bool)) := do
  let s1 ← edgeSlotOf m L.ph1
  let s2 ← edgeSlotOf m L.ph2
  let s4 ← edgeSlotOf m L.ph4
  let s5 ← edgeSlotOf m L.ph5
  pure (s1, s2, s4, s5)

/-- The retarget block of `swapEdge` (`ph[i]->target() = pv[...]`). -/
def swRetarget (m : CBaseMesh) (L : SWLocal) : CBaseMesh :=
  setTargets m
    [(L.ph0, L.pv1), (L.ph1, L.pv2), (L.ph2, L.pv3),
     (L.ph3, L.pv3), (L.ph4, L.pv0), (L.ph5, L.pv1)]

/-- The edge/half-edge relink block of `swapEdge`. -/
def swRelink (m : CBaseMesh) (L : SWLocal)
    (s : (Nat × Bool) × (Nat × Bool) × (Nat × Bool) × (Nat × Bool)) :
    CBaseMesh :=
  let m := updH m L.ph1 (fun r => { r with edge := some s.2.1.1 })
  let m := setSlot m s.2.1.1 s.2.1.2 L.ph1
  let m := updH m L.ph2 (fun r => { r with edge := some s.2.2.1.1 })
  let m := setSlot m s.2.2.1.1 s.2.2.1.2 L.ph2
  let m := updH m L.ph4 (fun r => { r with edge := some s.2.2.2.1 })
  let m := setSlot m s.2.2.2.1 s.2.2.2.2 L.ph4
  let m := updH m L.ph5 (fun r => { r with edge := some s.1.1 })
  setSlot m s.1.1 s.1.2 L.ph5

/-- The cache move of `swapEdge`: erase the edge from `vb`'s cached
incident-edge list (printing "Error" when absent) and append it to
`wb`'s.  The source obtains both lists as `std::vector` caches from
`edges()` and reinterprets the references as `std::list` through a
C-style cast — undefined in C++; modelled as operating on the cache
contents those references designate. -/
def swCacheMove (m : CBaseMesh) (vb wb e : Nat) : Option CBaseMesh := do
  let vbr ← getV m vb
  let m := if e ∈ vbr.edgesCache then m else { m with errs := m.errs + 1 }
  let m := updV m vb (fun r => { r with edgesCache := r.edgesCache.erase e })
  pure (updV m wb (fun r => { r with edgesCache := r.edgesCache ++ [e] }))

/-- The mutation suffix of `swapEdge`: retarget, re-seat representatives,
relink edge slots, move the edge between the two caches, final asserts. -/
def swFinish (m : CBaseMesh) (L : SWLocal)
    (s : (Nat × Bool) × (Nat × Bool) × (Nat × Bool) × (Nat × Bool))
    (vb wb e : Nat) : Option CBaseMesh := do
  let m := swRetarget m L
  let m ← swapRepPass m [L.ph0, L.ph1, L.ph2, L.ph3, L.ph4, L.ph5]
  let m := swRelink m L s
  let m ← swCacheMove m vb wb e
  let fa ← swapFinalAsserts m [L.ph0, L.ph1, L.ph2, L.ph3, L.ph4, L.ph5]
  pure { m with asserts_failed := m.asserts_failed + fa }

/-- The cache computations of `swapEdge` (`vb->edges()`, `wb->edges()`)
and the duplicate-diagonal warning loop. -/
def swCaches (m : CBaseMesh) (L : SWLocal) (fuel : Nat) :
    Option (CBaseMesh × Nat × Nat) := do
  let vb ← smallerIdOf m L.pv0 L.pv2
  let vE ← vertexEdges m vb fuel
  let wb ← smallerIdOf vE.1 L.pv1 L.pv3
  let wE ← vertexEdges vE.1 wb fuel
  let warn ← swapDupCheck wE.1 L.pv0 L.pv2 wE.2
  pure ({ wE.1 with errs := wE.1.errs + warn }, vb, wb)

/-- `CDynamicMesh::swapEdge(edge)`.  A NULL second slot returns at once
with the mesh untouched.  Otherwise, in source order: gather the six
half-edges and four vertices, record the slot indices (with their ghost
asserts), compute the incident-edge caches of the smaller-id old endpoint
`vb` and smaller-id new endpoint `wb` (a mutating, lazily-caching call),
print-and-continue on a duplicate diagonal, retarget the six half-edges,
re-seat the six representatives, relink the four outer edge slots, move
the edge between the two caches (the `m_ledges` candidate lists are never
touched by the source), and run the final asserts. -/
def swapEdge (m0 : CBaseMesh) (e : Nat) (fuel : Nat) : Option CBaseMesh := do
  let er ← getE m0 e
  if er.he1 = none then pure m0
  else do
    let L ← swGather m0 e
    let g ← slotGhost m0 [L.ph0, L.ph1, L.ph2, L.ph3, L.ph4, L.ph5]
    let s ← swSlots m0 L
    let c ← swCaches { m0 with asserts_failed := m0.asserts_failed + g } L fuel
    swFinish c.1 L s c.2.1 c.2.2 e

-- ===================================================================
-- Boundary tracer (boundary.h)
-- ===================================================================

/-- A traced boundary loop: the ordered half-edges and the accumulated
length (`CLoop`'s `m_halfedges` and `m_length`). -/
structure LoopRec where
  hes : List Nat
  len : Int
  deriving DecidableEq

/-- One step of the `CLoop` trace:
`v = he->target(); he = v->most_clw_out_halfedge()`; a NULL result is
flattened into the crash its dereference causes on the next line. -/
def traceStep (m : CBaseMesh) (fuel h : Nat) : Option Nat := do
  let t ← heTarget m h
  let o ← mostClwOut m t fuel
  o

/-- `he->edge()`'s record. -/
def heEdgeRec (m : CBaseMesh) (h : Nat) : Option CEdge := do
  let r ← getH m h
  let e ← r.edge
  getE m e

/-- The do-while loop of the `CLoop` constructor: step, push, accumulate
the edge length, stop when the starting half-edge is reached. -/
def traceGo (m : CBaseMesh) (pH fuelI : Nat) : Nat → Nat → Option (List Nat × Int)
  | 0, _ => none
  | fuel + 1, he => do
    let nx ← traceStep m fuelI he
    let er ← heEdgeRec m nx
    if nx = pH then pure ([nx], er.length)
    else do
      let r ← traceGo m pH fuelI fuel nx
      pure (nx :: r.1, er.length + r.2)

/-- `CLoop::CLoop(mesh, pH)`: trace the boundary loop starting after `pH`;
the list ends with `pH` itself. -/
def traceLoop (m : CBaseMesh) (pH fuelO fuelI : Nat) : Option (List Nat × Int) :=
  traceGo m pH fuelI fuelO pH

/-- Pointer order on nullable half-edge pointers (NULL first), standing in
for the address order of the source's `std::set<CHalfEdge*>`. -/
def optLt : Option Nat → Option Nat → Bool
  | none, some _ => true
  | some a, some b => a < b
  | _, none => false

/-- Ordered-unique insertion into the candidate set. -/
def setInsert (x : Option Nat) : List (Option Nat) → List (Option Nat)
  | [] => [x]
  | y :: t =>
    if x = y then y :: t
    else if optLt x y then x :: y :: t
    else y :: setInsert x t

/-- The seeding loop of the `CBoundary` constructor: for each boundary
edge insert its slot-0 half-edge into the candidate set (a dead edge in
`m_edges` would be a crash). -/
def seedCollect (m : CBaseMesh) (acc : List (Option Nat)) :
    List Nat → Option (List (Option Nat))
  | [] => some acc
  | e :: rest => do
    let er ← getE m e
    let acc' := if er.he0.isNone || er.he1.isNone then setInsert er.he0 acc
      else acc
    seedCollect m acc' rest

/-- The tracing loop of the `CBoundary` constructor: while the candidate
set is non-empty, trace a loop from its first (smallest) element, record
it, and remove all its half-edges from the set. -/
def boundaryTraceAll (m : CBaseMesh) (fuelI : Nat) :
    Nat → List (Option Nat) → Option (List LoopRec)
  | _, [] => some []
  | 0, _ :: _ => none
  | fuel + 1, h :: rest => do
    let hh ← h
    let t ← traceLoop m hh fuelI fuelI
    let remaining := (h :: rest).filter
      (fun s => !(s.elim false (fun x => t.1.contains x)))
    let r ← boundaryTraceAll m fuelI fuel remaining
    pure (⟨t.1, t.2⟩ :: r)

/-- One sweep of `CBoundary::_bubble_sort`: adjacent records are swapped
when the later one has the larger key; the flag records whether any swap
happened. -/
def bpassGo (key : α → Int) (a : α) : List α → List α × Bool
  | [] => ([a], false)
  | b :: t =>
    if key a < key b then
      let r := bpassGo key a t
      (b :: r.1, true)
    else
      let r := bpassGo key b t
      (a :: r.1, r.2)

/-- One sweep over a non-empty list is the structural helper above. -/
def bpass (key : α → Int) : List α → List α × Bool
  | [] => ([], false)
  | a :: t => bpassGo key a t

/-- The outer for-loop of `_bubble_sort`: up to `numLength` sweeps,
stopping as soon as a sweep makes no swap. -/
def bsortGo (key : α → Int) : Nat → List α → List α
  | 0, l => l
  | n + 1, l =>
    let r := bpass key l
    if r.2 then bsortGo key n r.1 else r.1

/-- `CBoundary::_bubble_sort(loops)`: descending order by length. -/
def bubbleSort (key : α → Int) (l : List α) : List α := bsortGo key l.length l

/-- `CBoundary::CBoundary(mesh)`: seed the candidate set with one
half-edge per boundary edge, trace all loops, sort them by descending
length. -/
def cboundary (m : CBaseMesh) (fuelO fuelI : Nat) : Option (List LoopRec) := do
  let seeds ← seedCollect m [] m.edgesL
  let loops ← boundaryTraceAll m fuelI fuelO seeds
  pure (bubbleSort (fun L => L.len) loops)

-- ===================================================================
-- Loop division (CLoop::divide, boundary.h)
-- ===================================================================

/-- The rotation loop of `divide`: test the front of the deque against the
first marker, rotating front-to-back; the fuel is the number of tests the
source performs before giving up (`queue.size() + 1`). -/
def rotAux (src : α → β) [DecidableEq β] (m0 : β) :
    Nat → List α → List α × Bool
  | 0, q => (q, false)
  | _ + 1, [] => ([], false)
  | k + 1, h :: t =>
    if src h = m0 then (h :: t, true) else rotAux src m0 k (t ++ [h])

/-- The inner while-loop of `divide`: consume half-edges into the current
segment until one has the next marker as target; an exhausted deque is the
reported error (the two patterns split the source's single loop on
whether the deque still has elements). -/
def segTake (tgt : α → β) [DecidableEq β] (m1 : β) :
    α → List α → List α × List α × Bool
  | ph, [] => if tgt ph = m1 then ([ph], [], false) else ([ph], [], true)
  | ph, h :: t =>
    if tgt ph = m1 then ([ph], h :: t, false)
    else
      let r := segTake tgt m1 h t
      (ph :: r.1, r.2.1, r.2.2)

/-- The per-marker loop of `divide`.  Per iteration: pop the front (a pop
from an empty deque is a crash), ghost-count the source's
`assert(ph->source() == markers[i])`, consume a segment up to the
cyclically next marker; on exhaustion return the segments built so far
with the error flag. -/
def divideGo (src tgt : α → β) [DecidableEq β] (m0 : β) :
    List β → List α → List (List α) → Nat →
    Option (List (List α) × Bool × Nat)
  | [], _, acc, g => some (acc, false, g)
  | _ :: _, [], _, _ => (none : Option (List (List α) × Bool × Nat))
  | mi :: rest, ph :: t, acc, g =>
    let g' := g + (if src ph = mi then 0 else 1)
    let mNext := match rest with
      | [] => m0
      | m' :: _ => m'
    let r := segTake tgt mNext ph t
    if r.2.2 then some (acc, true, g')
    else divideGo src tgt m0 rest r.2.1 (acc ++ [r.1]) g'

/-- `CLoop::divide(markers)`, generic in the half-edge type `α` (with its
source/target maps) and marker type `β`, exactly as the source: rotate
the loop's half-edge sequence to start at the first marker (report an
error and keep no segments when one full rotation fails to find it), then
cut one segment per marker.  The result carries the segment list, the
error flag and the count of failed asserts; an empty marker vector makes
the source index `markers[0]` out of bounds — the crash is `none`. -/
def divide (src tgt : α → β) [DecidableEq β] (hes : List α)
    (markers : List β) : Option (List (List α) × Bool × Nat) :=
  match markers with
  | [] => none
  | m0 :: _ =>
    let r := rotAux src m0 (hes.length + 1) hes
    if r.2 then divideGo src tgt m0 markers r.1 [] 0
    else some ([], true, 0)

/-- The source vertex of the first half-edge of a segment. -/
def srcHead (src : α → β) (l : List α) : Option β := l.head?.map src

/-- The decomposition of a marker list and a segment list that "the
markers lie on the loop in loop order" denotes: each marker owns one
segment whose first half-edge leaves that marker, whose last half-edge
is the only one of the segment entering the cyclically next marker. -/
def segChain (src tgt : α → β) (m0 : β) : List β → List (List α) → Prop
  | [], SS => SS = []
  | mi :: ms, SS => ∃ front lst SS',
      SS = (front ++ [lst]) :: SS' ∧
      srcHead src (front ++ [lst]) = some mi ∧
      tgt lst = (match ms with | [] => m0 | m' :: _ => m') ∧
      (∀ x ∈ front, tgt x ≠ (match ms with | [] => m0 | m' :: _ => m')) ∧
      segChain src tgt m0 ms SS'

-- ===================================================================
-- Invariants and observers
-- ===================================================================

/-- Decide `∀ x, o = some x → p x` by inspecting the option. -/
instance instDecidableOptForall {α : Type} {p : α → Prop} [DecidablePred p] :
    (o : Option α) → Decidable (∀ x, o = some x → p x)
  | none => isTrue (by intro x h; cases h)
  | some a =>
    if h : p a then isTrue (by intro x hx; cases hx; exact h)
    else isFalse (fun hall => h (hall a rfl))

/-- Decide `∃ x, o = some x ∧ p x` by inspecting the option. -/
instance instDecidableOptExists {α : Type} {p : α → Prop} [DecidablePred p] :
    (o : Option α) → Decidable (∃ x, o = some x ∧ p x)
  | none => isFalse (by rintro ⟨x, hx, _⟩; cases hx)
  | some a =>
    if h : p a then isTrue ⟨a, rfl, h⟩
    else isFalse (by rintro ⟨x, hx, hp⟩; cases hx; exact h hp)

/-- `he->edge()` as a field read. -/
def heEdgeF (m : CBaseMesh) (h : Nat) : Option Nat :=
  (getH m h).bind (·.edge)

/-- Spec §3 invariant 1 at one half-edge: `h.next.prev == h`,
`h.prev.next == h`, and `next` returns to `h` after exactly 3 steps. -/
def heCycleOk (m : CBaseMesh) (h : Nat) : Prop :=
  (heNextF m h).bind (hePrevF m) = some h ∧
  (hePrevF m h).bind (heNextF m) = some h ∧
  ((heNextF m h).bind (heNextF m)).bind (heNextF m) = some h

instance (m : CBaseMesh) (h : Nat) : Decidable (heCycleOk m h) := by
  unfold heCycleOk; infer_instance

/-- Spec §3 invariant 1 over the mesh's half-edge list. -/
def Inv1 (m : CBaseMesh) : Prop := ∀ h ∈ m.halfedgesL, heCycleOk m h

instance (m : CBaseMesh) : Decidable (Inv1 m) := by
  unfold Inv1; infer_instance

/-- Spec §3 invariant 2 at one edge: when both slots are filled with
`h0, h1`, they are mutual duals and `h0.target == h1.source`,
`h1.target == h0.source`. -/
def edgeDualOk (m : CBaseMesh) (e : Nat) : Prop :=
  ∀ er, getE m e = some er → ∀ h0, er.he0 = some h0 →
    ∀ h1, er.he1 = some h1 →
      heDual m h0 = some h1 ∧ heDual m h1 = some h0 ∧
      heTarget m h0 = heSource m h1 ∧ heTarget m h1 = heSource m h0

instance (m : CBaseMesh) (e : Nat) : Decidable (edgeDualOk m e) := by
  unfold edgeDualOk; infer_instance

/-- Spec §3 invariant 2 over the mesh's edge list. -/
def Inv2 (m : CBaseMesh) : Prop := ∀ e ∈ m.edgesL, edgeDualOk m e

instance (m : CBaseMesh) : Decidable (Inv2 m) := by
  unfold Inv2; infer_instance

/-- Structural well-formedness of one listed half-edge: live, with a live
listed target vertex, listed `next`/`prev`, and a listed edge one of
whose slots points back at it. -/
def heOk (m : CBaseMesh) (h : Nat) : Prop :=
  ∃ r, getH m h = some r ∧
    (∃ v, r.vertex = some v ∧ v ∈ m.vertsL) ∧
    (∃ n, r.next = some n ∧ n ∈ m.halfedgesL) ∧
    (∃ p, r.prev = some p ∧ p ∈ m.halfedgesL) ∧
    (∃ e, r.edge = some e ∧ e ∈ m.edgesL ∧
      ∃ er, getE m e = some er ∧ (er.he0 = some h ∨ er.he1 = some h))

instance (m : CBaseMesh) (h : Nat) : Decidable (heOk m h) := by
  unfold heOk; infer_instance

/-- Structural well-formedness of one listed edge: live, slot 0 filled
with a listed half-edge whose edge back-pointer is this edge, and slot 1
either empty or likewise consistent. -/
def edgeOk (m : CBaseMesh) (e : Nat) : Prop :=
  ∃ er, getE m e = some er ∧
    (∃ h0, er.he0 = some h0 ∧ h0 ∈ m.halfedgesL ∧ heEdgeF m h0 = some e) ∧
    (er.he1 = none ∨
      ∃ h1, er.he1 = some h1 ∧ h1 ∈ m.halfedgesL ∧ heEdgeF m h1 = some e)

instance (m : CBaseMesh) (e : Nat) : Decidable (edgeOk m e) := by
  unfold edgeOk; infer_instance

/-- Structural well-formedness of the mesh: the entity lists have no
duplicates, every listed vertex is live, and every listed half-edge/edge
satisfies its local consistency. -/
def Wf (m : CBaseMesh) : Prop :=
  m.vertsL.Nodup ∧ m.edgesL.Nodup ∧ m.halfedgesL.Nodup ∧ m.facesL.Nodup ∧
  (∀ v ∈ m.vertsL, (getV m v).isSome) ∧
  (∀ h ∈ m.halfedgesL, heOk m h) ∧
  (∀ e ∈ m.edgesL, edgeOk m e)

instance (m : CBaseMesh) : Decidable (Wf m) := by
  unfold Wf; infer_instance

/-- The endpoints of an edge, derived through slot 0 as the source does
(`vertex1()`, `vertex2()`). -/
def edgeEndpoints (m : CBaseMesh) (e : Nat) : Option (Nat × Nat) := do
  let er ← getE m e
  let h0 ← er.he0
  heST m h0

/-- Whether vertex `v` is an endpoint of edge `e`. -/
def incidentB (m : CBaseMesh) (v e : Nat) : Bool :=
  match edgeEndpoints m e with
  | some p => p.1 == v || p.2 == v
  | none => false

/-- The degree of a vertex: the number of listed edges incident to it. -/
def degree (m : CBaseMesh) (v : Nat) : Nat :=
  (m.edgesL.filter (incidentB m v)).length

/-- Whether edge `e` joins the (unordered) vertex pair `{a, b}`. -/
def connectsB (m : CBaseMesh) (e a b : Nat) : Bool :=
  match edgeEndpoints m e with
  | some p => (p.1 == a && p.2 == b) || (p.1 == b && p.2 == a)
  | none => false

/-- The scan loop of `CBaseMesh::edge(v0, v1)` over the candidate list of
the smaller-id endpoint; `some none` is the NULL miss. -/
def edgeLookupGo (m : CBaseMesh) (v0 v1 : Nat) : List Nat → Option (Option Nat)
  | [] => some none
  | e :: rest => do
    let er ← getE m e
    let h0 ← er.he0
    let p ← heST m h0
    if (p.1 = v0 ∧ p.2 = v1) ∨ (p.1 = v1 ∧ p.2 = v0) then pure (some e)
    else edgeLookupGo m v0 v1 rest

/-- `CBaseMesh::edge(v0, v1)`: search the smaller-id endpoint's candidate
list. -/
def meshEdge (m : CBaseMesh) (v0 v1 : Nat) : Option (Option Nat) := do
  let r0 ← getV m v0
  let r1 ← getV m v1
  let pr := if r0.id < r1.id then r0 else r1
  edgeLookupGo m v0 v1 pr.ledges

/-- `CBaseMesh::vertex(id)` (`m_map_vert[id]`; absent = NULL). -/
def vertexById (m : CBaseMesh) (id : Int) : Option Nat :=
  mapLookup id m.mapVert

/-- Fold `create_vertex` over a list of ids (the bulk-construction vertex
phase of the readers). -/
def addVerts (m : CBaseMesh) : List Int → CBaseMesh
  | [] => m
  | i :: rest => addVerts (create_vertex m i).1 rest

/-- The search test of `create_edge` succeeds at edge `e`: a live record,
filled slot 0, and a slot-0 half-edge joining `v1` and `v2` in either
direction. -/
def ceMatch (m : CBaseMesh) (v1 v2 e : Nat) : Prop :=
  ∃ er, getE m e = some er ∧ ∃ h0, er.he0 = some h0 ∧
    ∃ s, heSource m h0 = some s ∧ ∃ t, heTarget m h0 = some t ∧
      ((s = v1 ∧ t = v2) ∨ (s = v2 ∧ t = v1))

instance (m : CBaseMesh) (v1 v2 e : Nat) : Decidable (ceMatch m v1 v2 e) := by
  unfold ceMatch; infer_instance

/-- The search test of `create_edge` evaluates without crashing at edge
`e` and rejects it. -/
def ceCleanMiss (m : CBaseMesh) (v1 v2 e : Nat) : Prop :=
  ∃ er, getE m e = some er ∧ ∃ h0, er.he0 = some h0 ∧
    ∃ s, heSource m h0 = some s ∧ ∃ t, heTarget m h0 = some t ∧
      ¬ ((s = v1 ∧ t = v2) ∨ (s = v2 ∧ t = v1))

instance (m : CBaseMesh) (v1 v2 e : Nat) : Decidable (ceCleanMiss m v1 v2 e) := by
  unfold ceCleanMiss; infer_instance

-- ===================================================================
-- Concrete meshes (built by running the modelled operations)
-- ===================================================================

/-- Two faces (1,2,3) and (1,2,4) with the SAME orientation along the
shared edge {1,2} — legal-looking bulk construction input that
`create_face` accepts silently.  Vertex ids 1..4 sit at arena indices
0..3. -/
def meshC1 : Option CBaseMesh := do
  let m := addVerts emptyMesh [1, 2, 3, 4]
  let p1 ← create_face m [0, 1, 2] 1
  let p2 ← create_face p1.1 [0, 1, 3] 2
  pure p2.1

/-- A consistently oriented pair of triangles (1,2,3) and (2,1,4) sharing
the interior edge {1,2} (arena edge index 1). -/
def meshAB : Option CBaseMesh := do
  let m := addVerts emptyMesh [1, 2, 3, 4]
  let p1 ← create_face m [0, 1, 2] 1
  let p2 ← create_face p1.1 [1, 0, 3] 2
  pure p2.1

/-- `meshAB` after `label_boundary` (the state on which the dynamic
editor runs). -/
def meshABL : Option CBaseMesh := meshAB.bind label_boundary

/-- Bulk construction with faces (1,2,3), (2,1,4), (1,2,5): the third
face needs a slot on edge {1,2}, whose two slots are already filled. -/
def meshC5 : Option CBaseMesh := do
  let m := addVerts emptyMesh [1, 2, 3, 4, 5]
  let p1 ← create_face m [0, 1, 2] 1
  let p2 ← create_face p1.1 [1, 0, 3] 2
  let p3 ← create_face p2.1 [0, 1, 4] 3
  pure p3.1

/-- Two bare vertices with ids 1 and 2. -/
def meshV2 : CBaseMesh := addVerts emptyMesh [1, 2]

/-- A single triangle (1,2,3): all three edges boundary. -/
def meshTri : Option CBaseMesh := do
  let m := addVerts emptyMesh [1, 2, 3]
  let p ← create_face m [0, 1, 2] 1
  pure p.1

/-- The single triangle after `label_boundary`. -/
def meshTriL : Option CBaseMesh := meshTri.bind label_boundary

/-- A tetrahedron (closed surface, every edge interior, every face an
interior triangle). -/
def meshTet : Option CBaseMesh := do
  let m := addVerts emptyMesh [1, 2, 3, 4]
  let p1 ← create_face m [0, 1, 2] 1
  let p2 ← create_face p1.1 [0, 3, 1] 2
  let p3 ← create_face p2.1 [1, 3, 2] 3
  let p4 ← create_face p3.1 [0, 2, 3] 4
  pure p4.1


-- ===================================================================
-- Staged form of splitFace's success path (for the C8 analysis)
-- ===================================================================

/-- The six `__attach_halfedge_to_edge` calls of `splitFace`, in source
order, with the three dual pointers known non-NULL. -/
def sfAttach6 (m : CBaseMesh) (L : SFLocal)
    (s0 s1 s2 a0 a1 a2 b0 b1 b2 e0 e1 e2 : Nat) : CBaseMesh :=
  attachHE (attachHE (attachHE (attachHE (attachHE (attachHE
    m L.h1 a0 e0) a2 b1 e1) L.h2 b0 e2) L.h0 s0 L.eg0) a1 s1 L.eg1)
    b2 s2 L.eg2

/-- `splitFace`'s state just before the closing rep assignments: build,
attach, seat the new vertex's representative, retarget. -/
def sfMid (m0 : CBaseMesh) (L : SFLocal) (s0 s1 s2 : Nat) : CBaseMesh :=
  let h := m0.hA.length
  let e := m0.eA.length
  let m := sfAttach6 (sfBuild m0) L s0 s1 s2
    h (h + 1) (h + 2) (h + 3) (h + 4) (h + 5) e (e + 1) (e + 2)
  let m := updV m m0.vA.length (fun v => { v with halfedge := some L.h1 })
  setTargets m (sfTargets L m0.vA.length
    h (h + 1) (h + 2) (h + 3) (h + 4) (h + 5))

/-- The final state of a successful `splitFace`: the rep assignments
`v[i]->halfedge() = hs[i]->dual()` on top of `sfMid` (the `.join`
collapses the successful dual call to the possibly-NULL pointer it
returns). -/
def sfFinal (m0 : CBaseMesh) (L : SFLocal) (s0 s1 s2 : Nat) : CBaseMesh :=
  let m := sfMid m0 L s0 s1 s2
  let m1 := updV m L.v0 (fun v => { v with halfedge := (heDualV m s0).join })
  let m2 := updV m1 L.v1
    (fun v => { v with halfedge := (heDualV m1 s1).join })
  updV m2 L.v2 (fun v => { v with halfedge := (heDualV m2 s2).join })

/-- Side conditions on the gathered data under which the `splitFace`
rewiring is analysed: the face's half-edges, their duals and edges are
live and pairwise distinct, and its targets are three distinct live
vertices. -/
def sfOK (m0 : CBaseMesh) (L : SFLocal) (s0 s1 s2 : Nat) : Prop :=
  L.h0 < m0.hA.length ∧ L.h1 < m0.hA.length ∧ L.h2 < m0.hA.length ∧
  s0 < m0.hA.length ∧ s1 < m0.hA.length ∧ s2 < m0.hA.length ∧
  L.eg0 < m0.eA.length ∧ L.eg1 < m0.eA.length ∧ L.eg2 < m0.eA.length ∧
  (L.h0 ≠ L.h1 ∧ L.h0 ≠ L.h2 ∧ L.h1 ≠ L.h2) ∧
  (s0 ≠ s1 ∧ s0 ≠ s2 ∧ s1 ≠ s2) ∧
  (s0 ≠ L.h0 ∧ s0 ≠ L.h1 ∧ s0 ≠ L.h2) ∧
  (s1 ≠ L.h0 ∧ s1 ≠ L.h1 ∧ s1 ≠ L.h2) ∧
  (s2 ≠ L.h0 ∧ s2 ≠ L.h1 ∧ s2 ≠ L.h2) ∧
  (L.eg0 ≠ L.eg1 ∧ L.eg0 ≠ L.eg2 ∧ L.eg1 ≠ L.eg2) ∧
  (L.v0 ≠ L.v1 ∧ L.v0 ≠ L.v2 ∧ L.v1 ≠ L.v2) ∧
  (L.v0 < m0.vA.length ∧ L.v1 < m0.vA.length ∧ L.v2 < m0.vA.length)

instance (m0 : CBaseMesh) (L : SFLocal) (s0 s1 s2 : Nat) :
    Decidable (sfOK m0 L s0 s1 s2) := by
  unfold sfOK; infer_instance

/-- The key order used by the boundary tracer: descending by length. -/
def keyDesc (key : α → Int) (a b : α) : Prop := key b ≤ key a


/-- The stored edge length read by the trace (`he->edge()->length()`). -/
def edgeLenOf (m : CBaseMesh) (h : Nat) : Option Int :=
  (heEdgeRec m h).map (·.length)

/-- The total length of a traced half-edge list. -/
def loopLen (m : CBaseMesh) (l : List Nat) : Option Int :=
  (l.mapM (edgeLenOf m)).map (fun ls => ls.sum)

-- ===================================================================
-- Theorems
-- ===================================================================

theorem arenaGet_nil (i : Nat) : arenaGet ([] : List (Option α)) i = none := by
  cases i <;> rfl

theorem arenaMod_get (f : α → α) (l : List (Option α)) (i j : Nat) :
    arenaGet (arenaMod f i l) j =
      if j = i then (arenaGet l j).map f else arenaGet l j := by
  induction l generalizing i j with
  | nil => simp [arenaMod, arenaGet_nil]
  | cons x t ih =>
    cases i with
    | zero =>
      cases j with
      | zero => cases x <;> simp [arenaMod, arenaGet]
      | succ j => cases x <;> simp [arenaMod, arenaGet]
    | succ i =>
      cases j with
      | zero => simp [arenaMod, arenaGet]
      | succ j =>
        simp only [arenaMod]
        have := ih i j
        simpa [arenaGet, Nat.succ_inj] using this

theorem arenaDel_get (l : List (Option α)) (i j : Nat) :
    arenaGet (arenaDel i l) j =
      if j = i then none else arenaGet l j := by
  induction l generalizing i j with
  | nil => simp [arenaDel, arenaGet_nil]
  | cons x t ih =>
    cases i with
    | zero =>
      cases j with
      | zero => simp [arenaDel, arenaGet]
      | succ j => simp [arenaDel, arenaGet]
    | succ i =>
      cases j with
      | zero => simp [arenaDel, arenaGet]
      | succ j =>
        simp only [arenaDel]
        have := ih i j
        simpa [arenaGet, Nat.succ_inj] using this

theorem arenaGet_append_old (l : List (Option α)) (x : Option α) (j : Nat)
    (h : j < l.length) : arenaGet (l ++ [x]) j = arenaGet l j := by
  simp [arenaGet, List.getElem?_append_left h]

theorem arenaGet_append_new (l : List (Option α)) (x : Option α) :
    arenaGet (l ++ [x]) l.length = x := by
  simp [arenaGet, List.getElem?_concat_length]

theorem arenaGet_isSome_lt (l : List (Option α)) (i : Nat)
    (h : (arenaGet l i).isSome) : i < l.length := by
  by_contra hlt
  have : l.get? i = none := List.get?_eq_none.2 (Nat.le_of_not_lt hlt)
  rw [arenaGet, this] at h
  simp [Option.join] at h

/-- C1.  The claim "for every mesh on which create_face (bulk
construction), delete_face, splitFace, splitEdge or swapEdge completes,
the half-edge invariants hold afterwards" fails on the code: bulk
construction of faces (1,2,3) and (1,2,4) completes silently (no
"Illegal Face Construction" print, no failed assert — the second face's
half-edge fills the EMPTY slot 1 of edge {1,2} running in the same
direction as slot 0), yet afterwards invariant 2 is violated: edge 1
holds half-edges 1 and 4 with target(1) = vertex 1 while source(4) =
vertex 0.  The code's own assertion of exactly this property, in the
label_boundary pass that bulk construction must run next, then fails. -/
theorem C1_invariants_fail_after_create_face :
    ∃ m, meshC1 = some m ∧
      m.illegal_msgs = 0 ∧ m.asserts_failed = 0 ∧
      (∃ er, getE m 1 = some er ∧ er.he0 = some 1 ∧ er.he1 = some 4) ∧
      heTarget m 1 = some 1 ∧ heSource m 4 = some 0 ∧
      ¬ Inv2 m ∧
      ∃ m', label_boundary m = some m' ∧ 0 < m'.asserts_failed := by
  decide

/-- C5.  On the third face of `meshC5` the shared edge {1,2} already has
both slots filled: the source prints a diagnostic to stdout
(`illegal_msgs = 1`), OVERWRITES slot 1 with the new half-edge (half-edge
7; the displaced half-edge 4 still points at edge 1 but no slot points
back), and returns the new face normally with the face already appended —
the mesh is left mutated and inconsistent (invariant 2 now fails), and no
error reaches the caller.  The claim requires a fatal error reported to
the caller and no partial mutation of shared state. -/
theorem C5_create_face_error_code_bug :
    ∃ m, meshC5 = some m ∧
      m.illegal_msgs = 1 ∧
      m.facesL.length = 3 ∧
      (∃ er, getE m 1 = some er ∧ er.he0 = some 1 ∧ er.he1 = some 7) ∧
      heEdgeF m 4 = some 1 ∧
      ¬ Inv2 m := by
  decide

/-- C4.  Deleting face (2,1,4) of `meshAB`: vertex 0 (id 1) had the dying
half-edge 4 as its representative and `pH->next()->dual()` is NULL, so
the source's else-branch — which asserts `pH->dual() != NULL` (it holds,
so no abort) but then assigns the same NULL expression — leaves the
representative NULL even though vertex 0 still has the live incident
half-edge 0; and the fully emptied edge 4 is removed from `m_edges` and
deallocated but stays in vertex 0's candidate list (`m_ledges`), a
dangling entry the claim says must be removed. -/
theorem C4_delete_face_code_bug :
    ∃ m0, meshAB = some m0 ∧
      ∃ m, delete_face m0 1 = some m ∧
        (∃ vr, getV m 0 = some vr ∧ vr.halfedge = none ∧ 4 ∈ vr.ledges) ∧
        heTarget m 0 = some 0 ∧
        (4 ∉ m.edgesL) ∧ getE m 4 = none ∧
        m.asserts_failed = 1 := by
  decide

/-- C2.  Swapping the interior edge 1 (= {a,b} = vertices 0,1) of the
labeled quad `meshABL`: the functional part of the claim holds (counts
unchanged; before the swap edge 1 joins {0,1} and nothing joins {2,3};
after it joins {2,3} = {c,d} and nothing joins {0,1}), but the Edge
record is moved only between the lazily-computed adjacency caches
(`vb->edges()` / `wb->edges()`, reached through an invalid
vector-as-list reference cast in the source): the `m_ledges` candidate
lists that pair lookup uses are untouched, so after the swap
`edge(c, d)` returns NULL while the record still sits in vertex 0's
candidate list and vertex 2's candidate list stays empty. -/
theorem C2_swapEdge_candidate_list_stale :
    ∃ m0, meshABL = some m0 ∧
      connectsB m0 1 0 1 = true ∧
      (∀ e ∈ m0.edgesL, connectsB m0 e 2 3 = false) ∧
      ∃ m, swapEdge m0 1 20 = some m ∧
        m.vertsL.length = m0.vertsL.length ∧
        m.edgesL.length = m0.edgesL.length ∧
        m.facesL.length = m0.facesL.length ∧
        connectsB m 1 2 3 = true ∧
        (∀ e ∈ m.edgesL, connectsB m e 0 1 = false) ∧
        meshEdge m 2 3 = some none ∧
        (∃ vr, getV m 0 = some vr ∧ 1 ∈ vr.ledges) ∧
        (∃ wr, getV m 2 = some wr ∧ wr.ledges = []) := by
  decide

/-- C3, counterexample.  `create_edge` on two fresh vertices registers
the new edge only in the candidate list of the smaller-id endpoint — the
other endpoint's list stays empty, contradicting "registers it in both
endpoints' candidate lists" — and a second successive call with the same
pair does not return the same Edge object: the search dereferences the
new edge's still-empty slot 0 (`pH->source()` on NULL), a crash. -/
theorem C3_create_edge_counterexample :
    ∃ p, create_edge meshV2 0 1 = some p ∧
      (∃ vr, getV p.1 0 = some vr ∧ vr.ledges = [p.2]) ∧
      (∃ wr, getV p.1 1 = some wr ∧ wr.ledges = []) ∧
      (∃ er, getE p.1 p.2 = some er ∧ er.he0 = none ∧ er.he1 = none) ∧
      create_edge p.1 0 1 = none := by
  decide

/-- C8, counterexample.  The single triangle `meshTri` satisfies the §3
invariants and face 0 is a triangle, yet `splitFace` does not complete on
it (so no counts increase): all three edges are boundary and
`__attach_halfedge_to_edge(h[0], hs[0], eg[0])` writes through the NULL
dual `hs[0]`. -/
theorem C8_splitFace_counterexample :
    ∃ m, meshTri = some m ∧
      Wf m ∧ Inv1 m ∧ Inv2 m ∧ 0 ∈ m.facesL ∧
      splitFace m 0 = none := by
  decide

/-- C9.  `swapEdge` on any edge whose second half-edge slot is empty (a
boundary edge) returns immediately: the resulting mesh state is the input
state itself, so every count, every adjacency field, every
representative half-edge and every candidate list is unchanged. -/
theorem C9_swapEdge_boundary_noop (m : CBaseMesh) (e : Nat) (er : CEdge)
    (fuel : Nat) (hE : getE m e = some er) (h1 : er.he1 = none) :
    swapEdge m e fuel = some m := by
  simp [swapEdge, hE, h1]

theorem C9_swapEdge_boundary_noop_witness :
    ∃ m0, meshABL = some m0 ∧ ∃ er, getE m0 0 = some er ∧ er.he1 = none ∧
      swapEdge m0 0 20 = some m0 := by
  have h : ∃ m0, meshABL = some m0 ∧
      ∃ er, getE m0 0 = some er ∧ er.he1 = none := by decide
  obtain ⟨m0, hm, er, he, hn⟩ := h
  exact ⟨m0, hm, er, he, hn, C9_swapEdge_boundary_noop m0 0 er 20 he hn⟩

/-- C10.  When `id` is already bound in the id-to-vertex map, a second
`create_vertex(id)` appends a fresh Vertex object (`num_vertices` grows
by one) but `std::map::insert` leaves the binding alone, so `vertex(id)`
still yields the first-created vertex — which the new call did not touch —
and never the new object. -/
theorem C10_create_vertex_duplicate_id (m : CBaseMesh) (id : Int) (i : Nat)
    (hmap : mapLookup id m.mapVert = some i)
    (hlive : (getV m i).isSome) :
    (create_vertex m id).1.vertsL.length = m.vertsL.length + 1 ∧
    mapLookup id (create_vertex m id).1.mapVert = some i ∧
    (create_vertex m id).2 ≠ i ∧
    getV (create_vertex m id).1 i = getV m i := by
  have hlt : i < m.vA.length := arenaGet_isSome_lt _ _ hlive
  refine ⟨by simp [create_vertex, pushV], ?_, ?_, ?_⟩
  · simp [create_vertex, pushV, mapInsert, hmap]
  · simp only [create_vertex, pushV]
    exact fun h => absurd (h ▸ hlt) (lt_irrefl _)
  · simp only [create_vertex, pushV, getV]
    exact arenaGet_append_old _ _ _ hlt

theorem C10_create_vertex_duplicate_id_witness :
    mapLookup 1 meshV2.mapVert = some 0 ∧
    (getV meshV2 0).isSome ∧
    (create_vertex meshV2 1).1.vertsL.length = meshV2.vertsL.length + 1 ∧
    mapLookup 1 (create_vertex meshV2 1).1.mapVert = some 0 ∧
    (create_vertex meshV2 1).2 ≠ 0 ∧
    getV (create_vertex meshV2 1).1 0 = getV meshV2 0 := by
  have h1 : mapLookup 1 meshV2.mapVert = some 0 := by decide
  have h2 : (getV meshV2 0).isSome := by decide
  have h := C10_create_vertex_duplicate_id meshV2 1 0 h1 h2
  exact ⟨h1, h2, h.1, h.2.1, h.2.2.1, h.2.2.2⟩

theorem arenaGet_length (l : List (Option α)) : arenaGet l l.length = none := by
  simp [arenaGet, List.getElem?_eq_none (Nat.le_refl _)]

theorem getV_updV (m : CBaseMesh) (i : Nat) (f : CVertex → CVertex) (j : Nat) :
    getV (updV m i f) j = if j = i then (getV m j).map f else getV m j := by
  simpa [getV, updV] using arenaMod_get f m.vA i j

theorem getV_updV_self (m : CBaseMesh) (i : Nat) (f : CVertex → CVertex) :
    getV (updV m i f) i = (getV m i).map f := by
  simp [getV_updV]

theorem getV_updV_ne (m : CBaseMesh) (i : Nat) (f : CVertex → CVertex)
    (j : Nat) (h : j ≠ i) : getV (updV m i f) j = getV m j := by
  simp [getV_updV, h]

theorem getE_updE (m : CBaseMesh) (i : Nat) (f : CEdge → CEdge) (j : Nat) :
    getE (updE m i f) j = if j = i then (getE m j).map f else getE m j := by
  simpa [getE, updE] using arenaMod_get f m.eA i j

theorem getH_updH (m : CBaseMesh) (i : Nat) (f : CHalfEdge → CHalfEdge) (j : Nat) :
    getH (updH m i f) j = if j = i then (getH m j).map f else getH m j := by
  simpa [getH, updH] using arenaMod_get f m.hA i j

theorem getF_updF (m : CBaseMesh) (i : Nat) (f : CFace → CFace) (j : Nat) :
    getF (updF m i f) j = if j = i then (getF m j).map f else getF m j := by
  simpa [getF, updF] using arenaMod_get f m.fA i j

@[simp] theorem getV_updE (m : CBaseMesh) (i : Nat) (f : CEdge → CEdge)
    (j : Nat) : getV (updE m i f) j = getV m j := rfl

@[simp] theorem getV_updH (m : CBaseMesh) (i : Nat) (f : CHalfEdge → CHalfEdge)
    (j : Nat) : getV (updH m i f) j = getV m j := rfl

@[simp] theorem getV_updF (m : CBaseMesh) (i : Nat) (f : CFace → CFace)
    (j : Nat) : getV (updF m i f) j = getV m j := rfl

@[simp] theorem getE_updV (m : CBaseMesh) (i : Nat) (f : CVertex → CVertex)
    (j : Nat) : getE (updV m i f) j = getE m j := rfl

@[simp] theorem getE_updH (m : CBaseMesh) (i : Nat) (f : CHalfEdge → CHalfEdge)
    (j : Nat) : getE (updH m i f) j = getE m j := rfl

@[simp] theorem getE_updF (m : CBaseMesh) (i : Nat) (f : CFace → CFace)
    (j : Nat) : getE (updF m i f) j = getE m j := rfl

@[simp] theorem getH_updV (m : CBaseMesh) (i : Nat) (f : CVertex → CVertex)
    (j : Nat) : getH (updV m i f) j = getH m j := rfl

@[simp] theorem getH_updE (m : CBaseMesh) (i : Nat) (f : CEdge → CEdge)
    (j : Nat) : getH (updE m i f) j = getH m j := rfl

@[simp] theorem getH_updF (m : CBaseMesh) (i : Nat) (f : CFace → CFace)
    (j : Nat) : getH (updF m i f) j = getH m j := rfl

@[simp] theorem getF_updV (m : CBaseMesh) (i : Nat) (f : CVertex → CVertex)
    (j : Nat) : getF (updV m i f) j = getF m j := rfl

@[simp] theorem getF_updE (m : CBaseMesh) (i : Nat) (f : CEdge → CEdge)
    (j : Nat) : getF (updE m i f) j = getF m j := rfl

@[simp] theorem getF_updH (m : CBaseMesh) (i : Nat) (f : CHalfEdge → CHalfEdge)
    (j : Nat) : getF (updH m i f) j = getF m j := rfl

theorem ceLook_none (m : CBaseMesh) (v1 v2 : Nat) (l : List Nat)
    (h : ∀ e ∈ l, ceCleanMiss m v1 v2 e) :
    ceLook m v1 v2 l = some none := by
  induction l with
  | nil => rfl
  | cons e rest ih =>
    obtain ⟨er, her, h0, hh0, s, hs, t, ht, hneg⟩ :=
      h e (List.mem_cons_self e rest)
    simp only [ceLook, her, hh0, hs, ht, Option.bind_eq_bind,
      Option.some_bind]
    rw [if_neg hneg]
    exact ih (fun e' he' => h e' (List.mem_cons_of_mem e he'))

theorem ceLook_found (m : CBaseMesh) (v1 v2 : Nat) (l1 : List Nat)
    (e : Nat) (l2 : List Nat)
    (hmiss : ∀ e' ∈ l1, ceCleanMiss m v1 v2 e')
    (hmatch : ceMatch m v1 v2 e) :
    ceLook m v1 v2 (l1 ++ e :: l2) = some (some e) := by
  induction l1 with
  | nil =>
    obtain ⟨er, her, h0, hh0, s, hs, t, ht, hyes⟩ := hmatch
    simp only [List.nil_append, ceLook, her, hh0, hs, ht,
      Option.bind_eq_bind, Option.some_bind]
    rw [if_pos hyes]
    rfl
  | cons e' rest ih =>
    obtain ⟨er, her, h0, hh0, s, hs, t, ht, hneg⟩ :=
      hmiss e' (List.mem_cons_self e' rest)
    simp only [List.cons_append, ceLook, her, hh0, hs, ht,
      Option.bind_eq_bind, Option.some_bind]
    rw [if_neg hneg]
    exact ih (fun x hx => hmiss x (List.mem_cons_of_mem e' hx))

/-- C3, amended.  `create_edge(v1, v2)` searches only the candidate list
of the smaller-id endpoint `pV`.  (miss) When every scanned candidate is
a clean miss, it allocates a fresh Edge with both slots empty, appends it
to `m_edges` and to `pV`'s candidate list ONLY — every other vertex,
including the other endpoint, is untouched, as are all half-edges, faces
and the vertex list.  (hit) When the list splits as `l1 ++ e :: l2` with
`l1` clean misses and `e` a match, the call returns that existing edge
with the mesh unchanged; hence two successive calls with the same pair
return the same Edge object once the first call's edge has its slot 0
filled. -/
theorem C3_create_edge_amended (m : CBaseMesh) (v1 v2 pV : Nat)
    (r1 r2 pr : CVertex)
    (h1 : getV m v1 = some r1) (h2 : getV m v2 = some r2)
    (hpV : pV = if r1.id < r2.id then v1 else v2)
    (hpr : pr = if r1.id < r2.id then r1 else r2) :
    ((∀ e ∈ pr.ledges, ceCleanMiss m v1 v2 e) →
      ∃ p, create_edge m v1 v2 = some p ∧
        p.2 = m.eA.length ∧
        getE m p.2 = none ∧
        getE p.1 p.2 = some ⟨none, none, 0⟩ ∧
        p.1.edgesL = m.edgesL ++ [p.2] ∧
        getV p.1 pV =
          (getV m pV).map (fun vr => { vr with ledges := vr.ledges ++ [p.2] }) ∧
        (∀ u, u ≠ pV → getV p.1 u = getV m u) ∧
        p.1.hA = m.hA ∧ p.1.vertsL = m.vertsL ∧ p.1.facesL = m.facesL) ∧
    (∀ l1 e l2, pr.ledges = l1 ++ e :: l2 →
      (∀ e' ∈ l1, ceCleanMiss m v1 v2 e') → ceMatch m v1 v2 e →
      create_edge m v1 v2 = some (m, e)) := by
  constructor
  · intro hmiss
    have hlook : ceLook m v1 v2 pr.ledges = some none :=
      ceLook_none m v1 v2 pr.ledges hmiss
    rw [hpr] at hlook
    have hce : create_edge m v1 v2 = some (ceAlloc m pV) := by
      simp only [create_edge, h1, h2, Option.bind_eq_bind, Option.some_bind,
        hlook, ← hpV, Option.pure_def]
    refine ⟨ceAlloc m pV, hce, rfl, arenaGet_length _, ?_, rfl, ?_, ?_,
      rfl, rfl, rfl⟩
    · show getE (updV _ _ _) _ = _
      simp only [getE_updV]
      exact arenaGet_append_new _ _
    · exact getV_updV_self m pV _
    · intro u hu
      exact getV_updV_ne _ _ _ _ hu
  · intro l1 e l2 hsplit hl1 hmat
    have hlook : ceLook m v1 v2 pr.ledges = some (some e) := by
      rw [hsplit]; exact ceLook_found m v1 v2 l1 e l2 hl1 hmat
    rw [hpr] at hlook
    simp only [create_edge, h1, h2, Option.bind_eq_bind, Option.some_bind,
      hlook]
    rfl

theorem C3_create_edge_amended_witness :
    (∃ p, create_edge meshV2 0 1 = some p ∧
      p.2 = meshV2.eA.length ∧
      getE p.1 p.2 = some ⟨none, none, 0⟩ ∧
      p.1.edgesL = meshV2.edgesL ++ [p.2] ∧
      getV p.1 1 = getV meshV2 1) ∧
    (∃ mt, meshTri = some mt ∧ create_edge mt 0 1 = some (mt, 1)) := by
  constructor
  · have h1 : getV meshV2 0 = some ⟨1, none, false, [], [], []⟩ := by decide
    have h2 : getV meshV2 1 = some ⟨2, none, false, [], [], []⟩ := by decide
    have H := (C3_create_edge_amended meshV2 0 1 0
      ⟨1, none, false, [], [], []⟩ ⟨2, none, false, [], [], []⟩
      ⟨1, none, false, [], [], []⟩ h1 h2 (by decide) (by decide)).1
      (by intro e he; exact absurd he (List.not_mem_nil e))
    obtain ⟨p, hp, hlen, _, hrec, hel, _, hfr, _⟩ := H
    exact ⟨p, hp, hlen, hrec, hel, hfr 1 (by decide)⟩
  · have h : ∃ mt, meshTri = some mt ∧
        ∃ ra, getV mt 0 = some ra ∧ ∃ rb, getV mt 1 = some rb ∧
          ra.id < rb.id ∧ ra.ledges = [0] ++ 1 :: [] ∧
          ceCleanMiss mt 0 1 0 ∧ ceMatch mt 0 1 1 := by decide
    obtain ⟨mt, hm, ra, hga, rb, hgb, hid, hled, hcm, hmt⟩ := h
    refine ⟨mt, hm, ?_⟩
    have H := C3_create_edge_amended mt 0 1 0 ra rb ra hga hgb
      (by rw [if_pos hid]) (by rw [if_pos hid])
    refine H.2 [0] 1 [] hled ?_ hmt
    intro e' he'
    rw [List.mem_singleton] at he'
    subst he'
    exact hcm

theorem rotAux_finds (src : α → β) [DecidableEq β] (m0 : β) (A : List α)
    (b : α) :
    ∀ (k : Nat), (∀ a ∈ A, src a ≠ m0) → src b = m0 → A.length < k →
      ∀ t', rotAux src m0 k (A ++ b :: t') = (b :: t' ++ A, true) := by
  induction A with
  | nil =>
    intro k _ hb hk t'
    cases k with
    | zero => exact absurd hk (by simp)
    | succ k => simp [rotAux, hb]
  | cons a A' ih =>
    intro k hA hb hk t'
    cases k with
    | zero => exact absurd hk (by simp)
    | succ k =>
      have hne : src a ≠ m0 := hA a (List.mem_cons_self a A')
      have step : rotAux src m0 (k + 1) ((a :: A') ++ b :: t') =
          rotAux src m0 k ((A' ++ b :: t') ++ [a]) := by
        simp [rotAux, hne]
      rw [step]
      have : (A' ++ b :: t') ++ [a] = A' ++ b :: (t' ++ [a]) := by simp
      rw [this]
      have hk' : A'.length < k := by
        simpa [Nat.succ_lt_succ_iff] using hk
      rw [ih k (fun x hx => hA x (List.mem_cons_of_mem a hx)) hb hk' (t' ++ [a])]
      simp

theorem rotAux_fails (src : α → β) [DecidableEq β] (m0 : β) :
    ∀ (k : Nat) (q : List α), (∀ h ∈ q, src h ≠ m0) →
      (rotAux src m0 k q).2 = false := by
  intro k
  induction k with
  | zero => intro q _; rfl
  | succ k ih =>
    intro q hq
    cases q with
    | nil => rfl
    | cons h t =>
      have hne : src h ≠ m0 := hq h (List.mem_cons_self h t)
      simp only [rotAux, if_neg hne]
      exact ih (t ++ [h]) (by
        intro x hx
        rcases List.mem_append.1 hx with hx | hx
        · exact hq x (List.mem_cons_of_mem h hx)
        · rw [List.mem_singleton] at hx
          subst hx
          exact hne)

theorem segTake_last (tgt : α → β) [DecidableEq β] (m1 : β) (ph : α)
    (q : List α) (h : tgt ph = m1) :
    segTake tgt m1 ph q = ([ph], q, false) := by
  cases q <;> simp [segTake, h]

theorem segTake_exact (tgt : α → β) [DecidableEq β] (m1 : β) :
    ∀ (mid : List α) (lst : α) (q : List α) (ph : α),
      tgt lst = m1 → (∀ x ∈ ph :: mid, tgt x ≠ m1) →
      segTake tgt m1 ph (mid ++ lst :: q) = (ph :: (mid ++ [lst]), q, false) := by
  intro mid
  induction mid with
  | nil =>
    intro lst q ph hlst hmid
    have hne : tgt ph ≠ m1 := hmid ph (List.mem_cons_self ph [])
    rw [List.nil_append]
    simp only [segTake, if_neg hne, segTake_last tgt m1 lst q hlst]
    simp
  | cons x mid' ih =>
    intro lst q ph hlst hmid
    have hne : tgt ph ≠ m1 := hmid ph (List.mem_cons_self ph (x :: mid'))
    have hmid' : ∀ y ∈ x :: mid', tgt y ≠ m1 := by
      intro y hy
      exact hmid y (List.mem_cons_of_mem ph hy)
    rw [List.cons_append]
    simp only [segTake, if_neg hne, ih lst q x hlst hmid']
    simp

theorem segTake_exhaust (tgt : α → β) [DecidableEq β] (m1 : β) :
    ∀ (q : List α) (ph : α), (∀ x ∈ ph :: q, tgt x ≠ m1) →
      (segTake tgt m1 ph q).2.2 = true := by
  intro q
  induction q with
  | nil =>
    intro ph h
    have hne : tgt ph ≠ m1 := h ph (List.mem_cons_self ph [])
    simp [segTake, if_neg hne]
  | cons x q' ih =>
    intro ph h
    have hne : tgt ph ≠ m1 := h ph (List.mem_cons_self ph (x :: q'))
    simp only [segTake, if_neg hne]
    exact ih x (fun y hy => h y (List.mem_cons_of_mem ph hy))

theorem segChain_length (src tgt : α → β) (m0 : β) :
    ∀ (ms : List β) (SS : List (List α)),
      segChain src tgt m0 ms SS → SS.length = ms.length := by
  intro ms
  induction ms with
  | nil => intro SS h; rw [h]; rfl
  | cons mi ms' ih =>
    intro SS h
    obtain ⟨front, lst, SS', hSS, _, _, _, hrec⟩ := h
    subst hSS
    simp [ih SS' hrec]

theorem divideGo_step (src tgt : α → β) [DecidableEq β] (m0 mi : β)
    (ms : List β) (ph : α) (t : List α) (acc : List (List α)) (g : Nat)
    (S : List α) (rest : List α)
    (hseg : segTake tgt (match ms with | [] => m0 | m' :: _ => m') ph t =
      (S, rest, false)) :
    divideGo src tgt m0 (mi :: ms) (ph :: t) acc g =
      divideGo src tgt m0 ms rest (acc ++ [S])
        (g + (if src ph = mi then 0 else 1)) := by
  simp only [divideGo, hseg, Bool.false_eq_true, if_false]

theorem divideGo_err (src tgt : α → β) [DecidableEq β] (m0 mi : β)
    (ms : List β) (ph : α) (t : List α) (acc : List (List α)) (g : Nat)
    (S : List α) (rest : List α)
    (hseg : segTake tgt (match ms with | [] => m0 | m' :: _ => m') ph t =
      (S, rest, true)) :
    divideGo src tgt m0 (mi :: ms) (ph :: t) acc g =
      some (acc, true, g + (if src ph = mi then 0 else 1)) := by
  simp only [divideGo, hseg, if_true]

theorem divideGo_exact (src tgt : α → β) [DecidableEq β] (m0 : β) :
    ∀ (ms : List β) (SS : List (List α)) (acc : List (List α)) (g : Nat),
      segChain src tgt m0 ms SS →
      divideGo src tgt m0 ms SS.flatten acc g = some (acc ++ SS, false, g) := by
  intro ms
  induction ms with
  | nil =>
    intro SS acc g h
    rw [h]
    simp [divideGo]
  | cons mi ms' ih =>
    intro SS acc g h
    obtain ⟨front, lst, SS', hSS, hsrc, hlst, hfront, hrec⟩ := h
    subst hSS
    cases front with
    | nil =>
      have hsrc' : src lst = mi := by
        simpa [srcHead] using hsrc
      have hj : (([] ++ [lst]) :: SS').flatten = lst :: SS'.flatten := by simp
      rw [hj, divideGo_step src tgt m0 mi ms' lst SS'.flatten acc g
        [lst] SS'.flatten (segTake_last tgt _ lst SS'.flatten hlst)]
      rw [if_pos hsrc', Nat.add_zero, ih SS' (acc ++ [[lst]]) g hrec]
      simp
    | cons ph mid =>
      have hsrc' : src ph = mi := by
        simpa [srcHead] using hsrc
      have hj : ((ph :: mid ++ [lst]) :: SS').flatten =
          ph :: (mid ++ lst :: SS'.flatten) := by simp
      rw [hj, divideGo_step src tgt m0 mi ms' ph (mid ++ lst :: SS'.flatten)
        acc g (ph :: (mid ++ [lst])) SS'.flatten
        (segTake_exact tgt _ mid lst SS'.flatten ph hlst hfront)]
      rw [if_pos hsrc', Nat.add_zero, ih SS' (acc ++ [ph :: (mid ++ [lst])]) g hrec]
      simp

/-- C6.  For a traced loop given as the half-edge list `hes = A ++ b :: t`
(rotated form: `b` is the first half-edge leaving the first marker `m0`,
no half-edge of `A` leaves `m0`), and a non-empty marker list
`m0 :: ms` lying on the loop in loop order — expressed as a `segChain`
decomposition `SS` of the rotated loop `b :: (t ++ A)` — `divide`
succeeds with no error and no failed assert and produces exactly `SS`:
`length ms + 1 = len(markers)` ordered segments that concatenate to the
whole rotated loop (no gaps, no overlaps), each starting at one marker
and ending at the cyclically next one.  When no half-edge of the loop has
`m0` as source, one full rotation fails and `divide` reports the error,
returning no segments; when the sequence is exhausted before the next
marker is reached (no half-edge enters `m1`), `divide` likewise reports
the error and returns no segments.  In every case the loop list itself is
an untouched input. -/
theorem C6_divide_spec (src tgt : α → β) [DecidableEq β]
    (hes A t : List α) (b : α) (m0 : β) (ms : List β) :
    ((hes = A ++ b :: t) → (∀ a ∈ A, src a ≠ m0) → src b = m0 →
      (∀ SS, segChain src tgt m0 (m0 :: ms) SS →
        b :: (t ++ A) = SS.flatten →
        divide src tgt hes (m0 :: ms) = some (SS, false, 0) ∧
        SS.length = ms.length + 1 ∧ SS.flatten = b :: (t ++ A)) ∧
      (∀ m1 ms', ms = m1 :: ms' → (∀ x ∈ b :: (t ++ A), tgt x ≠ m1) →
        divide src tgt hes (m0 :: ms) = some ([], true, 0))) ∧
    ((∀ h ∈ hes, src h ≠ m0) →
      divide src tgt hes (m0 :: ms) = some ([], true, 0)) := by
  constructor
  · intro hhes hA hb
    subst hhes
    have hlen : A.length < (A ++ b :: t).length + 1 := by
      simp [List.length_append]
      omega
    have hrot : rotAux src m0 ((A ++ b :: t).length + 1) (A ++ b :: t) =
        (b :: (t ++ A), true) :=
      rotAux_finds src m0 A b ((A ++ b :: t).length + 1) hA hb hlen t
    constructor
    · intro SS hchain hflat
      have hL := segChain_length src tgt m0 (m0 :: ms) SS hchain
      refine ⟨?_, by simpa using hL, hflat.symm⟩
      simp only [divide, hrot, if_true]
      rw [hflat, divideGo_exact src tgt m0 (m0 :: ms) SS [] 0 hchain]
      simp
    · intro m1 ms' hms hne
      subst hms
      have hexh := segTake_exhaust tgt m1 (t ++ A) b hne
      have hseg : segTake tgt m1 b (t ++ A) =
          ((segTake tgt m1 b (t ++ A)).1,
           (segTake tgt m1 b (t ++ A)).2.1, true) := by
        rw [← hexh]
      simp only [divide, hrot, if_true]
      rw [divideGo_err src tgt m0 m0 (m1 :: ms') b (t ++ A) [] 0 _ _ hseg]
      rw [if_pos hb]
  · intro hnone
    have hrot := rotAux_fails src m0 (hes.length + 1) hes hnone
    simp only [divide, hrot, Bool.false_eq_true, if_false]

theorem C6_divide_spec_witness :
    divide Prod.fst Prod.snd
      [((1 : Nat), (2 : Nat)), (2, 3), (3, 1)] [1, 3] =
      some ([[(1, 2), (2, 3)], [(3, 1)]], false, 0) ∧
    divide Prod.fst Prod.snd
      [((1 : Nat), (2 : Nat)), (2, 3), (3, 1)] [7, 3] =
      some ([], true, 0) ∧
    divide Prod.fst Prod.snd
      [((1 : Nat), (2 : Nat)), (2, 3), (3, 1)] [1, 9] =
      some ([], true, 0) := by
  have H := C6_divide_spec (Prod.fst : Nat × Nat → Nat) Prod.snd
    [(1, 2), (2, 3), (3, 1)] [] [(2, 3), (3, 1)] (1, 2) 1 [3]
  have Hchain : segChain (Prod.fst : Nat × Nat → Nat) Prod.snd 1 [1, 3]
      [[(1, 2), (2, 3)], [(3, 1)]] := by
    refine ⟨[(1, 2)], (2, 3), [[(3, 1)]], rfl, rfl, rfl, by decide, ?_⟩
    exact ⟨[], (3, 1), [], rfl, rfl, rfl, by decide, rfl⟩
  have H1 := (H.1 rfl (by decide) rfl).1 [[(1, 2), (2, 3)], [(3, 1)]]
    Hchain (by decide)
  have H2 := (C6_divide_spec (Prod.fst : Nat × Nat → Nat) Prod.snd
    [(1, 2), (2, 3), (3, 1)] [] [(2, 3), (3, 1)] (1, 2) 7 [3]).2 (by decide)
  refine ⟨H1.1, H2, ?_⟩
  have H' := C6_divide_spec (Prod.fst : Nat × Nat → Nat) Prod.snd
    [(1, 2), (2, 3), (3, 1)] [] [(2, 3), (3, 1)] (1, 2) 1 [9]
  exact (H'.1 rfl (by decide) rfl).2 9 [] rfl (by decide)

theorem sorted_append_iff {r : α → α → Prop} {l1 l2 : List α} :
    (l1 ++ l2).Sorted r ↔
      l1.Sorted r ∧ l2.Sorted r ∧ ∀ a ∈ l1, ∀ b ∈ l2, r a b :=
  List.pairwise_append

theorem bpass_cons2 (key : α → Int) (a b : α) (t : List α) :
    bpass key (a :: b :: t) =
      if key a < key b then (b :: (bpass key (a :: t)).1, true)
      else (a :: (bpass key (b :: t)).1, (bpass key (b :: t)).2) := by
  show bpassGo key a (b :: t) = _
  by_cases h : key a < key b
  · simp only [bpassGo, if_pos h]
    rfl
  · simp only [bpassGo, if_neg h]
    rfl

theorem bpass_perm (key : α → Int) : ∀ l : List α, (bpass key l).1.Perm l
  | [] => by simp [bpass]
  | [a] => by simp [bpass, bpassGo]
  | a :: b :: t => by
    by_cases h : key a < key b
    · simp only [bpass_cons2, if_pos h]
      exact ((bpass_perm key (a :: t)).cons b).trans
        (List.Perm.swap a b t)
    · simp only [bpass_cons2, if_neg h]
      exact (bpass_perm key (b :: t)).cons a
termination_by l => l.length

theorem bpass_flag_false (key : α → Int) :
    ∀ l : List α, (bpass key l).2 = false →
      (bpass key l).1 = l ∧ l.Sorted (keyDesc key)
  | [] => by simp [bpass]
  | [a] => by simp [bpass, bpassGo, keyDesc]
  | a :: b :: t => by
    intro hf
    by_cases h : key a < key b
    · simp only [bpass_cons2, if_pos h] at hf
      exact absurd hf (by simp)
    · simp only [bpass_cons2, if_neg h] at hf
      have ih := bpass_flag_false key (b :: t) hf
      simp only [bpass_cons2, if_neg h]
      refine ⟨by rw [ih.1], ?_⟩
      rw [List.sorted_cons]
      refine ⟨?_, ih.2⟩
      intro x hx
      have hba : key b ≤ key a := le_of_not_lt h
      rcases List.mem_cons.1 hx with rfl | hx
      · exact hba
      · have := (List.sorted_cons.1 ih.2).1 x hx
        exact le_trans this hba
termination_by l => l.length

theorem bpass_sorted_id (key : α → Int) :
    ∀ l : List α, l.Sorted (keyDesc key) → bpass key l = (l, false)
  | [] => by simp [bpass]
  | [a] => by simp [bpass, bpassGo]
  | a :: b :: t => by
    intro hs
    have hab : key b ≤ key a := (List.sorted_cons.1 hs).1 b (by simp)
    have h : ¬ key a < key b := not_lt.2 hab
    simp only [bpass_cons2, if_neg h]
    rw [bpass_sorted_id key (b :: t) (List.sorted_cons.1 hs).2]
termination_by l => l.length

theorem bpass_decomp (key : α → Int) :
    ∀ l : List α, l ≠ [] →
      ∃ l0 x, (bpass key l).1 = l0 ++ [x] ∧ (∀ y ∈ l, key x ≤ key y)
  | [], h => absurd rfl h
  | [a], _ => ⟨[], a, by simp [bpass, bpassGo], by simp⟩
  | a :: b :: t, _ => by
    by_cases h : key a < key b
    · obtain ⟨l0, x, hx, hmin⟩ := bpass_decomp key (a :: t) (by simp)
      refine ⟨b :: l0, x, ?_, ?_⟩
      · simp only [bpass_cons2, if_pos h]
        simp [hx]
      · intro y hy
        rcases List.mem_cons.1 hy with rfl | hy
        · exact hmin y (by simp)
        · rcases List.mem_cons.1 hy with rfl | hy
          · exact le_trans (le_trans (hmin a (by simp)) (le_of_lt h)) (le_refl _)
          · exact hmin y (List.mem_cons_of_mem a hy)
    · obtain ⟨l0, x, hx, hmin⟩ := bpass_decomp key (b :: t) (by simp)
      refine ⟨a :: l0, x, ?_, ?_⟩
      · simp only [bpass_cons2, if_neg h]
        simp [hx]
      · intro y hy
        rcases List.mem_cons.1 hy with rfl | hy
        · exact le_trans (hmin b (by simp)) (le_of_not_lt h)
        · exact hmin y hy
termination_by l => l.length

theorem bpass_concat (key : α → Int) :
    ∀ (l tl : List α), (∀ x ∈ l, ∀ y ∈ tl, key y ≤ key x) →
      tl.Sorted (keyDesc key) →
      bpass key (l ++ tl) = ((bpass key l).1 ++ tl, (bpass key l).2)
  | [], tl, _, hs => by
    rw [List.nil_append, bpass_sorted_id key tl hs]
    simp [bpass]
  | [a], tl, hdom, hs => by
    cases tl with
    | nil => simp
    | cons c t' =>
      have hca : key c ≤ key a := hdom a (by simp) c (by simp)
      have h : ¬ key a < key c := not_lt.2 hca
      show bpass key (a :: c :: t') = _
      simp only [bpass_cons2, if_neg h]
      rw [bpass_sorted_id key (c :: t') hs]
      simp [bpass, bpassGo]
  | a :: b :: t, tl, hdom, hs => by
    have hdom' : ∀ x ∈ a :: t, ∀ y ∈ tl, key y ≤ key x := by
      intro x hx y hy
      rcases List.mem_cons.1 hx with rfl | hx
      · exact hdom x (by simp) y hy
      · exact hdom x (by simp [hx]) y hy
    have hdom'' : ∀ x ∈ b :: t, ∀ y ∈ tl, key y ≤ key x := by
      intro x hx y hy
      rcases List.mem_cons.1 hx with rfl | hx
      · exact hdom x (by simp) y hy
      · exact hdom x (by simp [hx]) y hy
    by_cases h : key a < key b
    · have hrw : bpass key (a :: (t ++ tl)) =
          ((bpass key (a :: t)).1 ++ tl, (bpass key (a :: t)).2) :=
        bpass_concat key (a :: t) tl hdom' hs
      show bpass key (a :: b :: (t ++ tl)) = _
      simp only [bpass_cons2, if_pos h, hrw]
      simp
    · have hrw : bpass key (b :: (t ++ tl)) =
          ((bpass key (b :: t)).1 ++ tl, (bpass key (b :: t)).2) :=
        bpass_concat key (b :: t) tl hdom'' hs
      show bpass key (a :: b :: (t ++ tl)) = _
      simp only [bpass_cons2, if_neg h, hrw]
      simp
termination_by l _ _ _ => l.length

theorem bsortGo_spec (key : α → Int) :
    ∀ (n : Nat) (l tl : List α), l.length ≤ n + 1 →
      (∀ x ∈ l, ∀ y ∈ tl, key y ≤ key x) →
      tl.Sorted (keyDesc key) →
      (bsortGo key n (l ++ tl)).Sorted (keyDesc key) ∧
      (bsortGo key n (l ++ tl)).Perm (l ++ tl) := by
  intro n
  induction n with
  | zero =>
    intro l tl hlen hdom hs
    simp only [bsortGo]
    constructor
    · rw [sorted_append_iff]
      refine ⟨?_, hs, fun a ha b hb => hdom a ha b hb⟩
      cases l with
      | nil => simp
      | cons a t =>
        cases t with
        | nil => simp [List.sorted_singleton]
        | cons b t' => simp at hlen
    · exact List.Perm.refl _
  | succ n ih =>
    intro l tl hlen hdom hs
    simp only [bsortGo]
    rw [bpass_concat key l tl hdom hs]
    by_cases hf : (bpass key l).2 = true
    · simp only [hf, if_true]
      cases hl : l with
      | nil =>
        subst hl
        rw [bpass] at hf
        exact absurd hf (by simp)
      | cons a t =>
        rw [← hl]
        obtain ⟨l0, x, hx, hmin⟩ := bpass_decomp key l (by rw [hl]; simp)
        have hperm : (bpass key l).1.Perm l := bpass_perm key l
        have hmem : ∀ y ∈ l0, y ∈ l := by
          intro y hy
          exact hperm.mem_iff.1 (by rw [hx]; exact List.mem_append_left _ hy)
        have hxl : x ∈ l := hperm.mem_iff.1 (by rw [hx]; simp)
        have hlen0 : l0.length ≤ n + 1 := by
          have h1 : (bpass key l).1.length = l.length := hperm.length_eq
          rw [hx] at h1
          simp at h1
          omega
        have hdom0 : ∀ u ∈ l0, ∀ y ∈ x :: tl, key y ≤ key u := by
          intro u hu y hy
          rcases List.mem_cons.1 hy with rfl | hy
          · exact hmin u (hmem u hu)
          · exact hdom u (hmem u hu) y hy
        have hs0 : (x :: tl).Sorted (keyDesc key) := by
          rw [List.sorted_cons]
          exact ⟨fun y hy => hdom x hxl y hy, hs⟩
        have heq : (bpass key l).1 ++ tl = l0 ++ (x :: tl) := by
          rw [hx]
          simp
        rw [heq]
        obtain ⟨hsorted, hperm2⟩ := ih l0 (x :: tl) hlen0 hdom0 hs0
        refine ⟨hsorted, hperm2.trans ?_⟩
        rw [← heq]
        exact hperm.append_right tl
    · have hf' : (bpass key l).2 = false := by
        revert hf
        cases (bpass key l).2 <;> simp
      simp only [hf', Bool.false_eq_true, if_false]
      obtain ⟨hid, hsl⟩ := bpass_flag_false key l hf'
      rw [hid]
      constructor
      · rw [sorted_append_iff]
        exact ⟨hsl, hs, fun a ha b hb => hdom a ha b hb⟩
      · exact List.Perm.refl _

theorem bubbleSort_spec (key : α → Int) (l : List α) :
    (bubbleSort key l).Sorted (keyDesc key) ∧ (bubbleSort key l).Perm l := by
  have h := bsortGo_spec key l.length l [] (by omega)
    (by intro x _ y hy; cases hy) (by simp)
  simpa [bubbleSort] using h

theorem traceGo_spec (m : CBaseMesh) (pH fI : Nat) :
    ∀ (fuel he : Nat) (l : List Nat) (len : Int),
      traceGo m pH fI fuel he = some (l, len) →
      List.Chain' (fun a b => traceStep m fI a = some b) (he :: l) ∧
      l.getLast? = some pH ∧ l ≠ [] ∧ loopLen m l = some len := by
  intro fuel
  induction fuel with
  | zero =>
    intro he l len h
    exact absurd h (by simp [traceGo])
  | succ fuel ih =>
    intro he l len h
    simp only [traceGo, Option.bind_eq_bind] at h
    rw [Option.bind_eq_some] at h
    obtain ⟨nx, hstep, h⟩ := h
    rw [Option.bind_eq_some] at h
    obtain ⟨er, her, h⟩ := h
    by_cases hnx : nx = pH
    · rw [if_pos hnx] at h
      rw [Option.pure_def, Option.some_inj] at h
      have hl : l = [nx] := (congrArg Prod.fst h).symm
      have hlen : len = er.length := (congrArg Prod.snd h).symm
      subst hnx
      refine ⟨?_, ?_, ?_, ?_⟩
      · rw [hl, List.chain'_cons]
        exact ⟨hstep, List.chain'_singleton nx⟩
      · rw [hl]; simp
      · rw [hl]; simp
      · rw [hl]
        simp only [loopLen, hlen]
        simp [List.mapM.loop, edgeLenOf, her]
    · rw [if_neg hnx] at h
      rw [Option.bind_eq_some] at h
      obtain ⟨r, hrec, h⟩ := h
      rw [Option.pure_def, Option.some_inj] at h
      have hl : l = nx :: r.1 := congrArg Prod.fst h.symm
      have hlen : len = er.length + r.2 := congrArg Prod.snd h.symm
      obtain ⟨ihC, ihL, ihN, ihS⟩ := ih nx r.1 r.2 (by
        rw [hrec])
      refine ⟨?_, ?_, ?_, ?_⟩
      · rw [hl, List.chain'_cons]
        exact ⟨hstep, ihC⟩
      · rw [hl]
        cases hr1 : r.1 with
        | nil => exact absurd hr1 ihN
        | cons c t =>
          rw [hr1] at ihL
          rw [List.getLast?_cons_cons]
          exact ihL
      · rw [hl]; simp
      · rw [hl, hlen]
        simp only [loopLen, List.mapM_cons] at ihS ⊢
        simp only [edgeLenOf, her, Option.map_some']
        rw [Option.map_eq_some'] at ihS
        obtain ⟨ls, hls, hsum⟩ := ihS
        rw [hls]
        simp [hsum.symm]

theorem boundaryTraceAll_no_none (m : CBaseMesh) (fI : Nat) :
    ∀ (fuel : Nat) (seeds : List (Option Nat)) (loops : List LoopRec),
      boundaryTraceAll m fI fuel seeds = some loops → none ∉ seeds := by
  intro fuel
  induction fuel with
  | zero =>
    intro seeds loops h
    cases seeds with
    | nil => simp
    | cons s rest => exact absurd h (by simp [boundaryTraceAll])
  | succ fuel ih =>
    intro seeds loops h
    cases seeds with
    | nil => simp
    | cons s rest =>
      simp only [boundaryTraceAll, Option.bind_eq_bind] at h
      rw [Option.bind_eq_some] at h
      obtain ⟨hh, hs, h⟩ := h
      rw [Option.bind_eq_some] at h
      obtain ⟨t, ht, h⟩ := h
      rw [Option.bind_eq_some] at h
      obtain ⟨r, hr, _⟩ := h
      intro hmem
      rcases List.mem_cons.1 hmem with heq | hmem
      · rw [← heq] at hs
        cases hs
      · have : (none : Option Nat) ∈ (s :: rest).filter
            (fun x => !(x.elim false (fun y => t.1.contains y))) := by
          rw [List.mem_filter]
          exact ⟨List.mem_cons_of_mem s hmem, by simp⟩
        exact ih _ r hr this

theorem optLt_trans {a b c : Option Nat} :
    optLt a b = true → optLt b c = true → optLt a c = true := by
  cases a <;> cases b <;> cases c
  all_goals simp [optLt]
  all_goals omega

theorem optLt_flip {a b : Option Nat} :
    ¬a = b → optLt a b = false → optLt b a = true := by
  cases a <;> cases b
  all_goals simp [optLt]
  all_goals omega

theorem optLt_irrefl (a : Option Nat) : optLt a a = false := by
  cases a <;> simp [optLt]

theorem setInsert_mem :
    ∀ (l : List (Option Nat)) (y x : Option Nat),
      x ∈ setInsert y l ↔ x = y ∨ x ∈ l
  | [], y, x => by simp [setInsert]
  | z :: t, y, x => by
    by_cases h1 : y = z
    · subst h1
      simp only [setInsert, if_pos rfl]
      constructor
      · exact Or.inr
      · rintro (rfl | h)
        · exact List.mem_cons_self _ _
        · exact h
    · by_cases h2 : optLt y z
      · simp only [setInsert, if_neg h1, if_pos h2, List.mem_cons]
      · simp only [setInsert, if_neg h1, if_neg h2, List.mem_cons,
          setInsert_mem t y x]
        tauto

theorem setInsert_pairwise (y : Option Nat) :
    ∀ l : List (Option Nat), l.Pairwise (fun a b => optLt a b = true) →
      (setInsert y l).Pairwise (fun a b => optLt a b = true)
  | [], _ => by simp [setInsert]
  | z :: t, hp => by
    rw [List.pairwise_cons] at hp
    obtain ⟨hz, ht⟩ := hp
    by_cases h1 : y = z
    · subst h1
      simp only [setInsert, if_pos rfl]
      exact List.pairwise_cons.2 ⟨hz, ht⟩
    · by_cases h2 : optLt y z
      · simp only [setInsert, if_neg h1, if_pos h2]
        rw [List.pairwise_cons]
        refine ⟨?_, List.pairwise_cons.2 ⟨hz, ht⟩⟩
        intro w hw
        rcases List.mem_cons.1 hw with rfl | hw
        · exact h2
        · exact optLt_trans h2 (hz w hw)
      · simp only [setInsert, if_neg h1, if_neg h2]
        rw [List.pairwise_cons]
        refine ⟨?_, setInsert_pairwise y t ht⟩
        intro w hw
        rcases (setInsert_mem t y w).1 hw with rfl | hw
        · exact optLt_flip h1 (by simpa using h2)
        · exact hz w hw

theorem seedCollect_pairwise (m : CBaseMesh) :
    ∀ (es : List Nat) (acc seeds : List (Option Nat)),
      acc.Pairwise (fun a b => optLt a b = true) →
      seedCollect m acc es = some seeds →
      seeds.Pairwise (fun a b => optLt a b = true)
  | [], acc, seeds, hp, h => by
    simp only [seedCollect, Option.some_inj] at h
    subst h
    exact hp
  | e :: rest, acc, seeds, hp, h => by
    simp only [seedCollect, Option.bind_eq_bind] at h
    rw [Option.bind_eq_some] at h
    obtain ⟨er, her, h⟩ := h
    by_cases hb : (er.he0.isNone || er.he1.isNone) = true
    · rw [if_pos hb] at h
      exact seedCollect_pairwise m rest _ seeds (setInsert_pairwise er.he0 acc hp) h
    · rw [if_neg hb] at h
      exact seedCollect_pairwise m rest acc seeds hp h

theorem seedCollect_mem (m : CBaseMesh) :
    ∀ (es : List Nat) (acc seeds : List (Option Nat)),
      seedCollect m acc es = some seeds →
      ∀ x, x ∈ seeds ↔ (x ∈ acc ∨ ∃ e ∈ es, ∃ er, getE m e = some er ∧
          (er.he0.isNone || er.he1.isNone) = true ∧ x = er.he0)
  | [], acc, seeds, h, x => by
    simp only [seedCollect, Option.some_inj] at h
    subst h
    simp
  | e :: rest, acc, seeds, h, x => by
    simp only [seedCollect, Option.bind_eq_bind] at h
    rw [Option.bind_eq_some] at h
    obtain ⟨er, her, h⟩ := h
    by_cases hb : (er.he0.isNone || er.he1.isNone) = true
    · rw [if_pos hb] at h
      rw [seedCollect_mem m rest _ seeds h x, setInsert_mem]
      constructor
      · rintro ((rfl | hacc) | ⟨e', he', er', her', hb', rfl⟩)
        · exact Or.inr ⟨e, List.mem_cons_self _ _, er, her, hb, rfl⟩
        · exact Or.inl hacc
        · exact Or.inr ⟨e', List.mem_cons_of_mem e he', er', her', hb', rfl⟩
      · rintro (hacc | ⟨e', he', er', her', hb', rfl⟩)
        · exact Or.inl (Or.inr hacc)
        · rcases List.mem_cons.1 he' with rfl | he'
          · rw [her, Option.some_inj] at her'
            subst her'
            exact Or.inl (Or.inl rfl)
          · exact Or.inr ⟨e', he', er', her', hb', rfl⟩
    · rw [if_neg hb] at h
      rw [seedCollect_mem m rest acc seeds h x]
      constructor
      · rintro (hacc | ⟨e', he', er', her', hb', rfl⟩)
        · exact Or.inl hacc
        · exact Or.inr ⟨e', List.mem_cons_of_mem e he', er', her', hb', rfl⟩
      · rintro (hacc | ⟨e', he', er', her', hb', rfl⟩)
        · exact Or.inl hacc
        · rcases List.mem_cons.1 he' with rfl | he'
          · rw [her, Option.some_inj] at her'
            subst her'
            exact absurd hb' hb
          · exact Or.inr ⟨e', he', er', her', hb', rfl⟩

theorem boundaryTraceAll_loops (m : CBaseMesh) (fI : Nat) :
    ∀ (fuel : Nat) (seeds : List (Option Nat)) (pre : List LoopRec),
      boundaryTraceAll m fI fuel seeds = some pre →
      ∀ L ∈ pre, ∃ pH, some pH ∈ seeds ∧
        traceLoop m pH fI fI = some (L.hes, L.len) := by
  intro fuel
  induction fuel with
  | zero =>
    intro seeds pre h L hL
    cases seeds with
    | nil =>
      simp only [boundaryTraceAll, Option.some_inj] at h
      subst h
      exact absurd hL (List.not_mem_nil L)
    | cons s rest => exact absurd h (by simp [boundaryTraceAll])
  | succ fuel ih =>
    intro seeds pre h L hL
    cases seeds with
    | nil =>
      simp only [boundaryTraceAll, Option.some_inj] at h
      subst h
      exact absurd hL (List.not_mem_nil L)
    | cons s rest =>
      simp only [boundaryTraceAll, Option.bind_eq_bind] at h
      rw [Option.bind_eq_some] at h
      obtain ⟨hh, hs, h⟩ := h
      rw [Option.bind_eq_some] at h
      obtain ⟨t, ht, h⟩ := h
      rw [Option.bind_eq_some] at h
      obtain ⟨r, hr, h⟩ := h
      rw [Option.pure_def, Option.some_inj] at h
      subst h
      rcases List.mem_cons.1 hL with rfl | hL
      · exact ⟨hh, by rw [hs]; exact List.mem_cons_self _ _, ht⟩
      · obtain ⟨pH, hmem, htr⟩ := ih _ r hr L hL
        exact ⟨pH, (List.mem_filter.1 hmem).1, htr⟩

/-- C7: on any mesh where the boundary tracer (`CBoundary` construction)
completes, the candidate set it seeds contains exactly the slot-0
half-edges of the boundary edges (each once, never NULL); every recorded
loop is a chain of `most_clw_out_halfedge` steps from its seed half-edge
that closes back at the seed, with its length the sum of the traced edge
lengths; and the final list is a permutation of the traced loops sorted
in descending order of total length. -/
theorem C7_boundary_trace_spec (m : CBaseMesh) (fO fI : Nat)
    (loops : List LoopRec) (hrun : cboundary m fO fI = some loops) :
    ∃ seeds pre,
      seedCollect m [] m.edgesL = some seeds ∧
      (∀ x, x ∈ seeds ↔ ∃ e ∈ m.edgesL, ∃ er, getE m e = some er ∧
          (er.he0.isNone || er.he1.isNone) = true ∧ x = er.he0) ∧
      seeds.Nodup ∧
      none ∉ seeds ∧
      boundaryTraceAll m fI fO seeds = some pre ∧
      (∀ L ∈ pre, ∃ pH, some pH ∈ seeds ∧
          L.hes ≠ [] ∧ L.hes.getLast? = some pH ∧
          List.Chain' (fun a b => traceStep m fI a = some b) (pH :: L.hes) ∧
          loopLen m L.hes = some L.len) ∧
      loops.Perm pre ∧
      loops.Sorted (fun a b => b.len ≤ a.len) := by
  simp only [cboundary, Option.bind_eq_bind] at hrun
  rw [Option.bind_eq_some] at hrun
  obtain ⟨seeds, hseeds, hrun⟩ := hrun
  rw [Option.bind_eq_some] at hrun
  obtain ⟨pre, hpre, hrun⟩ := hrun
  rw [Option.pure_def, Option.some_inj] at hrun
  subst hrun
  obtain ⟨hsort, hperm⟩ := bubbleSort_spec (fun L : LoopRec => L.len) pre
  refine ⟨seeds, pre, hseeds, ?_, ?_, ?_, hpre, ?_, hperm, hsort⟩
  · intro x
    have h := seedCollect_mem m m.edgesL [] seeds hseeds x
    simpa using h
  · have hp := seedCollect_pairwise m m.edgesL [] seeds List.Pairwise.nil hseeds
    refine List.Pairwise.imp ?_ hp
    intro a b hab hEq
    subst hEq
    rw [optLt_irrefl] at hab
    exact Bool.false_ne_true hab
  · exact boundaryTraceAll_no_none m fI fO seeds pre hpre
  · intro L hL
    obtain ⟨pH, hmem, htr⟩ := boundaryTraceAll_loops m fI fO seeds pre hpre L hL
    obtain ⟨hc, hlast, hne, hlen⟩ := traceGo_spec m pH fI fI pH L.hes L.len htr
    exact ⟨pH, hmem, hne, hlast, hc, hlen⟩

/-- Witness for C7 on the labeled single triangle: the tracer succeeds,
yielding one loop of half-edges [1, 2, 0] with total length 0, and the
theorem applies to it. -/
theorem C7_boundary_trace_spec_witness :
    cboundary (meshTriL.getD emptyMesh) 10 10 = some [⟨[1, 2, 0], 0⟩] ∧
    (∃ seeds pre,
      seedCollect (meshTriL.getD emptyMesh) [] (meshTriL.getD emptyMesh).edgesL
        = some seeds ∧
      (∀ x, x ∈ seeds ↔ ∃ e ∈ (meshTriL.getD emptyMesh).edgesL, ∃ er,
          getE (meshTriL.getD emptyMesh) e = some er ∧
          (er.he0.isNone || er.he1.isNone) = true ∧ x = er.he0) ∧
      seeds.Nodup ∧
      none ∉ seeds ∧
      boundaryTraceAll (meshTriL.getD emptyMesh) 10 10 seeds = some pre ∧
      (∀ L ∈ pre, ∃ pH, some pH ∈ seeds ∧
          L.hes ≠ [] ∧ L.hes.getLast? = some pH ∧
          List.Chain'
            (fun a b => traceStep (meshTriL.getD emptyMesh) 10 a = some b)
            (pH :: L.hes) ∧
          loopLen (meshTriL.getD emptyMesh) L.hes = some L.len) ∧
      List.Perm [(⟨[1, 2, 0], 0⟩ : LoopRec)] pre ∧
      List.Sorted (fun a b : LoopRec => b.len ≤ a.len) [⟨[1, 2, 0], 0⟩]) :=
  ⟨by decide,
    C7_boundary_trace_spec (meshTriL.getD emptyMesh) 10 10 [⟨[1, 2, 0], 0⟩]
      (by decide)⟩

-- Projection lemmas for the splitFace stages.

-- Field projections of the record updaters and allocators.

@[simp] theorem updH_vA (m : CBaseMesh) (i : Nat) (f : CHalfEdge → CHalfEdge) :
    (updH m i f).vA = m.vA := rfl

@[simp] theorem updH_eA (m : CBaseMesh) (i : Nat) (f : CHalfEdge → CHalfEdge) :
    (updH m i f).eA = m.eA := rfl

@[simp] theorem updH_fA (m : CBaseMesh) (i : Nat) (f : CHalfEdge → CHalfEdge) :
    (updH m i f).fA = m.fA := rfl

@[simp] theorem updH_hA (m : CBaseMesh) (i : Nat) (f : CHalfEdge → CHalfEdge) :
    (updH m i f).hA = arenaMod f i m.hA := rfl

@[simp] theorem updH_edgesL (m : CBaseMesh) (i : Nat) (f : CHalfEdge → CHalfEdge) :
    (updH m i f).edgesL = m.edgesL := rfl

@[simp] theorem updH_facesL (m : CBaseMesh) (i : Nat) (f : CHalfEdge → CHalfEdge) :
    (updH m i f).facesL = m.facesL := rfl

@[simp] theorem updH_vertsL (m : CBaseMesh) (i : Nat) (f : CHalfEdge → CHalfEdge) :
    (updH m i f).vertsL = m.vertsL := rfl

@[simp] theorem updH_halfedgesL (m : CBaseMesh) (i : Nat) (f : CHalfEdge → CHalfEdge) :
    (updH m i f).halfedgesL = m.halfedgesL := rfl

@[simp] theorem updE_vA (m : CBaseMesh) (i : Nat) (f : CEdge → CEdge) :
    (updE m i f).vA = m.vA := rfl

@[simp] theorem updE_eA (m : CBaseMesh) (i : Nat) (f : CEdge → CEdge) :
    (updE m i f).eA = arenaMod f i m.eA := rfl

@[simp] theorem updE_fA (m : CBaseMesh) (i : Nat) (f : CEdge → CEdge) :
    (updE m i f).fA = m.fA := rfl

@[simp] theorem updE_hA (m : CBaseMesh) (i : Nat) (f : CEdge → CEdge) :
    (updE m i f).hA = m.hA := rfl

@[simp] theorem updE_edgesL (m : CBaseMesh) (i : Nat) (f : CEdge → CEdge) :
    (updE m i f).edgesL = m.edgesL := rfl

@[simp] theorem updE_facesL (m : CBaseMesh) (i : Nat) (f : CEdge → CEdge) :
    (updE m i f).facesL = m.facesL := rfl

@[simp] theorem updE_vertsL (m : CBaseMesh) (i : Nat) (f : CEdge → CEdge) :
    (updE m i f).vertsL = m.vertsL := rfl

@[simp] theorem updE_halfedgesL (m : CBaseMesh) (i : Nat) (f : CEdge → CEdge) :
    (updE m i f).halfedgesL = m.halfedgesL := rfl

@[simp] theorem updV_vA (m : CBaseMesh) (i : Nat) (f : CVertex → CVertex) :
    (updV m i f).vA = arenaMod f i m.vA := rfl

@[simp] theorem updV_eA (m : CBaseMesh) (i : Nat) (f : CVertex → CVertex) :
    (updV m i f).eA = m.eA := rfl

@[simp] theorem updV_fA (m : CBaseMesh) (i : Nat) (f : CVertex → CVertex) :
    (updV m i f).fA = m.fA := rfl

@[simp] theorem updV_hA (m : CBaseMesh) (i : Nat) (f : CVertex → CVertex) :
    (updV m i f).hA = m.hA := rfl

@[simp] theorem updV_edgesL (m : CBaseMesh) (i : Nat) (f : CVertex → CVertex) :
    (updV m i f).edgesL = m.edgesL := rfl

@[simp] theorem updV_facesL (m : CBaseMesh) (i : Nat) (f : CVertex → CVertex) :
    (updV m i f).facesL = m.facesL := rfl

@[simp] theorem updV_vertsL (m : CBaseMesh) (i : Nat) (f : CVertex → CVertex) :
    (updV m i f).vertsL = m.vertsL := rfl

@[simp] theorem updV_halfedgesL (m : CBaseMesh) (i : Nat) (f : CVertex → CVertex) :
    (updV m i f).halfedgesL = m.halfedgesL := rfl

@[simp] theorem updF_vA (m : CBaseMesh) (i : Nat) (f : CFace → CFace) :
    (updF m i f).vA = m.vA := rfl

@[simp] theorem updF_eA (m : CBaseMesh) (i : Nat) (f : CFace → CFace) :
    (updF m i f).eA = m.eA := rfl

@[simp] theorem updF_fA (m : CBaseMesh) (i : Nat) (f : CFace → CFace) :
    (updF m i f).fA = arenaMod f i m.fA := rfl

@[simp] theorem updF_hA (m : CBaseMesh) (i : Nat) (f : CFace → CFace) :
    (updF m i f).hA = m.hA := rfl

@[simp] theorem updF_edgesL (m : CBaseMesh) (i : Nat) (f : CFace → CFace) :
    (updF m i f).edgesL = m.edgesL := rfl

@[simp] theorem updF_facesL (m : CBaseMesh) (i : Nat) (f : CFace → CFace) :
    (updF m i f).facesL = m.facesL := rfl

@[simp] theorem updF_vertsL (m : CBaseMesh) (i : Nat) (f : CFace → CFace) :
    (updF m i f).vertsL = m.vertsL := rfl

@[simp] theorem updF_halfedgesL (m : CBaseMesh) (i : Nat) (f : CFace → CFace) :
    (updF m i f).halfedgesL = m.halfedgesL := rfl

@[simp] theorem pushH_vA (m : CBaseMesh) (r : CHalfEdge) :
    (pushH m r).1.vA = m.vA := rfl

@[simp] theorem pushH_eA (m : CBaseMesh) (r : CHalfEdge) :
    (pushH m r).1.eA = m.eA := rfl

@[simp] theorem pushH_fA (m : CBaseMesh) (r : CHalfEdge) :
    (pushH m r).1.fA = m.fA := rfl

@[simp] theorem pushH_hA (m : CBaseMesh) (r : CHalfEdge) :
    (pushH m r).1.hA = m.hA ++ [some r] := rfl

@[simp] theorem pushH_edgesL (m : CBaseMesh) (r : CHalfEdge) :
    (pushH m r).1.edgesL = m.edgesL := rfl

@[simp] theorem pushH_facesL (m : CBaseMesh) (r : CHalfEdge) :
    (pushH m r).1.facesL = m.facesL := rfl

@[simp] theorem pushH_vertsL (m : CBaseMesh) (r : CHalfEdge) :
    (pushH m r).1.vertsL = m.vertsL := rfl

@[simp] theorem pushH_halfedgesL (m : CBaseMesh) (r : CHalfEdge) :
    (pushH m r).1.halfedgesL = m.halfedgesL := rfl

@[simp] theorem pushH_idx (m : CBaseMesh) (r : CHalfEdge) :
    (pushH m r).2 = m.hA.length := rfl

@[simp] theorem pushV_vA (m : CBaseMesh) (r : CVertex) :
    (pushV m r).1.vA = m.vA ++ [some r] := rfl

@[simp] theorem pushV_eA (m : CBaseMesh) (r : CVertex) :
    (pushV m r).1.eA = m.eA := rfl

@[simp] theorem pushV_fA (m : CBaseMesh) (r : CVertex) :
    (pushV m r).1.fA = m.fA := rfl

@[simp] theorem pushV_hA (m : CBaseMesh) (r : CVertex) :
    (pushV m r).1.hA = m.hA := rfl

@[simp] theorem pushV_edgesL (m : CBaseMesh) (r : CVertex) :
    (pushV m r).1.edgesL = m.edgesL := rfl

@[simp] theorem pushV_facesL (m : CBaseMesh) (r : CVertex) :
    (pushV m r).1.facesL = m.facesL := rfl

@[simp] theorem pushV_vertsL (m : CBaseMesh) (r : CVertex) :
    (pushV m r).1.vertsL = m.vertsL := rfl

@[simp] theorem pushV_halfedgesL (m : CBaseMesh) (r : CVertex) :
    (pushV m r).1.halfedgesL = m.halfedgesL := rfl

@[simp] theorem pushV_idx (m : CBaseMesh) (r : CVertex) :
    (pushV m r).2 = m.vA.length := rfl

@[simp] theorem pushF_vA (m : CBaseMesh) (r : CFace) :
    (pushF m r).1.vA = m.vA := rfl

@[simp] theorem pushF_eA (m : CBaseMesh) (r : CFace) :
    (pushF m r).1.eA = m.eA := rfl

@[simp] theorem pushF_fA (m : CBaseMesh) (r : CFace) :
    (pushF m r).1.fA = m.fA ++ [some r] := rfl

@[simp] theorem pushF_hA (m : CBaseMesh) (r : CFace) :
    (pushF m r).1.hA = m.hA := rfl

@[simp] theorem pushF_edgesL (m : CBaseMesh) (r : CFace) :
    (pushF m r).1.edgesL = m.edgesL := rfl

@[simp] theorem pushF_facesL (m : CBaseMesh) (r : CFace) :
    (pushF m r).1.facesL = m.facesL := rfl

@[simp] theorem pushF_vertsL (m : CBaseMesh) (r : CFace) :
    (pushF m r).1.vertsL = m.vertsL := rfl

@[simp] theorem pushF_halfedgesL (m : CBaseMesh) (r : CFace) :
    (pushF m r).1.halfedgesL = m.halfedgesL := rfl

@[simp] theorem pushF_idx (m : CBaseMesh) (r : CFace) :
    (pushF m r).2 = m.fA.length := rfl


theorem arenaMod_length (f : α → α) :
    ∀ (i : Nat) (l : List (Option α)), (arenaMod f i l).length = l.length
  | i, [] => by cases i <;> rfl
  | 0, none :: _ => rfl
  | 0, some _ :: _ => rfl
  | n + 1, x :: t => by simp [arenaMod, arenaMod_length f n t]

@[simp] theorem create_vertex_hA (m : CBaseMesh) (id : Int) :
    (create_vertex m id).1.hA = m.hA := rfl

@[simp] theorem create_vertex_eA (m : CBaseMesh) (id : Int) :
    (create_vertex m id).1.eA = m.eA := rfl

@[simp] theorem create_vertex_fA (m : CBaseMesh) (id : Int) :
    (create_vertex m id).1.fA = m.fA := rfl

@[simp] theorem create_vertex_edgesL (m : CBaseMesh) (id : Int) :
    (create_vertex m id).1.edgesL = m.edgesL := rfl

@[simp] theorem create_vertex_facesL (m : CBaseMesh) (id : Int) :
    (create_vertex m id).1.facesL = m.facesL := rfl

@[simp] theorem create_vertex_halfedgesL (m : CBaseMesh) (id : Int) :
    (create_vertex m id).1.halfedgesL = m.halfedgesL := rfl

@[simp] theorem create_vertex_vertsL (m : CBaseMesh) (id : Int) :
    (create_vertex m id).1.vertsL = m.vertsL ++ [m.vA.length] := rfl

@[simp] theorem create_vertex_idx (m : CBaseMesh) (id : Int) :
    (create_vertex m id).2 = m.vA.length := rfl

@[simp] theorem newTriFace_eA (m : CBaseMesh) :
    (newTriFace m).1.eA = m.eA := rfl

@[simp] theorem newTriFace_vA (m : CBaseMesh) :
    (newTriFace m).1.vA = m.vA := rfl

@[simp] theorem newTriFace_vertsL (m : CBaseMesh) :
    (newTriFace m).1.vertsL = m.vertsL := rfl

@[simp] theorem newTriFace_edgesL (m : CBaseMesh) :
    (newTriFace m).1.edgesL = m.edgesL := rfl

@[simp] theorem newTriFace_halfedgesL (m : CBaseMesh) :
    (newTriFace m).1.halfedgesL = m.halfedgesL := rfl

@[simp] theorem newTriFace_facesL (m : CBaseMesh) :
    (newTriFace m).1.facesL = m.facesL ++ [m.fA.length] := rfl

@[simp] theorem newTriFace_fA_length (m : CBaseMesh) :
    (newTriFace m).1.fA.length = m.fA.length + 1 := by
  simp [newTriFace, pushF, updF, pushH, arenaMod_length]

@[simp] theorem newTriFace_hA_length (m : CBaseMesh) :
    (newTriFace m).1.hA.length = m.hA.length + 3 := by
  simp [newTriFace, pushH, updH, updF, pushF, arenaMod_length]

@[simp] theorem newTriFace_idx_f (m : CBaseMesh) :
    (newTriFace m).2.1 = m.fA.length := rfl

@[simp] theorem newTriFace_idx_h0 (m : CBaseMesh) :
    (newTriFace m).2.2.1 = m.hA.length := rfl

@[simp] theorem newTriFace_idx_h1 (m : CBaseMesh) :
    (newTriFace m).2.2.2.1 = m.hA.length + 1 := by
  simp [newTriFace, pushH, pushF]

@[simp] theorem newTriFace_idx_h2 (m : CBaseMesh) :
    (newTriFace m).2.2.2.2 = m.hA.length + 2 := by
  simp [newTriFace, pushH, pushF]

@[simp] theorem pushE_hA (m : CBaseMesh) (r : CEdge) :
    (pushE m r).1.hA = m.hA := rfl

@[simp] theorem pushE_vA (m : CBaseMesh) (r : CEdge) :
    (pushE m r).1.vA = m.vA := rfl

@[simp] theorem pushE_fA (m : CBaseMesh) (r : CEdge) :
    (pushE m r).1.fA = m.fA := rfl

@[simp] theorem pushE_edgesL (m : CBaseMesh) (r : CEdge) :
    (pushE m r).1.edgesL = m.edgesL := rfl

@[simp] theorem pushE_facesL (m : CBaseMesh) (r : CEdge) :
    (pushE m r).1.facesL = m.facesL := rfl

@[simp] theorem pushE_vertsL (m : CBaseMesh) (r : CEdge) :
    (pushE m r).1.vertsL = m.vertsL := rfl

@[simp] theorem pushE_eA_length (m : CBaseMesh) (r : CEdge) :
    (pushE m r).1.eA.length = m.eA.length + 1 := by
  simp [pushE]

@[simp] theorem pushE_idx (m : CBaseMesh) (r : CEdge) :
    (pushE m r).2 = m.eA.length := rfl

@[simp] theorem attachHE_vA (m : CBaseMesh) (a b e : Nat) :
    (attachHE m a b e).vA = m.vA := rfl

@[simp] theorem attachHE_vertsL (m : CBaseMesh) (a b e : Nat) :
    (attachHE m a b e).vertsL = m.vertsL := rfl

@[simp] theorem attachHE_edgesL (m : CBaseMesh) (a b e : Nat) :
    (attachHE m a b e).edgesL = m.edgesL := rfl

@[simp] theorem attachHE_facesL (m : CBaseMesh) (a b e : Nat) :
    (attachHE m a b e).facesL = m.facesL := rfl

@[simp] theorem attachHE_fA (m : CBaseMesh) (a b e : Nat) :
    (attachHE m a b e).fA = m.fA := rfl

@[simp] theorem setTargets_vA (m : CBaseMesh) :
    ∀ ps, (setTargets m ps).vA = m.vA
  | [] => rfl
  | _ :: rest => by
    rw [setTargets]
    exact setTargets_vA _ rest

@[simp] theorem setTargets_eA (m : CBaseMesh) :
    ∀ ps, (setTargets m ps).eA = m.eA
  | [] => rfl
  | _ :: rest => by
    rw [setTargets]
    exact setTargets_eA _ rest

@[simp] theorem setTargets_edgesL (m : CBaseMesh) :
    ∀ ps, (setTargets m ps).edgesL = m.edgesL
  | [] => rfl
  | _ :: rest => by
    rw [setTargets]
    exact setTargets_edgesL _ rest

@[simp] theorem setTargets_vertsL (m : CBaseMesh) :
    ∀ ps, (setTargets m ps).vertsL = m.vertsL
  | [] => rfl
  | _ :: rest => by
    rw [setTargets]
    exact setTargets_vertsL _ rest

@[simp] theorem setTargets_facesL (m : CBaseMesh) :
    ∀ ps, (setTargets m ps).facesL = m.facesL
  | [] => rfl
  | _ :: rest => by
    rw [setTargets]
    exact setTargets_facesL _ rest

@[simp] theorem setTargets_getE (m : CBaseMesh) :
    ∀ ps (j : Nat), getE (setTargets m ps) j = getE m j
  | [] , _ => rfl
  | _ :: rest, j => by
    rw [setTargets]
    exact setTargets_getE _ rest j

theorem sfBuild_edgesL (m0 : CBaseMesh) :
    (sfBuild m0).edgesL =
      m0.edgesL ++ [m0.eA.length, m0.eA.length + 1, m0.eA.length + 2] := by
  simp [sfBuild]

theorem sfBuild_vertsL (m0 : CBaseMesh) :
    (sfBuild m0).vertsL = m0.vertsL ++ [m0.vA.length] := by
  simp [sfBuild]

theorem sfBuild_facesL (m0 : CBaseMesh) :
    (sfBuild m0).facesL = m0.facesL ++ [m0.fA.length] ++ [m0.fA.length + 1] := by
  simp [sfBuild]

@[simp] theorem pushE_eA (m : CBaseMesh) (r : CEdge) :
    (pushE m r).1.eA = m.eA ++ [some r] := rfl

@[simp] theorem pushE_halfedgesL (m : CBaseMesh) (r : CEdge) :
    (pushE m r).1.halfedgesL = m.halfedgesL := rfl

theorem arenaGet_append_left (l l' : List (Option α)) (j : Nat)
    (h : j < l.length) : arenaGet (l ++ l') j = arenaGet l j := by
  simp [arenaGet, List.getElem?_append_left h]

theorem arenaGet_append_right (l l' : List (Option α)) (k : Nat) :
    arenaGet (l ++ l') (l.length + k) = arenaGet l' k := by
  have h : l.length ≤ l.length + k := by omega
  simp [arenaGet, List.getElem?_append_right h]

@[simp] theorem getH_pushE (m : CBaseMesh) (r : CEdge) (j : Nat) :
    getH (pushE m r).1 j = getH m j := rfl

@[simp] theorem getH_create_vertex (m : CBaseMesh) (id : Int) (j : Nat) :
    getH (create_vertex m id).1 j = getH m j := rfl

@[simp] theorem getE_create_vertex (m : CBaseMesh) (id : Int) (j : Nat) :
    getE (create_vertex m id).1 j = getE m j := rfl

@[simp] theorem getE_newTriFace (m : CBaseMesh) (j : Nat) :
    getE (newTriFace m).1 j = getE m j := rfl

theorem getH_pushH_old (m : CBaseMesh) (r : CHalfEdge) (x : Nat)
    (hx : x < m.hA.length) : getH (pushH m r).1 x = getH m x :=
  arenaGet_append_old m.hA (some r) x hx

theorem getH_pushH_new (m : CBaseMesh) (r : CHalfEdge) :
    getH (pushH m r).1 m.hA.length = some r :=
  arenaGet_append_new m.hA (some r)

theorem newTriFace_getH_old (m : CBaseMesh) (x : Nat)
    (hx : x < m.hA.length) : getH (newTriFace m).1 x = getH m x := by
  simp only [newTriFace, getH, updF_hA, updH_hA, pushH_hA, pushH_idx,
    pushF_hA, pushF_idx, List.length_append, List.length_cons,
    List.length_nil]
  rw [arenaMod_get]
  rw [if_neg (by omega)]
  rw [arenaMod_get]
  rw [if_neg (by omega)]
  rw [arenaMod_get]
  rw [if_neg (by omega)]
  rw [List.append_assoc, List.append_assoc]
  exact arenaGet_append_left m.hA _ x hx

theorem newTriFace_getH_0 (m : CBaseMesh) :
    getH (newTriFace m).1 m.hA.length =
      some ⟨none, none, some m.fA.length,
            some (m.hA.length + 1), some (m.hA.length + 2)⟩ := by
  simp only [newTriFace, getH, updF_hA, updH_hA, pushH_hA, pushH_idx,
    pushF_hA, pushF_idx, List.length_append, List.length_cons,
    List.length_nil]
  rw [arenaMod_get]
  rw [if_neg (by omega)]
  rw [arenaMod_get]
  rw [if_neg (by omega)]
  rw [arenaMod_get]
  rw [if_pos rfl]
  rw [List.append_assoc, List.append_assoc]
  rw [show m.hA.length = m.hA.length + 0 from rfl, arenaGet_append_right]
  rfl

theorem newTriFace_getH_1 (m : CBaseMesh) :
    getH (newTriFace m).1 (m.hA.length + 1) =
      some ⟨none, none, some m.fA.length,
            some (m.hA.length + 2), some m.hA.length⟩ := by
  simp only [newTriFace, getH, updF_hA, updH_hA, pushH_hA, pushH_idx,
    pushF_hA, pushF_idx, List.length_append, List.length_cons,
    List.length_nil]
  rw [arenaMod_get]
  rw [if_neg (by omega)]
  rw [arenaMod_get]
  rw [if_pos rfl]
  rw [arenaMod_get]
  rw [if_neg (by omega)]
  rw [List.append_assoc, List.append_assoc]
  rw [arenaGet_append_right]
  rfl

theorem newTriFace_getH_2 (m : CBaseMesh) :
    getH (newTriFace m).1 (m.hA.length + 2) =
      some ⟨none, none, some m.fA.length,
            some m.hA.length, some (m.hA.length + 1)⟩ := by
  simp only [newTriFace, getH, updF_hA, updH_hA, pushH_hA, pushH_idx,
    pushF_hA, pushF_idx, List.length_append, List.length_cons,
    List.length_nil]
  rw [arenaMod_get]
  rw [if_pos rfl]
  rw [arenaMod_get]
  rw [if_neg (by omega)]
  rw [arenaMod_get]
  rw [if_neg (by omega)]
  rw [List.append_assoc, List.append_assoc]
  rw [arenaGet_append_right]
  rfl

theorem getH_sfBuild_eq (m0 : CBaseMesh) (x : Nat) :
    getH (sfBuild m0) x =
      getH (newTriFace (newTriFace (create_vertex
        { m0 with dynVertexId := m0.dynVertexId + 1 }
        (m0.dynVertexId + 1)).1).1).1 x := rfl

theorem sfBuild_getH_old (m0 : CBaseMesh) (x : Nat)
    (hx : x < m0.hA.length) : getH (sfBuild m0) x = getH m0 x := by
  rw [getH_sfBuild_eq]
  rw [newTriFace_getH_old]
  · rw [newTriFace_getH_old]
    · rfl
    · simp
      omega
  · simp
    omega

theorem sfBuild_getH_a0 (m0 : CBaseMesh) :
    getH (sfBuild m0) m0.hA.length =
      some ⟨none, none, some m0.fA.length,
            some (m0.hA.length + 1), some (m0.hA.length + 2)⟩ := by
  rw [getH_sfBuild_eq]
  rw [newTriFace_getH_old]
  · have e2 := newTriFace_getH_0 (create_vertex
      { m0 with dynVertexId := m0.dynVertexId + 1 } (m0.dynVertexId + 1)).1
    simp only [create_vertex_hA, create_vertex_fA] at e2
    exact e2
  · simp

theorem sfBuild_getH_a1 (m0 : CBaseMesh) :
    getH (sfBuild m0) (m0.hA.length + 1) =
      some ⟨none, none, some m0.fA.length,
            some (m0.hA.length + 2), some m0.hA.length⟩ := by
  rw [getH_sfBuild_eq]
  rw [newTriFace_getH_old]
  · have e2 := newTriFace_getH_1 (create_vertex
      { m0 with dynVertexId := m0.dynVertexId + 1 } (m0.dynVertexId + 1)).1
    simp only [create_vertex_hA, create_vertex_fA] at e2
    exact e2
  · simp

theorem sfBuild_getH_a2 (m0 : CBaseMesh) :
    getH (sfBuild m0) (m0.hA.length + 2) =
      some ⟨none, none, some m0.fA.length,
            some m0.hA.length, some (m0.hA.length + 1)⟩ := by
  rw [getH_sfBuild_eq]
  rw [newTriFace_getH_old]
  · have e2 := newTriFace_getH_2 (create_vertex
      { m0 with dynVertexId := m0.dynVertexId + 1 } (m0.dynVertexId + 1)).1
    simp only [create_vertex_hA, create_vertex_fA] at e2
    exact e2
  · simp

theorem sfBuild_getH_b0 (m0 : CBaseMesh) :
    getH (sfBuild m0) (m0.hA.length + 3) =
      some ⟨none, none, some (m0.fA.length + 1),
            some (m0.hA.length + 4), some (m0.hA.length + 5)⟩ := by
  rw [getH_sfBuild_eq]
  have e2 := newTriFace_getH_0 (newTriFace (create_vertex
    { m0 with dynVertexId := m0.dynVertexId + 1 } (m0.dynVertexId + 1)).1).1
  simp only [newTriFace_hA_length, newTriFace_fA_length, create_vertex_hA,
    create_vertex_fA] at e2
  exact e2

theorem sfBuild_getH_b1 (m0 : CBaseMesh) :
    getH (sfBuild m0) (m0.hA.length + 4) =
      some ⟨none, none, some (m0.fA.length + 1),
            some (m0.hA.length + 5), some (m0.hA.length + 3)⟩ := by
  rw [getH_sfBuild_eq]
  have e2 := newTriFace_getH_1 (newTriFace (create_vertex
    { m0 with dynVertexId := m0.dynVertexId + 1 } (m0.dynVertexId + 1)).1).1
  simp only [newTriFace_hA_length, newTriFace_fA_length, create_vertex_hA,
    create_vertex_fA] at e2
  exact e2

theorem sfBuild_getH_b2 (m0 : CBaseMesh) :
    getH (sfBuild m0) (m0.hA.length + 5) =
      some ⟨none, none, some (m0.fA.length + 1),
            some (m0.hA.length + 3), some (m0.hA.length + 4)⟩ := by
  rw [getH_sfBuild_eq]
  have e2 := newTriFace_getH_2 (newTriFace (create_vertex
    { m0 with dynVertexId := m0.dynVertexId + 1 } (m0.dynVertexId + 1)).1).1
  simp only [newTriFace_hA_length, newTriFace_fA_length, create_vertex_hA,
    create_vertex_fA] at e2
  exact e2

theorem sfBuild_eA (m0 : CBaseMesh) :
    (sfBuild m0).eA = m0.eA ++
      [some ⟨none, none, 0⟩, some ⟨none, none, 0⟩, some ⟨none, none, 0⟩] := by
  simp [sfBuild]

theorem sfBuild_getE_old (m0 : CBaseMesh) (e : Nat)
    (he : e < m0.eA.length) : getE (sfBuild m0) e = getE m0 e := by
  show arenaGet (sfBuild m0).eA e = arenaGet m0.eA e
  rw [sfBuild_eA]
  exact arenaGet_append_left _ _ _ he

theorem sfBuild_getE_new0 (m0 : CBaseMesh) :
    getE (sfBuild m0) m0.eA.length = some ⟨none, none, 0⟩ := by
  show arenaGet (sfBuild m0).eA m0.eA.length = _
  rw [sfBuild_eA]
  exact (arenaGet_append_right m0.eA _ 0).trans rfl

theorem sfBuild_getE_new1 (m0 : CBaseMesh) :
    getE (sfBuild m0) (m0.eA.length + 1) = some ⟨none, none, 0⟩ := by
  show arenaGet (sfBuild m0).eA (m0.eA.length + 1) = _
  rw [sfBuild_eA]
  exact (arenaGet_append_right m0.eA _ 1).trans rfl

theorem sfBuild_getE_new2 (m0 : CBaseMesh) :
    getE (sfBuild m0) (m0.eA.length + 2) = some ⟨none, none, 0⟩ := by
  show arenaGet (sfBuild m0).eA (m0.eA.length + 2) = _
  rw [sfBuild_eA]
  exact (arenaGet_append_right m0.eA _ 2).trans rfl

theorem attachHE_getH_ne (m : CBaseMesh) (a b e j : Nat)
    (h1 : j ≠ a) (h2 : j ≠ b) : getH (attachHE m a b e) j = getH m j := by
  simp [attachHE, getH_updH, h1, h2]

theorem attachHE_getE_ne (m : CBaseMesh) (a b e j : Nat) (h : j ≠ e) :
    getE (attachHE m a b e) j = getE m j := by
  simp [attachHE, getE_updE, h]

theorem attachHE_getE_self (m : CBaseMesh) (a b e : Nat) :
    getE (attachHE m a b e) e =
      (getE m e).map (fun er => { er with he0 := some a, he1 := some b }) := by
  simp [attachHE, getE_updE]

theorem sfMid_getH_h0 (m0 : CBaseMesh) (L : SFLocal) (s0 s1 s2 : Nat)
    (hOK : sfOK m0 L s0 s1 s2) :
    getH (sfMid m0 L s0 s1 s2) L.h0 =
      (getH m0 L.h0).map (fun r => { r with edge := some L.eg0 }) := by
  obtain ⟨hb0, hb1, hb2, hc0, hc1, hc2, hd0, hd1, hd2,
    ⟨hh01, hh02, hh12⟩, ⟨hs01, hs02, hs12⟩,
    ⟨s0h0, s0h1, s0h2⟩, ⟨s1h0, s1h1, s1h2⟩, ⟨s2h0, s2h1, s2h2⟩,
    ⟨e01, e02, e12⟩, ⟨v01, v02, v12⟩, vb0, vb1, vb2⟩ := hOK
  have p1 : L.h0 ≠ L.h1 := hh01
  have p2 : L.h0 ≠ L.h2 := hh02
  have p3 : L.h0 ≠ s0 := Ne.symm s0h0
  have p4 : L.h0 ≠ s1 := Ne.symm s1h0
  have p5 : L.h0 ≠ s2 := Ne.symm s2h0
  have n0 : L.h0 ≠ m0.hA.length := by omega
  have n1 : L.h0 ≠ m0.hA.length + 1 := by omega
  have n2 : L.h0 ≠ m0.hA.length + 2 := by omega
  have n3 : L.h0 ≠ m0.hA.length + 3 := by omega
  have n4 : L.h0 ≠ m0.hA.length + 4 := by omega
  have n5 : L.h0 ≠ m0.hA.length + 5 := by omega
  simp only [sfMid, sfTargets, setTargets, sfAttach6, attachHE, getH_updV,
    getH_updE, getH_updH, p1, p2, p3, p4, p5, n0, n1, n2, n3, n4, n5, eq_self_iff_true, if_true, if_false,
    ite_true, ite_false]
  rw [sfBuild_getH_old _ _ hb0]
  try cases getH m0 L.h0 <;> rfl

theorem sfMid_getH_h1 (m0 : CBaseMesh) (L : SFLocal) (s0 s1 s2 : Nat)
    (hOK : sfOK m0 L s0 s1 s2) :
    getH (sfMid m0 L s0 s1 s2) L.h1 =
      (getH m0 L.h1).map
      (fun r => { r with vertex := some m0.vA.length, edge := some m0.eA.length }) := by
  obtain ⟨hb0, hb1, hb2, hc0, hc1, hc2, hd0, hd1, hd2,
    ⟨hh01, hh02, hh12⟩, ⟨hs01, hs02, hs12⟩,
    ⟨s0h0, s0h1, s0h2⟩, ⟨s1h0, s1h1, s1h2⟩, ⟨s2h0, s2h1, s2h2⟩,
    ⟨e01, e02, e12⟩, ⟨v01, v02, v12⟩, vb0, vb1, vb2⟩ := hOK
  have p1 : L.h1 ≠ L.h0 := Ne.symm hh01
  have p2 : L.h1 ≠ L.h2 := hh12
  have p3 : L.h1 ≠ s0 := Ne.symm s0h1
  have p4 : L.h1 ≠ s1 := Ne.symm s1h1
  have p5 : L.h1 ≠ s2 := Ne.symm s2h1
  have n0 : L.h1 ≠ m0.hA.length := by omega
  have n1 : L.h1 ≠ m0.hA.length + 1 := by omega
  have n2 : L.h1 ≠ m0.hA.length + 2 := by omega
  have n3 : L.h1 ≠ m0.hA.length + 3 := by omega
  have n4 : L.h1 ≠ m0.hA.length + 4 := by omega
  have n5 : L.h1 ≠ m0.hA.length + 5 := by omega
  simp only [sfMid, sfTargets, setTargets, sfAttach6, attachHE, getH_updV,
    getH_updE, getH_updH, p1, p2, p3, p4, p5, n0, n1, n2, n3, n4, n5, eq_self_iff_true, if_true, if_false,
    ite_true, ite_false]
  rw [sfBuild_getH_old _ _ hb1]
  try cases getH m0 L.h1 <;> rfl

theorem sfMid_getH_h2 (m0 : CBaseMesh) (L : SFLocal) (s0 s1 s2 : Nat)
    (hOK : sfOK m0 L s0 s1 s2) :
    getH (sfMid m0 L s0 s1 s2) L.h2 =
      (getH m0 L.h2).map
      (fun r => { r with vertex := some L.v2, edge := some (m0.eA.length + 2) }) := by
  obtain ⟨hb0, hb1, hb2, hc0, hc1, hc2, hd0, hd1, hd2,
    ⟨hh01, hh02, hh12⟩, ⟨hs01, hs02, hs12⟩,
    ⟨s0h0, s0h1, s0h2⟩, ⟨s1h0, s1h1, s1h2⟩, ⟨s2h0, s2h1, s2h2⟩,
    ⟨e01, e02, e12⟩, ⟨v01, v02, v12⟩, vb0, vb1, vb2⟩ := hOK
  have p1 : L.h2 ≠ L.h0 := Ne.symm hh02
  have p2 : L.h2 ≠ L.h1 := Ne.symm hh12
  have p3 : L.h2 ≠ s0 := Ne.symm s0h2
  have p4 : L.h2 ≠ s1 := Ne.symm s1h2
  have p5 : L.h2 ≠ s2 := Ne.symm s2h2
  have n0 : L.h2 ≠ m0.hA.length := by omega
  have n1 : L.h2 ≠ m0.hA.length + 1 := by omega
  have n2 : L.h2 ≠ m0.hA.length + 2 := by omega
  have n3 : L.h2 ≠ m0.hA.length + 3 := by omega
  have n4 : L.h2 ≠ m0.hA.length + 4 := by omega
  have n5 : L.h2 ≠ m0.hA.length + 5 := by omega
  simp only [sfMid, sfTargets, setTargets, sfAttach6, attachHE, getH_updV,
    getH_updE, getH_updH, p1, p2, p3, p4, p5, n0, n1, n2, n3, n4, n5, eq_self_iff_true, if_true, if_false,
    ite_true, ite_false]
  rw [sfBuild_getH_old _ _ hb2]
  try cases getH m0 L.h2 <;> rfl

theorem sfMid_getH_s0 (m0 : CBaseMesh) (L : SFLocal) (s0 s1 s2 : Nat)
    (hOK : sfOK m0 L s0 s1 s2) :
    getH (sfMid m0 L s0 s1 s2) s0 =
      (getH m0 s0).map (fun r => { r with edge := some L.eg0 }) := by
  obtain ⟨hb0, hb1, hb2, hc0, hc1, hc2, hd0, hd1, hd2,
    ⟨hh01, hh02, hh12⟩, ⟨hs01, hs02, hs12⟩,
    ⟨s0h0, s0h1, s0h2⟩, ⟨s1h0, s1h1, s1h2⟩, ⟨s2h0, s2h1, s2h2⟩,
    ⟨e01, e02, e12⟩, ⟨v01, v02, v12⟩, vb0, vb1, vb2⟩ := hOK
  have p1 : s0 ≠ L.h0 := s0h0
  have p2 : s0 ≠ L.h1 := s0h1
  have p3 : s0 ≠ L.h2 := s0h2
  have p4 : s0 ≠ s1 := hs01
  have p5 : s0 ≠ s2 := hs02
  have n0 : s0 ≠ m0.hA.length := by omega
  have n1 : s0 ≠ m0.hA.length + 1 := by omega
  have n2 : s0 ≠ m0.hA.length + 2 := by omega
  have n3 : s0 ≠ m0.hA.length + 3 := by omega
  have n4 : s0 ≠ m0.hA.length + 4 := by omega
  have n5 : s0 ≠ m0.hA.length + 5 := by omega
  simp only [sfMid, sfTargets, setTargets, sfAttach6, attachHE, getH_updV,
    getH_updE, getH_updH, p1, p2, p3, p4, p5, n0, n1, n2, n3, n4, n5, eq_self_iff_true, if_true, if_false,
    ite_true, ite_false]
  rw [sfBuild_getH_old _ _ hc0]
  try cases getH m0 s0 <;> rfl

theorem sfMid_getH_s1 (m0 : CBaseMesh) (L : SFLocal) (s0 s1 s2 : Nat)
    (hOK : sfOK m0 L s0 s1 s2) :
    getH (sfMid m0 L s0 s1 s2) s1 =
      (getH m0 s1).map (fun r => { r with edge := some L.eg1 }) := by
  obtain ⟨hb0, hb1, hb2, hc0, hc1, hc2, hd0, hd1, hd2,
    ⟨hh01, hh02, hh12⟩, ⟨hs01, hs02, hs12⟩,
    ⟨s0h0, s0h1, s0h2⟩, ⟨s1h0, s1h1, s1h2⟩, ⟨s2h0, s2h1, s2h2⟩,
    ⟨e01, e02, e12⟩, ⟨v01, v02, v12⟩, vb0, vb1, vb2⟩ := hOK
  have p1 : s1 ≠ L.h0 := s1h0
  have p2 : s1 ≠ L.h1 := s1h1
  have p3 : s1 ≠ L.h2 := s1h2
  have p4 : s1 ≠ s0 := Ne.symm hs01
  have p5 : s1 ≠ s2 := hs12
  have n0 : s1 ≠ m0.hA.length := by omega
  have n1 : s1 ≠ m0.hA.length + 1 := by omega
  have n2 : s1 ≠ m0.hA.length + 2 := by omega
  have n3 : s1 ≠ m0.hA.length + 3 := by omega
  have n4 : s1 ≠ m0.hA.length + 4 := by omega
  have n5 : s1 ≠ m0.hA.length + 5 := by omega
  simp only [sfMid, sfTargets, setTargets, sfAttach6, attachHE, getH_updV,
    getH_updE, getH_updH, p1, p2, p3, p4, p5, n0, n1, n2, n3, n4, n5, eq_self_iff_true, if_true, if_false,
    ite_true, ite_false]
  rw [sfBuild_getH_old _ _ hc1]
  try cases getH m0 s1 <;> rfl

theorem sfMid_getH_s2 (m0 : CBaseMesh) (L : SFLocal) (s0 s1 s2 : Nat)
    (hOK : sfOK m0 L s0 s1 s2) :
    getH (sfMid m0 L s0 s1 s2) s2 =
      (getH m0 s2).map (fun r => { r with edge := some L.eg2 }) := by
  obtain ⟨hb0, hb1, hb2, hc0, hc1, hc2, hd0, hd1, hd2,
    ⟨hh01, hh02, hh12⟩, ⟨hs01, hs02, hs12⟩,
    ⟨s0h0, s0h1, s0h2⟩, ⟨s1h0, s1h1, s1h2⟩, ⟨s2h0, s2h1, s2h2⟩,
    ⟨e01, e02, e12⟩, ⟨v01, v02, v12⟩, vb0, vb1, vb2⟩ := hOK
  have p1 : s2 ≠ L.h0 := s2h0
  have p2 : s2 ≠ L.h1 := s2h1
  have p3 : s2 ≠ L.h2 := s2h2
  have p4 : s2 ≠ s0 := Ne.symm hs02
  have p5 : s2 ≠ s1 := Ne.symm hs12
  have n0 : s2 ≠ m0.hA.length := by omega
  have n1 : s2 ≠ m0.hA.length + 1 := by omega
  have n2 : s2 ≠ m0.hA.length + 2 := by omega
  have n3 : s2 ≠ m0.hA.length + 3 := by omega
  have n4 : s2 ≠ m0.hA.length + 4 := by omega
  have n5 : s2 ≠ m0.hA.length + 5 := by omega
  simp only [sfMid, sfTargets, setTargets, sfAttach6, attachHE, getH_updV,
    getH_updE, getH_updH, p1, p2, p3, p4, p5, n0, n1, n2, n3, n4, n5, eq_self_iff_true, if_true, if_false,
    ite_true, ite_false]
  rw [sfBuild_getH_old _ _ hc2]
  try cases getH m0 s2 <;> rfl

theorem sfMid_getH_a0 (m0 : CBaseMesh) (L : SFLocal) (s0 s1 s2 : Nat)
    (hOK : sfOK m0 L s0 s1 s2) :
    getH (sfMid m0 L s0 s1 s2) m0.hA.length =
      some ⟨some L.v0, some m0.eA.length, some m0.fA.length,
            some (m0.hA.length + 1), some (m0.hA.length + 2)⟩ := by
  obtain ⟨hb0, hb1, hb2, hc0, hc1, hc2, hd0, hd1, hd2,
    ⟨hh01, hh02, hh12⟩, ⟨hs01, hs02, hs12⟩,
    ⟨s0h0, s0h1, s0h2⟩, ⟨s1h0, s1h1, s1h2⟩, ⟨s2h0, s2h1, s2h2⟩,
    ⟨e01, e02, e12⟩, ⟨v01, v02, v12⟩, vb0, vb1, vb2⟩ := hOK
  have p0 : m0.hA.length ≠ L.h0 := by omega
  have p1 : m0.hA.length ≠ L.h1 := by omega
  have p2 : m0.hA.length ≠ L.h2 := by omega
  have p3 : m0.hA.length ≠ s0 := by omega
  have p4 : m0.hA.length ≠ s1 := by omega
  have p5 : m0.hA.length ≠ s2 := by omega
  have n0 : m0.hA.length ≠ m0.hA.length + 1 := by omega
  have n1 : m0.hA.length ≠ m0.hA.length + 2 := by omega
  have n2 : m0.hA.length ≠ m0.hA.length + 3 := by omega
  have n3 : m0.hA.length ≠ m0.hA.length + 4 := by omega
  have n4 : m0.hA.length ≠ m0.hA.length + 5 := by omega
  simp only [sfMid, sfTargets, setTargets, sfAttach6, attachHE, getH_updV,
    getH_updE, getH_updH, p0, p1, p2, p3, p4, p5, n0, n1, n2, n3, n4, eq_self_iff_true, if_true, if_false,
    ite_true, ite_false]
  rw [sfBuild_getH_a0]
  try rfl

theorem sfMid_getH_a1 (m0 : CBaseMesh) (L : SFLocal) (s0 s1 s2 : Nat)
    (hOK : sfOK m0 L s0 s1 s2) :
    getH (sfMid m0 L s0 s1 s2) (m0.hA.length + 1) =
      some ⟨some L.v1, some L.eg1, some m0.fA.length,
            some (m0.hA.length + 2), some m0.hA.length⟩ := by
  obtain ⟨hb0, hb1, hb2, hc0, hc1, hc2, hd0, hd1, hd2,
    ⟨hh01, hh02, hh12⟩, ⟨hs01, hs02, hs12⟩,
    ⟨s0h0, s0h1, s0h2⟩, ⟨s1h0, s1h1, s1h2⟩, ⟨s2h0, s2h1, s2h2⟩,
    ⟨e01, e02, e12⟩, ⟨v01, v02, v12⟩, vb0, vb1, vb2⟩ := hOK
  have p0 : m0.hA.length + 1 ≠ L.h0 := by omega
  have p1 : m0.hA.length + 1 ≠ L.h1 := by omega
  have p2 : m0.hA.length + 1 ≠ L.h2 := by omega
  have p3 : m0.hA.length + 1 ≠ s0 := by omega
  have p4 : m0.hA.length + 1 ≠ s1 := by omega
  have p5 : m0.hA.length + 1 ≠ s2 := by omega
  have n0 : m0.hA.length + 1 ≠ m0.hA.length := by omega
  have n1 : m0.hA.length + 1 ≠ m0.hA.length + 2 := by omega
  have n2 : m0.hA.length + 1 ≠ m0.hA.length + 3 := by omega
  have n3 : m0.hA.length + 1 ≠ m0.hA.length + 4 := by omega
  have n4 : m0.hA.length + 1 ≠ m0.hA.length + 5 := by omega
  simp only [sfMid, sfTargets, setTargets, sfAttach6, attachHE, getH_updV,
    getH_updE, getH_updH, p0, p1, p2, p3, p4, p5, n0, n1, n2, n3, n4, eq_self_iff_true, if_true, if_false,
    ite_true, ite_false]
  rw [sfBuild_getH_a1]
  try rfl

theorem sfMid_getH_a2 (m0 : CBaseMesh) (L : SFLocal) (s0 s1 s2 : Nat)
    (hOK : sfOK m0 L s0 s1 s2) :
    getH (sfMid m0 L s0 s1 s2) (m0.hA.length + 2) =
      some ⟨some m0.vA.length, some (m0.eA.length + 1), some m0.fA.length,
            some m0.hA.length, some (m0.hA.length + 1)⟩ := by
  obtain ⟨hb0, hb1, hb2, hc0, hc1, hc2, hd0, hd1, hd2,
    ⟨hh01, hh02, hh12⟩, ⟨hs01, hs02, hs12⟩,
    ⟨s0h0, s0h1, s0h2⟩, ⟨s1h0, s1h1, s1h2⟩, ⟨s2h0, s2h1, s2h2⟩,
    ⟨e01, e02, e12⟩, ⟨v01, v02, v12⟩, vb0, vb1, vb2⟩ := hOK
  have p0 : m0.hA.length + 2 ≠ L.h0 := by omega
  have p1 : m0.hA.length + 2 ≠ L.h1 := by omega
  have p2 : m0.hA.length + 2 ≠ L.h2 := by omega
  have p3 : m0.hA.length + 2 ≠ s0 := by omega
  have p4 : m0.hA.length + 2 ≠ s1 := by omega
  have p5 : m0.hA.length + 2 ≠ s2 := by omega
  have n0 : m0.hA.length + 2 ≠ m0.hA.length := by omega
  have n1 : m0.hA.length + 2 ≠ m0.hA.length + 1 := by omega
  have n2 : m0.hA.length + 2 ≠ m0.hA.length + 3 := by omega
  have n3 : m0.hA.length + 2 ≠ m0.hA.length + 4 := by omega
  have n4 : m0.hA.length + 2 ≠ m0.hA.length + 5 := by omega
  simp only [sfMid, sfTargets, setTargets, sfAttach6, attachHE, getH_updV,
    getH_updE, getH_updH, p0, p1, p2, p3, p4, p5, n0, n1, n2, n3, n4, eq_self_iff_true, if_true, if_false,
    ite_true, ite_false]
  rw [sfBuild_getH_a2]
  try rfl

theorem sfMid_getH_b0 (m0 : CBaseMesh) (L : SFLocal) (s0 s1 s2 : Nat)
    (hOK : sfOK m0 L s0 s1 s2) :
    getH (sfMid m0 L s0 s1 s2) (m0.hA.length + 3) =
      some ⟨some m0.vA.length, some (m0.eA.length + 2), some (m0.fA.length + 1),
            some (m0.hA.length + 4), some (m0.hA.length + 5)⟩ := by
  obtain ⟨hb0, hb1, hb2, hc0, hc1, hc2, hd0, hd1, hd2,
    ⟨hh01, hh02, hh12⟩, ⟨hs01, hs02, hs12⟩,
    ⟨s0h0, s0h1, s0h2⟩, ⟨s1h0, s1h1, s1h2⟩, ⟨s2h0, s2h1, s2h2⟩,
    ⟨e01, e02, e12⟩, ⟨v01, v02, v12⟩, vb0, vb1, vb2⟩ := hOK
  have p0 : m0.hA.length + 3 ≠ L.h0 := by omega
  have p1 : m0.hA.length + 3 ≠ L.h1 := by omega
  have p2 : m0.hA.length + 3 ≠ L.h2 := by omega
  have p3 : m0.hA.length + 3 ≠ s0 := by omega
  have p4 : m0.hA.length + 3 ≠ s1 := by omega
  have p5 : m0.hA.length + 3 ≠ s2 := by omega
  have n0 : m0.hA.length + 3 ≠ m0.hA.length := by omega
  have n1 : m0.hA.length + 3 ≠ m0.hA.length + 1 := by omega
  have n2 : m0.hA.length + 3 ≠ m0.hA.length + 2 := by omega
  have n3 : m0.hA.length + 3 ≠ m0.hA.length + 4 := by omega
  have n4 : m0.hA.length + 3 ≠ m0.hA.length + 5 := by omega
  simp only [sfMid, sfTargets, setTargets, sfAttach6, attachHE, getH_updV,
    getH_updE, getH_updH, p0, p1, p2, p3, p4, p5, n0, n1, n2, n3, n4, eq_self_iff_true, if_true, if_false,
    ite_true, ite_false]
  rw [sfBuild_getH_b0]
  try rfl

theorem sfMid_getH_b1 (m0 : CBaseMesh) (L : SFLocal) (s0 s1 s2 : Nat)
    (hOK : sfOK m0 L s0 s1 s2) :
    getH (sfMid m0 L s0 s1 s2) (m0.hA.length + 4) =
      some ⟨some L.v1, some (m0.eA.length + 1), some (m0.fA.length + 1),
            some (m0.hA.length + 5), some (m0.hA.length + 3)⟩ := by
  obtain ⟨hb0, hb1, hb2, hc0, hc1, hc2, hd0, hd1, hd2,
    ⟨hh01, hh02, hh12⟩, ⟨hs01, hs02, hs12⟩,
    ⟨s0h0, s0h1, s0h2⟩, ⟨s1h0, s1h1, s1h2⟩, ⟨s2h0, s2h1, s2h2⟩,
    ⟨e01, e02, e12⟩, ⟨v01, v02, v12⟩, vb0, vb1, vb2⟩ := hOK
  have p0 : m0.hA.length + 4 ≠ L.h0 := by omega
  have p1 : m0.hA.length + 4 ≠ L.h1 := by omega
  have p2 : m0.hA.length + 4 ≠ L.h2 := by omega
  have p3 : m0.hA.length + 4 ≠ s0 := by omega
  have p4 : m0.hA.length + 4 ≠ s1 := by omega
  have p5 : m0.hA.length + 4 ≠ s2 := by omega
  have n0 : m0.hA.length + 4 ≠ m0.hA.length := by omega
  have n1 : m0.hA.length + 4 ≠ m0.hA.length + 1 := by omega
  have n2 : m0.hA.length + 4 ≠ m0.hA.length + 2 := by omega
  have n3 : m0.hA.length + 4 ≠ m0.hA.length + 3 := by omega
  have n4 : m0.hA.length + 4 ≠ m0.hA.length + 5 := by omega
  simp only [sfMid, sfTargets, setTargets, sfAttach6, attachHE, getH_updV,
    getH_updE, getH_updH, p0, p1, p2, p3, p4, p5, n0, n1, n2, n3, n4, eq_self_iff_true, if_true, if_false,
    ite_true, ite_false]
  rw [sfBuild_getH_b1]
  try rfl

theorem sfMid_getH_b2 (m0 : CBaseMesh) (L : SFLocal) (s0 s1 s2 : Nat)
    (hOK : sfOK m0 L s0 s1 s2) :
    getH (sfMid m0 L s0 s1 s2) (m0.hA.length + 5) =
      some ⟨some L.v2, some L.eg2, some (m0.fA.length + 1),
            some (m0.hA.length + 3), some (m0.hA.length + 4)⟩ := by
  obtain ⟨hb0, hb1, hb2, hc0, hc1, hc2, hd0, hd1, hd2,
    ⟨hh01, hh02, hh12⟩, ⟨hs01, hs02, hs12⟩,
    ⟨s0h0, s0h1, s0h2⟩, ⟨s1h0, s1h1, s1h2⟩, ⟨s2h0, s2h1, s2h2⟩,
    ⟨e01, e02, e12⟩, ⟨v01, v02, v12⟩, vb0, vb1, vb2⟩ := hOK
  have p0 : m0.hA.length + 5 ≠ L.h0 := by omega
  have p1 : m0.hA.length + 5 ≠ L.h1 := by omega
  have p2 : m0.hA.length + 5 ≠ L.h2 := by omega
  have p3 : m0.hA.length + 5 ≠ s0 := by omega
  have p4 : m0.hA.length + 5 ≠ s1 := by omega
  have p5 : m0.hA.length + 5 ≠ s2 := by omega
  have n0 : m0.hA.length + 5 ≠ m0.hA.length := by omega
  have n1 : m0.hA.length + 5 ≠ m0.hA.length + 1 := by omega
  have n2 : m0.hA.length + 5 ≠ m0.hA.length + 2 := by omega
  have n3 : m0.hA.length + 5 ≠ m0.hA.length + 3 := by omega
  have n4 : m0.hA.length + 5 ≠ m0.hA.length + 4 := by omega
  simp only [sfMid, sfTargets, setTargets, sfAttach6, attachHE, getH_updV,
    getH_updE, getH_updH, p0, p1, p2, p3, p4, p5, n0, n1, n2, n3, n4, eq_self_iff_true, if_true, if_false,
    ite_true, ite_false]
  rw [sfBuild_getH_b2]
  try rfl

theorem sfMid_getH_frame (m0 : CBaseMesh) (L : SFLocal) (s0 s1 s2 : Nat)
    (hOK : sfOK m0 L s0 s1 s2) (x : Nat) (hx : x < m0.hA.length)
    (hx0 : x ≠ L.h0) (hx1 : x ≠ L.h1) (hx2 : x ≠ L.h2)
    (hy0 : x ≠ s0) (hy1 : x ≠ s1) (hy2 : x ≠ s2) :
    getH (sfMid m0 L s0 s1 s2) x = getH m0 x := by
  obtain ⟨hb0, hb1, hb2, hc0, hc1, hc2, hd0, hd1, hd2,
    ⟨hh01, hh02, hh12⟩, ⟨hs01, hs02, hs12⟩,
    ⟨s0h0, s0h1, s0h2⟩, ⟨s1h0, s1h1, s1h2⟩, ⟨s2h0, s2h1, s2h2⟩,
    ⟨e01, e02, e12⟩, ⟨v01, v02, v12⟩, vb0, vb1, vb2⟩ := hOK
  have n0 : x ≠ m0.hA.length := by omega
  have n1 : x ≠ m0.hA.length + 1 := by omega
  have n2 : x ≠ m0.hA.length + 2 := by omega
  have n3 : x ≠ m0.hA.length + 3 := by omega
  have n4 : x ≠ m0.hA.length + 4 := by omega
  have n5 : x ≠ m0.hA.length + 5 := by omega
  simp only [sfMid, sfTargets, setTargets, sfAttach6, attachHE, getH_updV,
    getH_updE, getH_updH, hx0, hx1, hx2, hy0, hy1, hy2, n0, n1, n2, n3, n4,
    n5, eq_self_iff_true, if_true, if_false, ite_true, ite_false]
  rw [sfBuild_getH_old _ _ hx]

theorem sfMid_getE_eg0 (m0 : CBaseMesh) (L : SFLocal) (s0 s1 s2 : Nat)
    (hOK : sfOK m0 L s0 s1 s2) :
    getE (sfMid m0 L s0 s1 s2) L.eg0 =
      (getE m0 L.eg0).map (fun er => { er with he0 := some L.h0, he1 := some s0 }) := by
  obtain ⟨hb0, hb1, hb2, hc0, hc1, hc2, hd0, hd1, hd2,
    ⟨hh01, hh02, hh12⟩, ⟨hs01, hs02, hs12⟩,
    ⟨s0h0, s0h1, s0h2⟩, ⟨s1h0, s1h1, s1h2⟩, ⟨s2h0, s2h1, s2h2⟩,
    ⟨e01, e02, e12⟩, ⟨v01, v02, v12⟩, vb0, vb1, vb2⟩ := hOK
  have p1 : L.eg0 ≠ L.eg1 := e01
  have p2 : L.eg0 ≠ L.eg2 := e02
  have n0 : L.eg0 ≠ m0.eA.length := by omega
  have n1 : L.eg0 ≠ m0.eA.length + 1 := by omega
  have n2 : L.eg0 ≠ m0.eA.length + 2 := by omega
  simp only [sfMid, sfTargets, setTargets, sfAttach6, attachHE, getE_updV,
    getE_updH, getE_updE, p1, p2, n0, n1, n2, eq_self_iff_true, if_true, if_false,
    ite_true, ite_false]
  rw [sfBuild_getE_old _ _ hd0]
  try cases getE m0 L.eg0 <;> rfl

theorem sfMid_getE_eg1 (m0 : CBaseMesh) (L : SFLocal) (s0 s1 s2 : Nat)
    (hOK : sfOK m0 L s0 s1 s2) :
    getE (sfMid m0 L s0 s1 s2) L.eg1 =
      (getE m0 L.eg1).map
      (fun er => { er with he0 := some (m0.hA.length + 1), he1 := some s1 }) := by
  obtain ⟨hb0, hb1, hb2, hc0, hc1, hc2, hd0, hd1, hd2,
    ⟨hh01, hh02, hh12⟩, ⟨hs01, hs02, hs12⟩,
    ⟨s0h0, s0h1, s0h2⟩, ⟨s1h0, s1h1, s1h2⟩, ⟨s2h0, s2h1, s2h2⟩,
    ⟨e01, e02, e12⟩, ⟨v01, v02, v12⟩, vb0, vb1, vb2⟩ := hOK
  have p1 : L.eg1 ≠ L.eg0 := Ne.symm e01
  have p2 : L.eg1 ≠ L.eg2 := e12
  have n0 : L.eg1 ≠ m0.eA.length := by omega
  have n1 : L.eg1 ≠ m0.eA.length + 1 := by omega
  have n2 : L.eg1 ≠ m0.eA.length + 2 := by omega
  simp only [sfMid, sfTargets, setTargets, sfAttach6, attachHE, getE_updV,
    getE_updH, getE_updE, p1, p2, n0, n1, n2, eq_self_iff_true, if_true, if_false,
    ite_true, ite_false]
  rw [sfBuild_getE_old _ _ hd1]
  try cases getE m0 L.eg1 <;> rfl

theorem sfMid_getE_eg2 (m0 : CBaseMesh) (L : SFLocal) (s0 s1 s2 : Nat)
    (hOK : sfOK m0 L s0 s1 s2) :
    getE (sfMid m0 L s0 s1 s2) L.eg2 =
      (getE m0 L.eg2).map
      (fun er => { er with he0 := some (m0.hA.length + 5), he1 := some s2 }) := by
  obtain ⟨hb0, hb1, hb2, hc0, hc1, hc2, hd0, hd1, hd2,
    ⟨hh01, hh02, hh12⟩, ⟨hs01, hs02, hs12⟩,
    ⟨s0h0, s0h1, s0h2⟩, ⟨s1h0, s1h1, s1h2⟩, ⟨s2h0, s2h1, s2h2⟩,
    ⟨e01, e02, e12⟩, ⟨v01, v02, v12⟩, vb0, vb1, vb2⟩ := hOK
  have p1 : L.eg2 ≠ L.eg0 := Ne.symm e02
  have p2 : L.eg2 ≠ L.eg1 := Ne.symm e12
  have n0 : L.eg2 ≠ m0.eA.length := by omega
  have n1 : L.eg2 ≠ m0.eA.length + 1 := by omega
  have n2 : L.eg2 ≠ m0.eA.length + 2 := by omega
  simp only [sfMid, sfTargets, setTargets, sfAttach6, attachHE, getE_updV,
    getE_updH, getE_updE, p1, p2, n0, n1, n2, eq_self_iff_true, if_true, if_false,
    ite_true, ite_false]
  rw [sfBuild_getE_old _ _ hd2]
  try cases getE m0 L.eg2 <;> rfl

theorem sfMid_getE_new0 (m0 : CBaseMesh) (L : SFLocal) (s0 s1 s2 : Nat)
    (hOK : sfOK m0 L s0 s1 s2) :
    getE (sfMid m0 L s0 s1 s2) m0.eA.length =
      some ⟨some L.h1, some m0.hA.length, 0⟩ := by
  obtain ⟨hb0, hb1, hb2, hc0, hc1, hc2, hd0, hd1, hd2,
    ⟨hh01, hh02, hh12⟩, ⟨hs01, hs02, hs12⟩,
    ⟨s0h0, s0h1, s0h2⟩, ⟨s1h0, s1h1, s1h2⟩, ⟨s2h0, s2h1, s2h2⟩,
    ⟨e01, e02, e12⟩, ⟨v01, v02, v12⟩, vb0, vb1, vb2⟩ := hOK
  have p0 : m0.eA.length ≠ L.eg0 := by omega
  have p1 : m0.eA.length ≠ L.eg1 := by omega
  have p2 : m0.eA.length ≠ L.eg2 := by omega
  have n0 : m0.eA.length ≠ m0.eA.length + 1 := by omega
  have n1 : m0.eA.length ≠ m0.eA.length + 2 := by omega
  simp only [sfMid, sfTargets, setTargets, sfAttach6, attachHE, getE_updV,
    getE_updH, getE_updE, p0, p1, p2, n0, n1, eq_self_iff_true, if_true, if_false,
    ite_true, ite_false]
  rw [sfBuild_getE_new0]
  try rfl

theorem sfMid_getE_new1 (m0 : CBaseMesh) (L : SFLocal) (s0 s1 s2 : Nat)
    (hOK : sfOK m0 L s0 s1 s2) :
    getE (sfMid m0 L s0 s1 s2) (m0.eA.length + 1) =
      some ⟨some (m0.hA.length + 2), some (m0.hA.length + 4), 0⟩ := by
  obtain ⟨hb0, hb1, hb2, hc0, hc1, hc2, hd0, hd1, hd2,
    ⟨hh01, hh02, hh12⟩, ⟨hs01, hs02, hs12⟩,
    ⟨s0h0, s0h1, s0h2⟩, ⟨s1h0, s1h1, s1h2⟩, ⟨s2h0, s2h1, s2h2⟩,
    ⟨e01, e02, e12⟩, ⟨v01, v02, v12⟩, vb0, vb1, vb2⟩ := hOK
  have p0 : m0.eA.length + 1 ≠ L.eg0 := by omega
  have p1 : m0.eA.length + 1 ≠ L.eg1 := by omega
  have p2 : m0.eA.length + 1 ≠ L.eg2 := by omega
  have n0 : m0.eA.length + 1 ≠ m0.eA.length := by omega
  have n1 : m0.eA.length + 1 ≠ m0.eA.length + 2 := by omega
  simp only [sfMid, sfTargets, setTargets, sfAttach6, attachHE, getE_updV,
    getE_updH, getE_updE, p0, p1, p2, n0, n1, eq_self_iff_true, if_true, if_false,
    ite_true, ite_false]
  rw [sfBuild_getE_new1]
  try rfl

theorem sfMid_getE_new2 (m0 : CBaseMesh) (L : SFLocal) (s0 s1 s2 : Nat)
    (hOK : sfOK m0 L s0 s1 s2) :
    getE (sfMid m0 L s0 s1 s2) (m0.eA.length + 2) =
      some ⟨some L.h2, some (m0.hA.length + 3), 0⟩ := by
  obtain ⟨hb0, hb1, hb2, hc0, hc1, hc2, hd0, hd1, hd2,
    ⟨hh01, hh02, hh12⟩, ⟨hs01, hs02, hs12⟩,
    ⟨s0h0, s0h1, s0h2⟩, ⟨s1h0, s1h1, s1h2⟩, ⟨s2h0, s2h1, s2h2⟩,
    ⟨e01, e02, e12⟩, ⟨v01, v02, v12⟩, vb0, vb1, vb2⟩ := hOK
  have p0 : m0.eA.length + 2 ≠ L.eg0 := by omega
  have p1 : m0.eA.length + 2 ≠ L.eg1 := by omega
  have p2 : m0.eA.length + 2 ≠ L.eg2 := by omega
  have n0 : m0.eA.length + 2 ≠ m0.eA.length := by omega
  have n1 : m0.eA.length + 2 ≠ m0.eA.length + 1 := by omega
  simp only [sfMid, sfTargets, setTargets, sfAttach6, attachHE, getE_updV,
    getE_updH, getE_updE, p0, p1, p2, n0, n1, eq_self_iff_true, if_true, if_false,
    ite_true, ite_false]
  rw [sfBuild_getE_new2]
  try rfl

theorem sfMid_getE_frame (m0 : CBaseMesh) (L : SFLocal) (s0 s1 s2 : Nat)
    (hOK : sfOK m0 L s0 s1 s2) (e : Nat) (he : e < m0.eA.length)
    (hg0 : e ≠ L.eg0) (hg1 : e ≠ L.eg1) (hg2 : e ≠ L.eg2) :
    getE (sfMid m0 L s0 s1 s2) e = getE m0 e := by
  obtain ⟨hb0, hb1, hb2, hc0, hc1, hc2, hd0, hd1, hd2,
    ⟨hh01, hh02, hh12⟩, ⟨hs01, hs02, hs12⟩,
    ⟨s0h0, s0h1, s0h2⟩, ⟨s1h0, s1h1, s1h2⟩, ⟨s2h0, s2h1, s2h2⟩,
    ⟨e01, e02, e12⟩, ⟨v01, v02, v12⟩, vb0, vb1, vb2⟩ := hOK
  have n0 : e ≠ m0.eA.length := by omega
  have n1 : e ≠ m0.eA.length + 1 := by omega
  have n2 : e ≠ m0.eA.length + 2 := by omega
  simp only [sfMid, sfTargets, setTargets, sfAttach6, attachHE, getE_updV,
    getE_updH, getE_updE, hg0, hg1, hg2, n0, n1, n2, eq_self_iff_true,
    if_true, if_false, ite_true, ite_false]
  rw [sfBuild_getE_old _ _ he]

theorem sfMid_edgesL (m0 : CBaseMesh) (L : SFLocal) (s0 s1 s2 : Nat) :
    (sfMid m0 L s0 s1 s2).edgesL =
      m0.edgesL ++ [m0.eA.length, m0.eA.length + 1, m0.eA.length + 2] := by
  simp [sfMid, sfAttach6, sfBuild]

theorem sfMid_vertsL (m0 : CBaseMesh) (L : SFLocal) (s0 s1 s2 : Nat) :
    (sfMid m0 L s0 s1 s2).vertsL = m0.vertsL ++ [m0.vA.length] := by
  simp [sfMid, sfAttach6, sfBuild]

theorem sfMid_facesL (m0 : CBaseMesh) (L : SFLocal) (s0 s1 s2 : Nat) :
    (sfMid m0 L s0 s1 s2).facesL =
      m0.facesL ++ [m0.fA.length, m0.fA.length + 1] := by
  simp [sfMid, sfAttach6, sfBuild]

theorem sfFinal_getE (m0 : CBaseMesh) (L : SFLocal) (s0 s1 s2 e : Nat) :
    getE (sfFinal m0 L s0 s1 s2) e = getE (sfMid m0 L s0 s1 s2) e := rfl

theorem sfFinal_getH (m0 : CBaseMesh) (L : SFLocal) (s0 s1 s2 x : Nat) :
    getH (sfFinal m0 L s0 s1 s2) x = getH (sfMid m0 L s0 s1 s2) x := rfl

theorem sfFinal_edgesL (m0 : CBaseMesh) (L : SFLocal) (s0 s1 s2 : Nat) :
    (sfFinal m0 L s0 s1 s2).edgesL = (sfMid m0 L s0 s1 s2).edgesL := rfl

theorem sfFinal_vertsL (m0 : CBaseMesh) (L : SFLocal) (s0 s1 s2 : Nat) :
    (sfFinal m0 L s0 s1 s2).vertsL = (sfMid m0 L s0 s1 s2).vertsL := rfl

theorem sfFinal_facesL (m0 : CBaseMesh) (L : SFLocal) (s0 s1 s2 : Nat) :
    (sfFinal m0 L s0 s1 s2).facesL = (sfMid m0 L s0 s1 s2).facesL := rfl

@[simp] theorem heDualV_updV (m : CBaseMesh) (i : Nat) (g : CVertex → CVertex)
    (h : Nat) : heDualV (updV m i g) h = heDualV m h := rfl

theorem sfGather_facts (m : CBaseMesh) (f : Nat) (L : SFLocal)
    (h : sfGather m f = some L) :
    heNextF m L.h0 = some L.h1 ∧ heNextF m L.h1 = some L.h2 ∧
    heTarget m L.h0 = some L.v0 ∧ heTarget m L.h1 = some L.v1 ∧
    heTarget m L.h2 = some L.v2 ∧
    heEdgeF m L.h0 = some L.eg0 ∧ heEdgeF m L.h1 = some L.eg1 ∧
    heEdgeF m L.h2 = some L.eg2 ∧
    heDualV m L.h0 = some L.hs0 ∧ heDualV m L.h1 = some L.hs1 ∧
    heDualV m L.h2 = some L.hs2 := by
  simp only [sfGather, faceTriple, triM, Option.bind_eq_bind] at h
  rw [Option.bind_eq_some] at h
  obtain ⟨fr, hfr, h⟩ := h
  rw [Option.bind_eq_some] at h
  obtain ⟨h0, hh0, h⟩ := h
  rw [Option.bind_eq_some] at h
  obtain ⟨t, hft, h⟩ := h
  rw [Option.bind_eq_some] at h
  obtain ⟨vs, hvs, h⟩ := h
  rw [Option.bind_eq_some] at h
  obtain ⟨es, hes, h⟩ := h
  rw [Option.bind_eq_some] at h
  obtain ⟨ds, hds, h⟩ := h
  rw [Option.pure_def, Option.some_inj] at h
  subst h
  rw [Option.bind_eq_some] at hft
  obtain ⟨r, hr, hft⟩ := hft
  rw [Option.bind_eq_some] at hft
  obtain ⟨h1, hn1, hft⟩ := hft
  rw [Option.bind_eq_some] at hft
  obtain ⟨r1, hr1, hft⟩ := hft
  rw [Option.bind_eq_some] at hft
  obtain ⟨h2, hn2, hft⟩ := hft
  rw [Option.pure_def, Option.some_inj] at hft
  subst hft
  rw [Option.bind_eq_some] at hvs
  obtain ⟨v0, hv0, hvs⟩ := hvs
  rw [Option.bind_eq_some] at hvs
  obtain ⟨v1, hv1, hvs⟩ := hvs
  rw [Option.bind_eq_some] at hvs
  obtain ⟨v2, hv2, hvs⟩ := hvs
  rw [Option.pure_def, Option.some_inj] at hvs
  subst hvs
  rw [Option.bind_eq_some] at hes
  obtain ⟨e0, he0, hes⟩ := hes
  rw [Option.bind_eq_some] at hes
  obtain ⟨e1, he1, hes⟩ := hes
  rw [Option.bind_eq_some] at hes
  obtain ⟨e2, he2, hes⟩ := hes
  rw [Option.pure_def, Option.some_inj] at hes
  subst hes
  rw [Option.bind_eq_some] at hds
  obtain ⟨d0, hd0, hds⟩ := hds
  rw [Option.bind_eq_some] at hds
  obtain ⟨d1, hd1, hds⟩ := hds
  rw [Option.bind_eq_some] at hds
  obtain ⟨d2, hd2, hds⟩ := hds
  rw [Option.pure_def, Option.some_inj] at hds
  subst hds
  refine ⟨?_, ?_, hv0, hv1, hv2, he0, he1, he2, hd0, hd1, hd2⟩
  · simp [heNextF, hr, hn1]
  · simp [heNextF, hr1, hn2]

theorem sfAttach_run (m : CBaseMesh) (L : SFLocal)
    (s0 s1 s2 a0 a1 a2 b0 b1 b2 e0 e1 e2 : Nat)
    (hhs0 : L.hs0 = some s0) (hhs1 : L.hs1 = some s1)
    (hhs2 : L.hs2 = some s2) :
    sfAttach m L a0 a1 a2 b0 b1 b2 e0 e1 e2 =
      some (sfAttach6 m L s0 s1 s2 a0 a1 a2 b0 b1 b2 e0 e1 e2) := by
  simp [sfAttach, sfAttach6, hhs0, hhs1, hhs2]

theorem sfReps_run (m : CBaseMesh) (L : SFLocal) (s0 s1 s2 : Nat)
    (d0 d1 d2 : Option Nat)
    (hhs0 : L.hs0 = some s0) (hhs1 : L.hs1 = some s1)
    (hhs2 : L.hs2 = some s2)
    (hd0 : heDualV m s0 = some d0)
    (hd1 : heDualV m s1 = some d1)
    (hd2 : heDualV m s2 = some d2) :
    sfReps m L =
      some (updV (updV (updV m L.v0 (fun v => { v with halfedge := d0 }))
        L.v1 (fun v => { v with halfedge := d1 }))
        L.v2 (fun v => { v with halfedge := d2 })) := by
  simp [sfReps, hhs0, hhs1, hhs2, hd0, hd1, hd2]

theorem splitFace_run (m0 : CBaseMesh) (f : Nat) (L : SFLocal)
    (s0 s1 s2 : Nat)
    (hG : sfGather m0 f = some L)
    (hhs0 : L.hs0 = some s0) (hhs1 : L.hs1 = some s1)
    (hhs2 : L.hs2 = some s2)
    (hd0 : heDualV (sfMid m0 L s0 s1 s2) s0 = some (some L.h0))
    (hd1 : heDualV (sfMid m0 L s0 s1 s2) s1 =
      some (some (m0.hA.length + 1)))
    (hd2 : heDualV (sfMid m0 L s0 s1 s2) s2 =
      some (some (m0.hA.length + 5))) :
    splitFace m0 f = some (sfFinal m0 L s0 s1 s2, m0.vA.length) := by
  have hG' : sfGather (create_vertex
      { m0 with dynVertexId := m0.dynVertexId + 1 }
      (m0.dynVertexId + 1)).1 f = some L := hG
  simp only [splitFace, Option.bind_eq_bind, hG', Option.some_bind]
  rw [sfAttach_run _ L s0 s1 s2 _ _ _ _ _ _ _ _ _ hhs0 hhs1 hhs2]
  simp only [Option.some_bind]
  show (sfReps (sfMid m0 L s0 s1 s2) L).bind
      (fun m => some (m, m0.vA.length)) =
    some (sfFinal m0 L s0 s1 s2, m0.vA.length)
  rw [sfReps_run _ L s0 s1 s2 _ _ _ hhs0 hhs1 hhs2 hd0 hd1 hd2]
  simp only [Option.some_bind, Option.bind_eq_bind]
  simp only [sfFinal, heDualV_updV]
  rw [hd0, hd1, hd2]
  rfl

theorem getH_isSome_lt (m : CBaseMesh) (x : Nat) (r : CHalfEdge)
    (h : getH m x = some r) : x < m.hA.length :=
  arenaGet_isSome_lt m.hA x
    (by rw [show arenaGet m.hA x = getH m x from rfl, h]; rfl)

theorem getE_isSome_lt (m : CBaseMesh) (x : Nat) (r : CEdge)
    (h : getE m x = some r) : x < m.eA.length :=
  arenaGet_isSome_lt m.eA x
    (by rw [show arenaGet m.eA x = getE m x from rfl, h]; rfl)

theorem getV_isSome_lt (m : CBaseMesh) (x : Nat) (r : CVertex)
    (h : getV m x = some r) : x < m.vA.length :=
  arenaGet_isSome_lt m.vA x
    (by rw [show arenaGet m.vA x = getV m x from rfl, h]; rfl)

theorem sfMid_getH_vp (m0 : CBaseMesh) (L : SFLocal) (s0 s1 s2 : Nat)
    (hOK : sfOK m0 L s0 s1 s2) (y : Nat) (hy : y < m0.hA.length)
    (hy1 : y ≠ L.h1) (hy2 : y ≠ L.h2) :
    (getH (sfMid m0 L s0 s1 s2) y).map (fun r => (r.vertex, r.prev)) =
      (getH m0 y).map (fun r => (r.vertex, r.prev)) := by
  by_cases h0 : y = L.h0
  · rw [h0, sfMid_getH_h0 m0 L s0 s1 s2 hOK]
    cases getH m0 L.h0 <;> rfl
  · by_cases hq0 : y = s0
    · rw [hq0, sfMid_getH_s0 m0 L s0 s1 s2 hOK]
      cases getH m0 s0 <;> rfl
    · by_cases hq1 : y = s1
      · rw [hq1, sfMid_getH_s1 m0 L s0 s1 s2 hOK]
        cases getH m0 s1 <;> rfl
      · by_cases hq2 : y = s2
        · rw [hq2, sfMid_getH_s2 m0 L s0 s1 s2 hOK]
          cases getH m0 s2 <;> rfl
        · rw [sfMid_getH_frame m0 L s0 s1 s2 hOK y hy h0 hy1 hy2 hq0 hq1 hq2]

theorem sfMid_heST_pres (m0 : CBaseMesh) (L : SFLocal) (s0 s1 s2 : Nat)
    (hOK : sfOK m0 L s0 s1 s2) (hWf : Wf m0) (hI1 : Inv1 m0)
    (gnext12 : heNextF m0 L.h1 = some L.h2)
    (gt2 : heTarget m0 L.h2 = some L.v2)
    (x : Nat) (hxm : x ∈ m0.halfedgesL) (hx1 : x ≠ L.h1) (hx2 : x ≠ L.h2) :
    heST (sfMid m0 L s0 s1 s2) x = heST m0 x := by
  obtain ⟨_, _, _, _, _, hheOk, _⟩ := hWf
  obtain ⟨r, hr, ⟨v, hv, hvm⟩, ⟨nn, hnn, hnm⟩, ⟨p, hp, hpm⟩, _⟩ := hheOk x hxm
  have hx : x < m0.hA.length := getH_isSome_lt m0 x r hr
  have hvp := sfMid_getH_vp m0 L s0 s1 s2 hOK x hx hx1 hx2
  rw [hr] at hvp
  obtain ⟨r', hr', hvp'⟩ : ∃ r', getH (sfMid m0 L s0 s1 s2) x = some r' ∧
      (r'.vertex, r'.prev) = (r.vertex, r.prev) := by
    cases hq : getH (sfMid m0 L s0 s1 s2) x with
    | none => rw [hq] at hvp; simp at hvp
    | some rr =>
      rw [hq] at hvp
      exact ⟨rr, rfl, Option.some_inj.1 hvp⟩
  have hrv : r'.vertex = r.vertex := congrArg Prod.fst hvp'
  have hrp : r'.prev = r.prev := congrArg Prod.snd hvp'
  obtain ⟨prr, hprr, ⟨pv, hpv, hpvm⟩, _⟩ := hheOk p hpm
  have hpb : p < m0.hA.length := getH_isSome_lt m0 p prr hprr
  have hph1 : p ≠ L.h1 := by
    intro hEq
    obtain ⟨_, hc2, _⟩ := hI1 x hxm
    rw [show hePrevF m0 x = some L.h1 from by
      simp [hePrevF, hr, hp, hEq]] at hc2
    simp only [Option.some_bind, Option.bind_eq_bind] at hc2
    rw [gnext12] at hc2
    exact hx2 (Option.some_inj.1 hc2).symm
  have hpveq : (getH (sfMid m0 L s0 s1 s2) p).bind (fun q => q.vertex) =
      (getH m0 p).bind (fun q => q.vertex) := by
    by_cases hph2 : p = L.h2
    · subst hph2
      rw [sfMid_getH_h2 m0 L s0 s1 s2 hOK, hprr]
      have hv2 : prr.vertex = some L.v2 := by
        have h' := gt2
        simp only [heTarget, hprr, Option.bind_eq_bind, Option.some_bind] at h'
        exact h'
      simp [hv2]
    · have hvpp := sfMid_getH_vp m0 L s0 s1 s2 hOK p hpb hph1 hph2
      rw [hprr] at hvpp
      cases hq : getH (sfMid m0 L s0 s1 s2) p with
      | none => rw [hq] at hvpp; simp at hvpp
      | some rr =>
        rw [hq] at hvpp
        have : rr.vertex = prr.vertex :=
          congrArg Prod.fst (Option.some_inj.1 hvpp)
        simp [hprr, this]
  have hT : heTarget (sfMid m0 L s0 s1 s2) x = heTarget m0 x := by
    simp only [heTarget, Option.bind_eq_bind]
    rw [hr', hr]
    simp [hrv]
  have hS : heSource (sfMid m0 L s0 s1 s2) x = heSource m0 x := by
    simp only [heSource, Option.bind_eq_bind]
    rw [hr', hr]
    simp only [Option.some_bind, hrp, hp]
    exact hpveq
  simp only [heST, Option.bind_eq_bind, hS, hT]

theorem sfMid_endpoints_eg0 (m0 : CBaseMesh) (L : SFLocal) (s0 s1 s2 : Nat)
    (hOK : sfOK m0 L s0 s1 s2)
    (r0 r2 : CHalfEdge) (hr0 : getH m0 L.h0 = some r0)
    (hr2 : getH m0 L.h2 = some r2)
    (ger : CEdge) (hger : getE m0 L.eg0 = some ger)
    (gt0 : heTarget m0 L.h0 = some L.v0)
    (gprev0 : hePrevF m0 L.h0 = some L.h2)
    (gt2 : heTarget m0 L.h2 = some L.v2) :
    edgeEndpoints (sfMid m0 L s0 s1 s2) L.eg0 = some (L.v2, L.v0) := by
  have hv0 : r0.vertex = some L.v0 := by
    have h' := gt0
    simp only [heTarget, hr0, Option.bind_eq_bind, Option.some_bind] at h'
    exact h'
  have hp0 : r0.prev = some L.h2 := by
    have h' := gprev0
    simp only [hePrevF, hr0, Option.bind_eq_bind, Option.some_bind] at h'
    exact h'
  have hv2 : r2.vertex = some L.v2 := by
    have h' := gt2
    simp only [heTarget, hr2, Option.bind_eq_bind, Option.some_bind] at h'
    exact h'
  simp only [edgeEndpoints, Option.bind_eq_bind]
  rw [sfMid_getE_eg0 m0 L s0 s1 s2 hOK, hger]
  simp only [Option.map_some', Option.some_bind]
  simp only [heST, heSource, heTarget, Option.bind_eq_bind]
  rw [sfMid_getH_h0 m0 L s0 s1 s2 hOK, hr0]
  simp only [Option.map_some', Option.some_bind, hp0, hv0]
  rw [sfMid_getH_h2 m0 L s0 s1 s2 hOK, hr2]
  simp [hv2]

theorem sfMid_endpoints_eg1 (m0 : CBaseMesh) (L : SFLocal) (s0 s1 s2 : Nat)
    (hOK : sfOK m0 L s0 s1 s2)
    (ger : CEdge) (hger : getE m0 L.eg1 = some ger) :
    edgeEndpoints (sfMid m0 L s0 s1 s2) L.eg1 = some (L.v0, L.v1) := by
  simp only [edgeEndpoints, Option.bind_eq_bind]
  rw [sfMid_getE_eg1 m0 L s0 s1 s2 hOK, hger]
  simp only [Option.map_some', Option.some_bind]
  simp only [heST, heSource, heTarget, Option.bind_eq_bind]
  rw [sfMid_getH_a1 m0 L s0 s1 s2 hOK]
  simp only [Option.some_bind]
  rw [sfMid_getH_a0 m0 L s0 s1 s2 hOK]
  rfl

theorem sfMid_endpoints_eg2 (m0 : CBaseMesh) (L : SFLocal) (s0 s1 s2 : Nat)
    (hOK : sfOK m0 L s0 s1 s2)
    (ger : CEdge) (hger : getE m0 L.eg2 = some ger) :
    edgeEndpoints (sfMid m0 L s0 s1 s2) L.eg2 = some (L.v1, L.v2) := by
  simp only [edgeEndpoints, Option.bind_eq_bind]
  rw [sfMid_getE_eg2 m0 L s0 s1 s2 hOK, hger]
  simp only [Option.map_some', Option.some_bind]
  simp only [heST, heSource, heTarget, Option.bind_eq_bind]
  rw [sfMid_getH_b2 m0 L s0 s1 s2 hOK]
  simp only [Option.some_bind]
  rw [sfMid_getH_b1 m0 L s0 s1 s2 hOK]
  rfl

theorem sfMid_endpoints_ne0 (m0 : CBaseMesh) (L : SFLocal) (s0 s1 s2 : Nat)
    (hOK : sfOK m0 L s0 s1 s2)
    (r0 r1 : CHalfEdge) (hr0 : getH m0 L.h0 = some r0)
    (hr1 : getH m0 L.h1 = some r1)
    (gt0 : heTarget m0 L.h0 = some L.v0)
    (gprev1 : hePrevF m0 L.h1 = some L.h0) :
    edgeEndpoints (sfMid m0 L s0 s1 s2) m0.eA.length =
      some (L.v0, m0.vA.length) := by
  have hv0 : r0.vertex = some L.v0 := by
    have h' := gt0
    simp only [heTarget, hr0, Option.bind_eq_bind, Option.some_bind] at h'
    exact h'
  have hp1 : r1.prev = some L.h0 := by
    have h' := gprev1
    simp only [hePrevF, hr1, Option.bind_eq_bind, Option.some_bind] at h'
    exact h'
  simp only [edgeEndpoints, Option.bind_eq_bind]
  rw [sfMid_getE_new0 m0 L s0 s1 s2 hOK]
  simp only [Option.some_bind]
  simp only [heST, heSource, heTarget, Option.bind_eq_bind]
  rw [sfMid_getH_h1 m0 L s0 s1 s2 hOK, hr1]
  simp only [Option.map_some', Option.some_bind, hp1]
  rw [sfMid_getH_h0 m0 L s0 s1 s2 hOK, hr0]
  simp [hv0]

theorem sfMid_endpoints_ne1 (m0 : CBaseMesh) (L : SFLocal) (s0 s1 s2 : Nat)
    (hOK : sfOK m0 L s0 s1 s2) :
    edgeEndpoints (sfMid m0 L s0 s1 s2) (m0.eA.length + 1) =
      some (L.v1, m0.vA.length) := by
  simp only [edgeEndpoints, Option.bind_eq_bind]
  rw [sfMid_getE_new1 m0 L s0 s1 s2 hOK]
  simp only [Option.some_bind]
  simp only [heST, heSource, heTarget, Option.bind_eq_bind]
  rw [sfMid_getH_a2 m0 L s0 s1 s2 hOK]
  simp only [Option.some_bind]
  rw [sfMid_getH_a1 m0 L s0 s1 s2 hOK]
  rfl

theorem sfMid_endpoints_ne2 (m0 : CBaseMesh) (L : SFLocal) (s0 s1 s2 : Nat)
    (hOK : sfOK m0 L s0 s1 s2)
    (r1 r2 : CHalfEdge) (hr1 : getH m0 L.h1 = some r1)
    (hr2 : getH m0 L.h2 = some r2)
    (gprev2 : hePrevF m0 L.h2 = some L.h1) :
    edgeEndpoints (sfMid m0 L s0 s1 s2) (m0.eA.length + 2) =
      some (m0.vA.length, L.v2) := by
  have hp2 : r2.prev = some L.h1 := by
    have h' := gprev2
    simp only [hePrevF, hr2, Option.bind_eq_bind, Option.some_bind] at h'
    exact h'
  simp only [edgeEndpoints, Option.bind_eq_bind]
  rw [sfMid_getE_new2 m0 L s0 s1 s2 hOK]
  simp only [Option.some_bind]
  simp only [heST, heSource, heTarget, Option.bind_eq_bind]
  rw [sfMid_getH_h2 m0 L s0 s1 s2 hOK, hr2]
  simp only [Option.map_some', Option.some_bind, hp2]
  rw [sfMid_getH_h1 m0 L s0 s1 s2 hOK, hr1]
  simp

theorem sfMid_endpoints_old (m0 : CBaseMesh) (L : SFLocal) (s0 s1 s2 : Nat)
    (hOK : sfOK m0 L s0 s1 s2) (hWf : Wf m0) (hI1 : Inv1 m0)
    (gnext12 : heNextF m0 L.h1 = some L.h2)
    (gt2 : heTarget m0 L.h2 = some L.v2)
    (ge1 : heEdgeF m0 L.h1 = some L.eg1)
    (ge2 : heEdgeF m0 L.h2 = some L.eg2)
    (e : Nat) (hem : e ∈ m0.edgesL)
    (hne0 : e ≠ L.eg0) (hne1 : e ≠ L.eg1) (hne2 : e ≠ L.eg2) :
    edgeEndpoints (sfMid m0 L s0 s1 s2) e = edgeEndpoints m0 e := by
  have hWf' := hWf
  obtain ⟨_, _, _, _, _, _, hedOk⟩ := hWf'
  obtain ⟨er, her, ⟨x, hx0, hxm, hxe⟩, _⟩ := hedOk e hem
  have heb : e < m0.eA.length := getE_isSome_lt m0 e er her
  have hx1 : x ≠ L.h1 := by
    intro hEq
    rw [hEq, ge1] at hxe
    exact hne1 (Option.some_inj.1 hxe).symm
  have hx2 : x ≠ L.h2 := by
    intro hEq
    rw [hEq, ge2] at hxe
    exact hne2 (Option.some_inj.1 hxe).symm
  have hst := sfMid_heST_pres m0 L s0 s1 s2 hOK hWf hI1 gnext12 gt2 x hxm hx1 hx2
  simp only [edgeEndpoints, Option.bind_eq_bind]
  rw [sfMid_getE_frame m0 L s0 s1 s2 hOK e heb hne0 hne1 hne2, her]
  simp only [Option.some_bind, hx0, hst]

theorem m0_endpoints_live (m0 : CBaseMesh) (hWf : Wf m0) (e : Nat)
    (hem : e ∈ m0.edgesL) :
    ∃ s t, edgeEndpoints m0 e = some (s, t) ∧
      s ∈ m0.vertsL ∧ t ∈ m0.vertsL := by
  obtain ⟨_, _, _, _, _, hheOk, hedOk⟩ := hWf
  obtain ⟨er, her, ⟨x, hx0, hxm, _⟩, _⟩ := hedOk e hem
  obtain ⟨r, hr, ⟨v, hv, hvm⟩, _, ⟨p, hp, hpm⟩, _⟩ := hheOk x hxm
  obtain ⟨pr, hpr, ⟨pv, hpv, hpvm⟩, _⟩ := hheOk p hpm
  refine ⟨pv, v, ?_, hpvm, hvm⟩
  simp only [edgeEndpoints, Option.bind_eq_bind]
  rw [her]
  simp only [Option.some_bind, hx0]
  simp only [heST, heSource, heTarget, Option.bind_eq_bind]
  rw [hr]
  simp only [Option.some_bind, hp, hv]
  rw [hpr]
  simp [hpv]

theorem m0_endpoints_eg0 (m0 : CBaseMesh) (L : SFLocal)
    (hWf : Wf m0) (hI2 : Inv2 m0) (hm0 : L.h0 ∈ m0.halfedgesL)
    (r2 : CHalfEdge) (hr2 : getH m0 L.h2 = some r2)
    (gt0 : heTarget m0 L.h0 = some L.v0)
    (gprev0 : hePrevF m0 L.h0 = some L.h2)
    (gt2 : heTarget m0 L.h2 = some L.v2)
    (ge0 : heEdgeF m0 L.h0 = some L.eg0) :
    edgeEndpoints m0 L.eg0 = some (L.v2, L.v0) ∨
    edgeEndpoints m0 L.eg0 = some (L.v0, L.v2) := by
  obtain ⟨_, _, _, _, _, hheOk, hedOk⟩ := hWf
  obtain ⟨r0', hr0', _, _, _, ⟨e', he', hem', er', her', hslot⟩⟩ :=
    hheOk L.h0 hm0
  have hre : r0'.edge = some L.eg0 := by
    have h' := ge0
    simp only [heEdgeF, hr0', Option.bind_eq_bind, Option.some_bind] at h'
    exact h'
  rw [hre] at he'
  obtain rfl := (Option.some_inj.1 he').symm
  have hp0 : r0'.prev = some L.h2 := by
    have h' := gprev0
    simp only [hePrevF, hr0', Option.bind_eq_bind, Option.some_bind] at h'
    exact h'
  have hv2 : r2.vertex = some L.v2 := by
    have h' := gt2
    simp only [heTarget, hr2, Option.bind_eq_bind, Option.some_bind] at h'
    exact h'
  have hsrc0 : heSource m0 L.h0 = some L.v2 := by
    simp only [heSource, Option.bind_eq_bind]
    rw [hr0']
    simp only [Option.some_bind, hp0]
    rw [hr2]
    simp [hv2]
  have hST0 : heST m0 L.h0 = some (L.v2, L.v0) := by
    simp only [heST, Option.bind_eq_bind, hsrc0, gt0]
    rfl
  rcases hslot with hA | hB
  · left
    simp only [edgeEndpoints, Option.bind_eq_bind]
    rw [her']
    simp only [Option.some_bind, hA, hST0]
  · obtain ⟨er'', her'', ⟨x, hx0, hxm', hxe⟩, _⟩ := hedOk L.eg0 hem'
    rw [her'] at her''
    obtain rfl := Option.some_inj.1 her''
    obtain ⟨_, _, hT1, hT2⟩ := hI2 L.eg0 hem' er' her' x hx0 L.h0 hB
    right
    simp only [edgeEndpoints, Option.bind_eq_bind]
    rw [her']
    simp only [Option.some_bind, hx0]
    simp only [heST, Option.bind_eq_bind]
    rw [← hT2, gt0, hT1, hsrc0]
    rfl

theorem m0_endpoints_eg1 (m0 : CBaseMesh) (L : SFLocal)
    (hWf : Wf m0) (hI2 : Inv2 m0) (hm1 : L.h1 ∈ m0.halfedgesL)
    (r0 : CHalfEdge) (hr0 : getH m0 L.h0 = some r0)
    (gt0 : heTarget m0 L.h0 = some L.v0)
    (gt1 : heTarget m0 L.h1 = some L.v1)
    (gprev1 : hePrevF m0 L.h1 = some L.h0)
    (ge1 : heEdgeF m0 L.h1 = some L.eg1) :
    edgeEndpoints m0 L.eg1 = some (L.v0, L.v1) ∨
    edgeEndpoints m0 L.eg1 = some (L.v1, L.v0) := by
  obtain ⟨_, _, _, _, _, hheOk, hedOk⟩ := hWf
  obtain ⟨r1', hr1', _, _, _, ⟨e', he', hem', er', her', hslot⟩⟩ :=
    hheOk L.h1 hm1
  have hre : r1'.edge = some L.eg1 := by
    have h' := ge1
    simp only [heEdgeF, hr1', Option.bind_eq_bind, Option.some_bind] at h'
    exact h'
  rw [hre] at he'
  obtain rfl := (Option.some_inj.1 he').symm
  have hp1 : r1'.prev = some L.h0 := by
    have h' := gprev1
    simp only [hePrevF, hr1', Option.bind_eq_bind, Option.some_bind] at h'
    exact h'
  have hv0 : r0.vertex = some L.v0 := by
    have h' := gt0
    simp only [heTarget, hr0, Option.bind_eq_bind, Option.some_bind] at h'
    exact h'
  have hsrc1 : heSource m0 L.h1 = some L.v0 := by
    simp only [heSource, Option.bind_eq_bind]
    rw [hr1']
    simp only [Option.some_bind, hp1]
    rw [hr0]
    simp [hv0]
  have hST1 : heST m0 L.h1 = some (L.v0, L.v1) := by
    simp only [heST, Option.bind_eq_bind, hsrc1, gt1]
    rfl
  rcases hslot with hA | hB
  · left
    simp only [edgeEndpoints, Option.bind_eq_bind]
    rw [her']
    simp only [Option.some_bind, hA, hST1]
  · obtain ⟨er'', her'', ⟨x, hx0, hxm', hxe⟩, _⟩ := hedOk L.eg1 hem'
    rw [her'] at her''
    obtain rfl := Option.some_inj.1 her''
    obtain ⟨_, _, hT1, hT2⟩ := hI2 L.eg1 hem' er' her' x hx0 L.h1 hB
    right
    simp only [edgeEndpoints, Option.bind_eq_bind]
    rw [her']
    simp only [Option.some_bind, hx0]
    simp only [heST, Option.bind_eq_bind]
    rw [← hT2, gt1, hT1, hsrc1]
    rfl

theorem m0_endpoints_eg2 (m0 : CBaseMesh) (L : SFLocal)
    (hWf : Wf m0) (hI2 : Inv2 m0) (hm2 : L.h2 ∈ m0.halfedgesL)
    (r1 : CHalfEdge) (hr1 : getH m0 L.h1 = some r1)
    (gt1 : heTarget m0 L.h1 = some L.v1)
    (gt2 : heTarget m0 L.h2 = some L.v2)
    (gprev2 : hePrevF m0 L.h2 = some L.h1)
    (ge2 : heEdgeF m0 L.h2 = some L.eg2) :
    edgeEndpoints m0 L.eg2 = some (L.v1, L.v2) ∨
    edgeEndpoints m0 L.eg2 = some (L.v2, L.v1) := by
  obtain ⟨_, _, _, _, _, hheOk, hedOk⟩ := hWf
  obtain ⟨r2', hr2', _, _, _, ⟨e', he', hem', er', her', hslot⟩⟩ :=
    hheOk L.h2 hm2
  have hre : r2'.edge = some L.eg2 := by
    have h' := ge2
    simp only [heEdgeF, hr2', Option.bind_eq_bind, Option.some_bind] at h'
    exact h'
  rw [hre] at he'
  obtain rfl := (Option.some_inj.1 he').symm
  have hp2 : r2'.prev = some L.h1 := by
    have h' := gprev2
    simp only [hePrevF, hr2', Option.bind_eq_bind, Option.some_bind] at h'
    exact h'
  have hv1 : r1.vertex = some L.v1 := by
    have h' := gt1
    simp only [heTarget, hr1, Option.bind_eq_bind, Option.some_bind] at h'
    exact h'
  have hsrc2 : heSource m0 L.h2 = some L.v1 := by
    simp only [heSource, Option.bind_eq_bind]
    rw [hr2']
    simp only [Option.some_bind, hp2]
    rw [hr1]
    simp [hv1]
  have hST2 : heST m0 L.h2 = some (L.v1, L.v2) := by
    simp only [heST, Option.bind_eq_bind, hsrc2, gt2]
    rfl
  rcases hslot with hA | hB
  · left
    simp only [edgeEndpoints, Option.bind_eq_bind]
    rw [her']
    simp only [Option.some_bind, hA, hST2]
  · obtain ⟨er'', her'', ⟨x, hx0, hxm', hxe⟩, _⟩ := hedOk L.eg2 hem'
    rw [her'] at her''
    obtain rfl := Option.some_inj.1 her''
    obtain ⟨_, _, hT1, hT2⟩ := hI2 L.eg2 hem' er' her' x hx0 L.h2 hB
    right
    simp only [edgeEndpoints, Option.bind_eq_bind]
    rw [her']
    simp only [Option.some_bind, hx0]
    simp only [heST, Option.bind_eq_bind]
    rw [← hT2, gt2, hT1, hsrc2]
    rfl

theorem sfMid_heDualV_s0 (m0 : CBaseMesh) (L : SFLocal) (s0 s1 s2 : Nat)
    (hOK : sfOK m0 L s0 s1 s2)
    (rs0 : CHalfEdge) (hrs0 : getH m0 s0 = some rs0)
    (ger0 : CEdge) (hger0 : getE m0 L.eg0 = some ger0) :
    heDualV (sfMid m0 L s0 s1 s2) s0 = some (some L.h0) := by
  have hOKc := hOK
  obtain ⟨hb0, hb1, hb2, hc0, hc1, hc2, hd0, hd1, hd2,
    ⟨hh01, hh02, hh12⟩, ⟨hs01, hs02, hs12⟩,
    ⟨s0h0, s0h1, s0h2⟩, ⟨s1h0, s1h1, s1h2⟩, ⟨s2h0, s2h1, s2h2⟩,
    ⟨e01, e02, e12⟩, ⟨v01, v02, v12⟩, vb0, vb1, vb2⟩ := hOKc
  simp only [heDualV, Option.bind_eq_bind]
  rw [sfMid_getH_s0 m0 L s0 s1 s2 hOK, hrs0]
  simp only [Option.map_some', Option.some_bind]
  rw [sfMid_getE_eg0 m0 L s0 s1 s2 hOK, hger0]
  simp only [Option.map_some', Option.some_bind, edgeOther]
  rw [if_neg]
  · rfl
  · simp only [Option.some_inj]
    exact fun hEq => s0h0 hEq.symm

theorem sfMid_heDualV_s1 (m0 : CBaseMesh) (L : SFLocal) (s0 s1 s2 : Nat)
    (hOK : sfOK m0 L s0 s1 s2)
    (rs1 : CHalfEdge) (hrs1 : getH m0 s1 = some rs1)
    (ger1 : CEdge) (hger1 : getE m0 L.eg1 = some ger1) :
    heDualV (sfMid m0 L s0 s1 s2) s1 = some (some (m0.hA.length + 1)) := by
  have hOKc := hOK
  obtain ⟨hb0, hb1, hb2, hc0, hc1, hc2, hd0, hd1, hd2,
    ⟨hh01, hh02, hh12⟩, ⟨hs01, hs02, hs12⟩,
    ⟨s0h0, s0h1, s0h2⟩, ⟨s1h0, s1h1, s1h2⟩, ⟨s2h0, s2h1, s2h2⟩,
    ⟨e01, e02, e12⟩, ⟨v01, v02, v12⟩, vb0, vb1, vb2⟩ := hOKc
  simp only [heDualV, Option.bind_eq_bind]
  rw [sfMid_getH_s1 m0 L s0 s1 s2 hOK, hrs1]
  simp only [Option.map_some', Option.some_bind]
  rw [sfMid_getE_eg1 m0 L s0 s1 s2 hOK, hger1]
  simp only [Option.map_some', Option.some_bind, edgeOther]
  rw [if_neg]
  · rfl
  · simp only [Option.some_inj]
    omega

theorem sfMid_heDualV_s2 (m0 : CBaseMesh) (L : SFLocal) (s0 s1 s2 : Nat)
    (hOK : sfOK m0 L s0 s1 s2)
    (rs2 : CHalfEdge) (hrs2 : getH m0 s2 = some rs2)
    (ger2 : CEdge) (hger2 : getE m0 L.eg2 = some ger2) :
    heDualV (sfMid m0 L s0 s1 s2) s2 = some (some (m0.hA.length + 5)) := by
  have hOKc := hOK
  obtain ⟨hb0, hb1, hb2, hc0, hc1, hc2, hd0, hd1, hd2,
    ⟨hh01, hh02, hh12⟩, ⟨hs01, hs02, hs12⟩,
    ⟨s0h0, s0h1, s0h2⟩, ⟨s1h0, s1h1, s1h2⟩, ⟨s2h0, s2h1, s2h2⟩,
    ⟨e01, e02, e12⟩, ⟨v01, v02, v12⟩, vb0, vb1, vb2⟩ := hOKc
  simp only [heDualV, Option.bind_eq_bind]
  rw [sfMid_getH_s2 m0 L s0 s1 s2 hOK, hrs2]
  simp only [Option.map_some', Option.some_bind]
  rw [sfMid_getE_eg2 m0 L s0 s1 s2 hOK, hger2]
  simp only [Option.map_some', Option.some_bind, edgeOther]
  rw [if_neg]
  · rfl
  · simp only [Option.some_inj]
    omega

/-- C8, amended.  On a face with a boundary edge `splitFace` crashes (see
the counterexample); the claim holds for interior triangles.  For a face
of a well-formed mesh (`Wf`, spec §3 invariants) whose gathered local
data has live, pairwise-distinct half-edges, duals, edges and targets,
`splitFace` completes, and on the resulting mesh `num_faces` has grown by
exactly 2, `num_vertices` by exactly 1 and `num_edges` by exactly 3; the
degree of each of the face's three vertices has grown by exactly 1, and
the new vertex has degree 3, joined to the three original vertices by the
three new edges. -/
theorem C8_splitFace_amended (m0 : CBaseMesh) (f : Nat) (L : SFLocal)
    (s0 s1 s2 : Nat)
    (hG : sfGather m0 f = some L)
    (hhs0 : L.hs0 = some s0) (hhs1 : L.hs1 = some s1)
    (hhs2 : L.hs2 = some s2)
    (hOK : sfOK m0 L s0 s1 s2)
    (hm0 : L.h0 ∈ m0.halfedgesL) (hm1 : L.h1 ∈ m0.halfedgesL)
    (hm2 : L.h2 ∈ m0.halfedgesL)
    (hms0 : s0 ∈ m0.halfedgesL) (hms1 : s1 ∈ m0.halfedgesL)
    (hms2 : s2 ∈ m0.halfedgesL)
    (gprev0 : hePrevF m0 L.h0 = some L.h2)
    (gprev1 : hePrevF m0 L.h1 = some L.h0)
    (gprev2 : hePrevF m0 L.h2 = some L.h1)
    (hWf : Wf m0) (hI1 : Inv1 m0) (hI2 : Inv2 m0) :
    splitFace m0 f = some (sfFinal m0 L s0 s1 s2, m0.vA.length) ∧
    (sfFinal m0 L s0 s1 s2).facesL.length = m0.facesL.length + 2 ∧
    (sfFinal m0 L s0 s1 s2).vertsL.length = m0.vertsL.length + 1 ∧
    (sfFinal m0 L s0 s1 s2).edgesL.length = m0.edgesL.length + 3 ∧
    degree (sfFinal m0 L s0 s1 s2) L.v0 = degree m0 L.v0 + 1 ∧
    degree (sfFinal m0 L s0 s1 s2) L.v1 = degree m0 L.v1 + 1 ∧
    degree (sfFinal m0 L s0 s1 s2) L.v2 = degree m0 L.v2 + 1 ∧
    degree (sfFinal m0 L s0 s1 s2) m0.vA.length = 3 ∧
    connectsB (sfFinal m0 L s0 s1 s2) m0.eA.length L.v0 m0.vA.length = true ∧
    connectsB (sfFinal m0 L s0 s1 s2) (m0.eA.length + 1) L.v1 m0.vA.length
      = true ∧
    connectsB (sfFinal m0 L s0 s1 s2) (m0.eA.length + 2) L.v2 m0.vA.length
      = true := by
  obtain ⟨gnext01, gnext12, gt0, gt1, gt2, ge0, ge1, ge2, gd0, gd1, gd2⟩ :=
    sfGather_facts m0 f L hG
  have hOKc := hOK
  obtain ⟨hb0, hb1, hb2, hc0, hc1, hc2, hdd0, hdd1, hdd2,
    ⟨hh01, hh02, hh12⟩, ⟨hs01, hs02, hs12⟩,
    ⟨s0h0, s0h1, s0h2⟩, ⟨s1h0, s1h1, s1h2⟩, ⟨s2h0, s2h1, s2h2⟩,
    ⟨e01, e02, e12⟩, ⟨v01, v02, v12⟩, vb0, vb1, vb2⟩ := hOKc
  have hWfc := hWf
  obtain ⟨hndV, hndE, hndH, hndF, hvlive, hheOk, hedOk⟩ := hWfc
  obtain ⟨r0, hr0, _⟩ := hheOk L.h0 hm0
  obtain ⟨r1, hr1, _⟩ := hheOk L.h1 hm1
  obtain ⟨r2, hr2, _⟩ := hheOk L.h2 hm2
  obtain ⟨rs0, hrs0, _⟩ := hheOk s0 hms0
  obtain ⟨rs1, hrs1, _⟩ := hheOk s1 hms1
  obtain ⟨rs2, hrs2, _⟩ := hheOk s2 hms2
  obtain ⟨r0x, hr0x, _, _, _, ⟨e0x, he0x, hem0, ger0, hger0, _⟩⟩ :=
    hheOk L.h0 hm0
  obtain ⟨r1x, hr1x, _, _, _, ⟨e1x, he1x, hem1, ger1, hger1, _⟩⟩ :=
    hheOk L.h1 hm1
  obtain ⟨r2x, hr2x, _, _, _, ⟨e2x, he2x, hem2, ger2, hger2, _⟩⟩ :=
    hheOk L.h2 hm2
  have hre0 : r0x.edge = some L.eg0 := by
    have h' := ge0
    simp only [heEdgeF, hr0x, Option.bind_eq_bind, Option.some_bind] at h'
    exact h'
  rw [hre0] at he0x
  obtain rfl := (Option.some_inj.1 he0x).symm
  have hre1 : r1x.edge = some L.eg1 := by
    have h' := ge1
    simp only [heEdgeF, hr1x, Option.bind_eq_bind, Option.some_bind] at h'
    exact h'
  rw [hre1] at he1x
  obtain rfl := (Option.some_inj.1 he1x).symm
  have hre2 : r2x.edge = some L.eg2 := by
    have h' := ge2
    simp only [heEdgeF, hr2x, Option.bind_eq_bind, Option.some_bind] at h'
    exact h'
  rw [hre2] at he2x
  obtain rfl := (Option.some_inj.1 he2x).symm
  have hd0 := sfMid_heDualV_s0 m0 L s0 s1 s2 hOK rs0 hrs0 ger0 hger0
  have hd1 := sfMid_heDualV_s1 m0 L s0 s1 s2 hOK rs1 hrs1 ger1 hger1
  have hd2 := sfMid_heDualV_s2 m0 L s0 s1 s2 hOK rs2 hrs2 ger2 hger2
  have hrun := splitFace_run m0 f L s0 s1 s2 hG hhs0 hhs1 hhs2 hd0 hd1 hd2
  have hinc : ∀ e ∈ m0.edgesL, ∀ v,
      incidentB (sfMid m0 L s0 s1 s2) v e = incidentB m0 v e := by
    intro e hem v
    by_cases hq0 : e = L.eg0
    · subst hq0
      have hM := sfMid_endpoints_eg0 m0 L s0 s1 s2 hOK r0 r2 hr0 hr2
        ger0 hger0 gt0 gprev0 gt2
      rcases m0_endpoints_eg0 m0 L hWf hI2 hm0 r2 hr2 gt0 gprev0 gt2 ge0
        with hE | hE
      · simp only [incidentB, hM, hE]
      · simp only [incidentB, hM, hE]
        exact Bool.or_comm _ _
    · by_cases hq1 : e = L.eg1
      · subst hq1
        have hM := sfMid_endpoints_eg1 m0 L s0 s1 s2 hOK ger1 hger1
        rcases m0_endpoints_eg1 m0 L hWf hI2 hm1 r0 hr0 gt0 gt1 gprev1 ge1
          with hE | hE
        · simp only [incidentB, hM, hE]
        · simp only [incidentB, hM, hE]
          exact Bool.or_comm _ _
      · by_cases hq2 : e = L.eg2
        · subst hq2
          have hM := sfMid_endpoints_eg2 m0 L s0 s1 s2 hOK ger2 hger2
          rcases m0_endpoints_eg2 m0 L hWf hI2 hm2 r1 hr1 gt1 gt2 gprev2 ge2
            with hE | hE
          · simp only [incidentB, hM, hE]
          · simp only [incidentB, hM, hE]
            exact Bool.or_comm _ _
        · have hE := sfMid_endpoints_old m0 L s0 s1 s2 hOK hWf hI1 gnext12
            gt2 ge1 ge2 e hem hq0 hq1 hq2
          simp only [incidentB, hE]
  have hdegT : ∀ v, degree (sfFinal m0 L s0 s1 s2) v =
      degree (sfMid m0 L s0 s1 s2) v := by
    intro v
    unfold degree
    rw [sfFinal_edgesL]
    exact congrArg List.length (List.filter_congr (fun e _ => rfl))
  have hconT : ∀ e a b, connectsB (sfFinal m0 L s0 s1 s2) e a b =
      connectsB (sfMid m0 L s0 s1 s2) e a b := fun e a b => rfl
  have hE0 := sfMid_endpoints_ne0 m0 L s0 s1 s2 hOK r0 r1 hr0 hr1 gt0 gprev1
  have hE1 := sfMid_endpoints_ne1 m0 L s0 s1 s2 hOK
  have hE2 := sfMid_endpoints_ne2 m0 L s0 s1 s2 hOK r1 r2 hr1 hr2 gprev2
  have hpV0 : m0.vA.length ≠ L.v0 := by omega
  have hpV1 : m0.vA.length ≠ L.v1 := by omega
  have hpV2 : m0.vA.length ≠ L.v2 := by omega
  have i00 : incidentB (sfMid m0 L s0 s1 s2) L.v0 m0.eA.length = true := by
    simp [incidentB, hE0]
  have i01 : incidentB (sfMid m0 L s0 s1 s2) L.v0 (m0.eA.length + 1)
      = false := by
    simp [incidentB, hE1, Ne.symm v01, hpV0]
  have i02 : incidentB (sfMid m0 L s0 s1 s2) L.v0 (m0.eA.length + 2)
      = false := by
    simp [incidentB, hE2, Ne.symm v02, hpV0]
  have i10 : incidentB (sfMid m0 L s0 s1 s2) L.v1 m0.eA.length = false := by
    simp [incidentB, hE0, v01, hpV1]
  have i11 : incidentB (sfMid m0 L s0 s1 s2) L.v1 (m0.eA.length + 1)
      = true := by
    simp [incidentB, hE1]
  have i12 : incidentB (sfMid m0 L s0 s1 s2) L.v1 (m0.eA.length + 2)
      = false := by
    simp [incidentB, hE2, Ne.symm v12, hpV1]
  have i20 : incidentB (sfMid m0 L s0 s1 s2) L.v2 m0.eA.length = false := by
    simp [incidentB, hE0, v02, hpV2]
  have i21 : incidentB (sfMid m0 L s0 s1 s2) L.v2 (m0.eA.length + 1)
      = false := by
    simp [incidentB, hE1, v12, hpV2]
  have i22 : incidentB (sfMid m0 L s0 s1 s2) L.v2 (m0.eA.length + 2)
      = true := by
    simp [incidentB, hE2]
  have ip0 : incidentB (sfMid m0 L s0 s1 s2) m0.vA.length m0.eA.length
      = true := by
    simp [incidentB, hE0]
  have ip1 : incidentB (sfMid m0 L s0 s1 s2) m0.vA.length
      (m0.eA.length + 1) = true := by
    simp [incidentB, hE1]
  have ip2 : incidentB (sfMid m0 L s0 s1 s2) m0.vA.length
      (m0.eA.length + 2) = true := by
    simp [incidentB, hE2]
  have hdeg : ∀ v, degree (sfMid m0 L s0 s1 s2) v =
      (m0.edgesL.filter (incidentB m0 v)).length +
      (([m0.eA.length, m0.eA.length + 1, m0.eA.length + 2]).filter
        (incidentB (sfMid m0 L s0 s1 s2) v)).length := by
    intro v
    unfold degree
    rw [sfMid_edgesL, List.filter_append, List.length_append]
    congr 1
    exact congrArg List.length (List.filter_congr (fun e he => hinc e he v))
  have hd_v0 : degree (sfMid m0 L s0 s1 s2) L.v0 = degree m0 L.v0 + 1 := by
    rw [hdeg L.v0]
    unfold degree
    simp [List.filter_cons, i00, i01, i02]
  have hd_v1 : degree (sfMid m0 L s0 s1 s2) L.v1 = degree m0 L.v1 + 1 := by
    rw [hdeg L.v1]
    unfold degree
    simp [List.filter_cons, i10, i11, i12]
  have hd_v2 : degree (sfMid m0 L s0 s1 s2) L.v2 = degree m0 L.v2 + 1 := by
    rw [hdeg L.v2]
    unfold degree
    simp [List.filter_cons, i20, i21, i22]
  have hd_pV : degree (sfMid m0 L s0 s1 s2) m0.vA.length = 3 := by
    rw [hdeg m0.vA.length]
    have hOldP : ∀ e ∈ m0.edgesL, incidentB m0 m0.vA.length e = false := by
      intro e hem
      obtain ⟨sV, tV, hEnd, hsV, htV⟩ := m0_endpoints_live m0 hWf e hem
      obtain ⟨ra, hra⟩ := Option.isSome_iff_exists.1 (hvlive sV hsV)
      obtain ⟨rb, hrb⟩ := Option.isSome_iff_exists.1 (hvlive tV htV)
      have hs' : sV ≠ m0.vA.length := by
        have := getV_isSome_lt m0 sV ra hra
        omega
      have ht' : tV ≠ m0.vA.length := by
        have := getV_isSome_lt m0 tV rb hrb
        omega
      simp [incidentB, hEnd, hs', ht']
    have hOldZ : (m0.edgesL.filter (incidentB m0 m0.vA.length)).length
        = 0 := by
      rw [List.filter_congr (fun e he => hOldP e he)]
      simp
    rw [hOldZ]
    simp [List.filter_cons, ip0, ip1, ip2]
  have hc0 : connectsB (sfMid m0 L s0 s1 s2) m0.eA.length L.v0
      m0.vA.length = true := by
    simp [connectsB, hE0]
  have hc1 : connectsB (sfMid m0 L s0 s1 s2) (m0.eA.length + 1) L.v1
      m0.vA.length = true := by
    simp [connectsB, hE1]
  have hc2 : connectsB (sfMid m0 L s0 s1 s2) (m0.eA.length + 2) L.v2
      m0.vA.length = true := by
    simp [connectsB, hE2]
  refine ⟨hrun, ?_, ?_, ?_,
    (hdegT L.v0).trans hd_v0, (hdegT L.v1).trans hd_v1,
    (hdegT L.v2).trans hd_v2, (hdegT m0.vA.length).trans hd_pV,
    (hconT _ _ _).trans hc0, (hconT _ _ _).trans hc1,
    (hconT _ _ _).trans hc2⟩
  · rw [sfFinal_facesL, sfMid_facesL]
    simp
  · rw [sfFinal_vertsL, sfMid_vertsL]
    simp
  · rw [sfFinal_edgesL, sfMid_edgesL]
    simp

/-- Witness for C8 on the tetrahedron: face 0 is an interior triangle of
a well-formed mesh, and the theorem applies to it. -/
theorem C8_splitFace_amended_witness :
    sfGather (meshTet.getD emptyMesh) 0 =
      some (⟨2, 0, 1, 2, 0, 1, 2, 0, 1, some 6, some 10, some 3⟩ : SFLocal) ∧
    sfOK (meshTet.getD emptyMesh) (⟨2, 0, 1, 2, 0, 1, 2, 0, 1, some 6, some 10, some 3⟩ : SFLocal) 6 10 3 ∧
    Wf (meshTet.getD emptyMesh) ∧ Inv1 (meshTet.getD emptyMesh) ∧ Inv2 (meshTet.getD emptyMesh) ∧
    (splitFace (meshTet.getD emptyMesh) 0 =
      some (sfFinal (meshTet.getD emptyMesh) (⟨2, 0, 1, 2, 0, 1, 2, 0, 1, some 6, some 10, some 3⟩ : SFLocal) 6 10 3, (meshTet.getD emptyMesh).vA.length) ∧
    (sfFinal (meshTet.getD emptyMesh) (⟨2, 0, 1, 2, 0, 1, 2, 0, 1, some 6, some 10, some 3⟩ : SFLocal) 6 10 3).facesL.length = (meshTet.getD emptyMesh).facesL.length + 2 ∧
    (sfFinal (meshTet.getD emptyMesh) (⟨2, 0, 1, 2, 0, 1, 2, 0, 1, some 6, some 10, some 3⟩ : SFLocal) 6 10 3).vertsL.length = (meshTet.getD emptyMesh).vertsL.length + 1 ∧
    (sfFinal (meshTet.getD emptyMesh) (⟨2, 0, 1, 2, 0, 1, 2, 0, 1, some 6, some 10, some 3⟩ : SFLocal) 6 10 3).edgesL.length = (meshTet.getD emptyMesh).edgesL.length + 3 ∧
    degree (sfFinal (meshTet.getD emptyMesh) (⟨2, 0, 1, 2, 0, 1, 2, 0, 1, some 6, some 10, some 3⟩ : SFLocal) 6 10 3) (⟨2, 0, 1, 2, 0, 1, 2, 0, 1, some 6, some 10, some 3⟩ : SFLocal).v0 =
      degree (meshTet.getD emptyMesh) (⟨2, 0, 1, 2, 0, 1, 2, 0, 1, some 6, some 10, some 3⟩ : SFLocal).v0 + 1 ∧
    degree (sfFinal (meshTet.getD emptyMesh) (⟨2, 0, 1, 2, 0, 1, 2, 0, 1, some 6, some 10, some 3⟩ : SFLocal) 6 10 3) (⟨2, 0, 1, 2, 0, 1, 2, 0, 1, some 6, some 10, some 3⟩ : SFLocal).v1 =
      degree (meshTet.getD emptyMesh) (⟨2, 0, 1, 2, 0, 1, 2, 0, 1, some 6, some 10, some 3⟩ : SFLocal).v1 + 1 ∧
    degree (sfFinal (meshTet.getD emptyMesh) (⟨2, 0, 1, 2, 0, 1, 2, 0, 1, some 6, some 10, some 3⟩ : SFLocal) 6 10 3) (⟨2, 0, 1, 2, 0, 1, 2, 0, 1, some 6, some 10, some 3⟩ : SFLocal).v2 =
      degree (meshTet.getD emptyMesh) (⟨2, 0, 1, 2, 0, 1, 2, 0, 1, some 6, some 10, some 3⟩ : SFLocal).v2 + 1 ∧
    degree (sfFinal (meshTet.getD emptyMesh) (⟨2, 0, 1, 2, 0, 1, 2, 0, 1, some 6, some 10, some 3⟩ : SFLocal) 6 10 3) (meshTet.getD emptyMesh).vA.length = 3 ∧
    connectsB (sfFinal (meshTet.getD emptyMesh) (⟨2, 0, 1, 2, 0, 1, 2, 0, 1, some 6, some 10, some 3⟩ : SFLocal) 6 10 3) (meshTet.getD emptyMesh).eA.length (⟨2, 0, 1, 2, 0, 1, 2, 0, 1, some 6, some 10, some 3⟩ : SFLocal).v0
      (meshTet.getD emptyMesh).vA.length = true ∧
    connectsB (sfFinal (meshTet.getD emptyMesh) (⟨2, 0, 1, 2, 0, 1, 2, 0, 1, some 6, some 10, some 3⟩ : SFLocal) 6 10 3) ((meshTet.getD emptyMesh).eA.length + 1) (⟨2, 0, 1, 2, 0, 1, 2, 0, 1, some 6, some 10, some 3⟩ : SFLocal).v1
      (meshTet.getD emptyMesh).vA.length = true ∧
    connectsB (sfFinal (meshTet.getD emptyMesh) (⟨2, 0, 1, 2, 0, 1, 2, 0, 1, some 6, some 10, some 3⟩ : SFLocal) 6 10 3) ((meshTet.getD emptyMesh).eA.length + 2) (⟨2, 0, 1, 2, 0, 1, 2, 0, 1, some 6, some 10, some 3⟩ : SFLocal).v2
      (meshTet.getD emptyMesh).vA.length = true) :=
  ⟨by decide, by decide, by decide, by decide, by decide,
    C8_splitFace_amended (meshTet.getD emptyMesh) 0
      (⟨2, 0, 1, 2, 0, 1, 2, 0, 1, some 6, some 10, some 3⟩ : SFLocal) 6 10 3
      (by decide) rfl rfl rfl (by decide)
      (by decide) (by decide) (by decide)
      (by decide) (by decide) (by decide)
      (by decide) (by decide) (by decide)
      (by decide) (by decide) (by decide)⟩
